import Mathlib

/-!
# Fine-grained access accounting (`src/loop-analysis/operation-type.cpp`)

A shallow embedding of the density-gating and fine-grained accounting code of
`namespace tiling`, followed by theorems about it.

Conventions of the embedding.

* `double` is IEEE 754 binary64 and a `double` value is the rational it
  denotes.  Every arithmetic result is rounded to the nearest binary64 value,
  ties to even (`roundToDouble`); the code only multiplies and converts, so
  only these operations are modelled.  Densities lie in `[0,1]` and counts are
  below `2^64`, hence no product leaves the finite binary64 range; overflow to
  infinity and NaN are outside the model.
* `std::uint64_t` values are naturals, subtraction is taken modulo `2^64`.
* `std::map` is a partial function on its keys; `operator[]=` is `assign`,
  `at` raises `Error.out_of_range` on a missing key.
* A reference parameter mutated in place becomes an argument and a result.
  A call that throws reports the state it had reached.
-/

namespace tiling

/-! ## Failure -/

/-- The ways a call can fail to produce a result: `std::out_of_range`, thrown
by `std::map::at`; behaviour the language leaves undefined (element access
outside a vector or array, conversion of an out-of-range floating value to an
unsigned integer, the end of a value-returning function reached); and a failed
`assert`, which aborts the program. -/
inductive Error where
  | out_of_range
  | undefined
  | assertion_failed
  deriving DecidableEq, Repr

/-! ## binary64 arithmetic -/

/-- Round a rational to the nearest integer, ties to the even neighbour. -/
def roundHalfEven (q : ℚ) : ℤ :=
  let f := ⌊q⌋
  if q - f < 1 / 2 then f
  else if 1 / 2 < q - f then f + 1
  else if f % 2 = 0 then f else f + 1

/-- Position of the leading bit of `n`, by repeated halving. -/
def log2Fuel : Nat → Nat → Nat
  | 0, _ => 0
  | fuel + 1, n => if n < 2 then 0 else log2Fuel fuel (n / 2) + 1

/-- Floor of the binary logarithm of a positive natural (`0` at `0`). -/
def natLog2 (n : Nat) : Nat := log2Fuel n n

/-- Floor of the binary logarithm of `|x|` for a nonzero rational. -/
def ilog2 (x : ℚ) : ℤ :=
  let e : ℤ := (natLog2 x.num.natAbs : ℤ) - (natLog2 x.den : ℤ)
  if (2 : ℚ) ^ e ≤ |x| then e else e - 1

/-- Exponent of the binade of `x`; values below `2^-1022` are subnormal and
share the exponent `-1022`. -/
def binade (x : ℚ) : ℤ := max (ilog2 x) (-1022)

/-- Spacing of the binary64 values around `x` (53-bit significand). -/
def ulp (x : ℚ) : ℚ := (2 : ℚ) ^ (binade x - 52)

/-- The binary64 value nearest to `x`, ties to even. -/
def roundToDouble (x : ℚ) : ℚ := roundHalfEven (x / ulp x) * ulp x

/-- The product `a * b` of two `double`s. -/
def fmul (a b : ℚ) : ℚ := roundToDouble (a * b)

/-- Conversion of a `std::uint64_t` to `double`. -/
def ofUInt64 (n : Nat) : ℚ := roundToDouble n

/-- Conversion of an `int` to `double`. -/
def ofInt (i : ℤ) : ℚ := roundToDouble i

/-- The function `ceil` of `<cmath>`: the result is an integral `double`. -/
def ceil (x : ℚ) : ℤ := ⌈x⌉

/-- Conversion of an integral `double` to `std::uint64_t`; undefined when the
value is outside the range of the type. -/
def toUInt64 (v : ℤ) : Except Error Nat :=
  if 0 ≤ v ∧ v < 2 ^ 64 then .ok v.toNat else .error .undefined

/-- Subtraction of two `std::uint64_t`. -/
def subUInt64 (a b : Nat) : Nat := (a % 2 ^ 64 + (2 ^ 64 - b % 2 ^ 64)) % 2 ^ 64

/-- The initialiser `std::uint64_t n = ceil(density * total)` with `density` a
`double` and `total` a `std::uint64_t` (lines 116, 122, 168 and 174). -/
def randomCount (density : ℚ) (total : Nat) : Except Error Nat :=
  toUInt64 (ceil (fmul density (ofUInt64 total)))

/-! ## Data model -/

/-- Modelled from the spec: the member `fine_grained_accesses` of a record,
declared in a header outside the sources, a `std::map` from an action label to
a 64-bit unsigned count. -/
abbrev FineGrainedAccesses := String → Option Nat

/-- The assignment `m[key] = value`. -/
def assign (m : FineGrainedAccesses) (key : String) (value : Nat) : FineGrainedAccesses :=
  fun k => if k = key then some value else m k

/-- Modelled from the spec: the per-tensor movement record
`tiling::DataMovementInfo`, declared in a header outside the sources, reduced
to the members the accounting uses.  The totals are `std::uint64_t` (lines 115,
121, 127) and `tile_density` stands for `tile_density.GetAverageDensity()`. -/
structure DataMovementInfo where
  reads : Nat
  fills : Nat
  updates : Nat
  tile_density : ℚ
  fine_grained_accesses : FineGrainedAccesses

/-- Modelled from the spec: `tiling::CompoundDataMovementInfo`, one movement
record per data space, indexed by data-space id. -/
abbrev CompoundDataMovementInfo := List DataMovementInfo

/-- Modelled from the spec: the compute record `tiling::ComputeInfo`, declared
in a header outside the sources, reduced to the members the accounting uses;
`replication_factor` and `accesses` are 64-bit unsigned counts. -/
structure ComputeInfo where
  replication_factor : Nat
  accesses : Nat
  fine_grained_accesses : FineGrainedAccesses

/-- Modelled from the spec: the tensor-id registry `problem::Shape` reached
through `problem::GetShape()`, reduced to the three members the code reads. -/
structure Shape where
  NumDataSpaces : Nat
  DataSpaceNameToID : String → Option Nat
  DataSpaceIDToName : Nat → Option String

/-- Modelled from the spec: `sparse::PerDataSpaceActionGatingInfo`, a `std::map`
from an action name to the ordered names of the gating data spaces. -/
abbrev PerDataSpaceActionGatingInfo := String → Option (List String)

/-- Modelled from the spec: `sparse::PerStorageLevelActionGatingInfo`, a
`std::map` from a data-space name to its gating. -/
abbrev PerStorageLevelActionGatingInfo := String → Option PerDataSpaceActionGatingInfo

/-- Modelled from the spec: `sparse::ComputeActionGatingInfo`, of the same shape
as the gating of one data space, keyed by the action `compute`. -/
abbrev ComputeActionGatingInfo := PerDataSpaceActionGatingInfo

/-- Modelled from the spec: the three operation-type tables
`arithmeticOperationTypes`, `storageOperationTypes` and
`networkOperationTypes`, static arrays of labels declared in
`operation-type.hpp`, which is not part of the sources. -/
structure OperationTypeTables where
  arithmeticOperationTypes : List String
  storageOperationTypes : List String
  networkOperationTypes : List String

/-! ## `GetNumOpTypes` -/

/-- Lines 36-40, the overload without argument. -/
def GetNumOpTypesDefault : ℤ := 1

/-- Lines 42-55.  `sizeof(table) / sizeof(table[0])` is the number of entries
of the array.  In the last branch `assert(false)` aborts; when assertions are
compiled out (`ndebug`) control reaches the end of the function, which
returns `int`, and the behaviour is undefined. -/
def GetNumOpTypes (ndebug : Bool) (tables : OperationTypeTables) (component_type : String) :
    Except Error ℤ :=
  if component_type = "arithmetic" then .ok tables.arithmeticOperationTypes.length
  else if component_type = "storage" then .ok tables.storageOperationTypes.length
  else if component_type = "network" then .ok tables.networkOperationTypes.length
  else if ndebug then .error .undefined
  else .error .assertion_failed

/-! ## `GetDensityByGatedActionNames` -/

/-- The loop of lines 70-73: multiply `density` by the average density of each
named data space in turn. -/
def gatedDensityLoop (shape : Shape) (compound_data_movement : CompoundDataMovementInfo) :
    List String → ℚ → Except Error ℚ
  | [], density => .ok density
  | name :: rest, density =>
    match shape.DataSpaceNameToID name with
    | none => .error .out_of_range
    | some id =>
      match compound_data_movement[id]? with
      | none => .error .undefined
      | some record =>
        gatedDensityLoop shape compound_data_movement rest (fmul density record.tile_density)

/-- Lines 58-78. -/
def GetDensityByGatedActionNames (shape : Shape)
    (data_space_gating_info : PerDataSpaceActionGatingInfo) (action_name : String)
    (compound_data_movement : CompoundDataMovementInfo) : Except Error ℚ :=
  match data_space_gating_info action_name with
  | none => .ok 1
  | some gated_data_space_names =>
    match gated_data_space_names with
    | [] => .error .undefined
    | first :: _ =>
      if first = "all" then .ok 0
      else gatedDensityLoop shape compound_data_movement gated_data_space_names 1

/-! ## Storage and metadata accounting -/

/-- Lines 97-112 and 150-164: the densities of the two gated actions of data
space `pv`, both `1.0` when its name has no gating entry. -/
def gatingDensities (shape : Shape) (per_level_sparse_gating : PerStorageLevelActionGatingInfo)
    (first_action second_action : String) (pv : Nat)
    (compound_data_movement : CompoundDataMovementInfo) : Except Error (ℚ × ℚ) :=
  match shape.DataSpaceIDToName pv with
  | none => .error .out_of_range
  | some data_space_name =>
    match per_level_sparse_gating data_space_name with
    | none => .ok (1, 1)
    | some data_space_gating_info =>
      match GetDensityByGatedActionNames shape data_space_gating_info first_action
          compound_data_movement with
      | .error e => .error e
      | .ok first_density =>
        match GetDensityByGatedActionNames shape data_space_gating_info second_action
            compound_data_movement with
        | .error e => .error e
        | .ok second_density => .ok (first_density, second_density)

/-- Lines 114-131 on the record of one data space. -/
def dataMovementRecord (read_avg_density write_avg_density : ℚ) (record : DataMovementInfo) :
    Except Error DataMovementInfo :=
  let total_reads := record.reads
  match randomCount read_avg_density total_reads with
  | .error e => .error e
  | .ok num_random_reads =>
    let fga := assign record.fine_grained_accesses "random_read" num_random_reads
    let fga := assign fga "gated_read" (subUInt64 total_reads num_random_reads)
    let total_fills := record.fills
    match randomCount write_avg_density total_fills with
    | .error e => .error e
    | .ok num_random_fills =>
      let fga := assign fga "random_fill" num_random_fills
      let fga := assign fga "gated_fill" (subUInt64 total_fills num_random_fills)
      let total_updates := record.updates
      let num_random_updates := total_updates
      let fga := assign fga "random_update" num_random_updates
      let fga := assign fga "gated_update" (subUInt64 total_updates num_random_updates)
      .ok { record with fine_grained_accesses := fga }

/-- Lines 166-176 on the record of one data space. -/
def metaDataRecord (metadata_read_avg_density metadata_write_avg_density : ℚ)
    (record : DataMovementInfo) : Except Error DataMovementInfo :=
  let total_memory_reads := record.reads
  match randomCount metadata_read_avg_density total_memory_reads with
  | .error e => .error e
  | .ok num_metadata_reads =>
    let fga := assign record.fine_grained_accesses "metadata_read" num_metadata_reads
    let fga := assign fga "gated_metadata_read" (subUInt64 total_memory_reads num_metadata_reads)
    let total_memory_fills := record.fills
    match randomCount metadata_write_avg_density total_memory_fills with
    | .error e => .error e
    | .ok num_metadata_fills =>
      let fga := assign fga "metadata_fill" num_metadata_fills
      let fga := assign fga "gated_metadata_fill"
        (subUInt64 total_memory_fills num_metadata_fills)
      .ok { record with fine_grained_accesses := fga }

/-- One iteration of either loop: resolve the two densities of data space
`pv`, then rewrite `compound_data_movement[pv]`. -/
def accountingBody (shape : Shape) (per_level_sparse_gating : PerStorageLevelActionGatingInfo)
    (first_action second_action : String)
    (account : ℚ → ℚ → DataMovementInfo → Except Error DataMovementInfo)
    (pv : Nat) (compound_data_movement : CompoundDataMovementInfo) :
    Except Error CompoundDataMovementInfo :=
  match gatingDensities shape per_level_sparse_gating first_action second_action pv
      compound_data_movement with
  | .error e => .error e
  | .ok densities =>
    match compound_data_movement[pv]? with
    | none => .error .undefined
    | some record =>
      match account densities.1 densities.2 record with
      | .error e => .error e
      | .ok record => .ok (compound_data_movement.set pv record)

/-- The loop `for (pv = 0; pv < bound; pv++) body`; a failing iteration ends
the loop and reports the state reached before it. -/
def forLoop {σ : Type} (body : Nat → σ → Except Error σ) : Nat → σ → Except (Error × σ) σ
  | 0, state => .ok state
  | bound + 1, state =>
    match forLoop body bound state with
    | .error e => .error e
    | .ok state =>
      match body bound state with
      | .error e => .error (e, state)
      | .ok state => .ok state

/-- Lines 142-179. -/
def ComputeFineGrainMetaDataAccesses (shape : Shape)
    (compound_data_movement : CompoundDataMovementInfo)
    (per_level_sparse_gating : PerStorageLevelActionGatingInfo) :
    Except (Error × CompoundDataMovementInfo) CompoundDataMovementInfo :=
  forLoop
    (accountingBody shape per_level_sparse_gating "metadata_read" "metadata_write" metaDataRecord)
    shape.NumDataSpaces compound_data_movement

/-- Lines 89-137. -/
def ComputeFineGrainDataMovementAccesses (shape : Shape)
    (compound_data_movement : CompoundDataMovementInfo)
    (per_level_sparse_gating : PerStorageLevelActionGatingInfo) :
    Except (Error × CompoundDataMovementInfo) CompoundDataMovementInfo :=
  match forLoop (accountingBody shape per_level_sparse_gating "read" "write" dataMovementRecord)
      shape.NumDataSpaces compound_data_movement with
  | .error e => .error e
  | .ok compound_data_movement =>
    ComputeFineGrainMetaDataAccesses shape compound_data_movement per_level_sparse_gating

/-! ## Compute accounting -/

/-- Conversion of a `std::uint64_t` to `int`: the low 32 bits, read as a
two's-complement number (required since C++20, and what compilers did before). -/
def toInt32 (n : Nat) : ℤ :=
  if n % 2 ^ 32 < 2 ^ 31 then (n % 2 ^ 32 : Nat) else (n % 2 ^ 32 : Nat) - 2 ^ 32

/-- Conversion of an `int` to `std::uint64_t`. -/
def intToUInt64 (i : ℤ) : Nat := (i % 2 ^ 64).toNat

/-- Lines 186-199. -/
def ComputeFineGrainComputeAccesses (shape : Shape) (compute_info : ComputeInfo)
    (compound_data_movement : CompoundDataMovementInfo)
    (compute_gating_info : ComputeActionGatingInfo) : Except Error ComputeInfo :=
  match GetDensityByGatedActionNames shape compute_gating_info "compute"
      compound_data_movement with
  | .error e => .error e
  | .ok compute_avg_density =>
    let total_accesses : ℤ :=
      toInt32 ((compute_info.replication_factor * compute_info.accesses) % 2 ^ 64)
    match toUInt64 (ceil (fmul (ofInt total_accesses) compute_avg_density)) with
    | .error e => .error e
    | .ok random_compute =>
      let fga := assign compute_info.fine_grained_accesses "random_compute" random_compute
      match fga "random_compute" with
      | none => .error .out_of_range
      | some stored =>
        let fga := assign fga "gated_compute" (subUInt64 (intToUInt64 total_accesses) stored)
        .ok { compute_info with fine_grained_accesses := fga }

/-! ## Reading a result -/

/-- The count stored under `key` in the compute record a call returned. -/
def computeCountAfter (result : Except Error ComputeInfo) (key : String) : Option Nat :=
  match result with
  | .error _ => none
  | .ok compute_info => compute_info.fine_grained_accesses key

/-- The count stored under `key` for data space `pv` in the state a call
returned, `none` if the call failed or the key is absent. -/
def countAfter (result : Except (Error × CompoundDataMovementInfo) CompoundDataMovementInfo)
    (pv : Nat) (key : String) : Option Nat :=
  match result with
  | .error _ => none
  | .ok compound_data_movement =>
    match compound_data_movement[pv]? with
    | none => none
    | some record => record.fine_grained_accesses key

/-! ## Shapes of results and of hypotheses -/

/-- The average tile densities of a movement collection, in id order. -/
def densities (cdm : CompoundDataMovementInfo) : List ℚ := cdm.map (·.tile_density)

/-- An accounting step keeps the average tile density of the record. -/
def KeepsDensity (account : ℚ → ℚ → DataMovementInfo → Except Error DataMovementInfo) : Prop :=
  ∀ d₁ d₂ r r', account d₁ d₂ r = .ok r' → r'.tile_density = r.tile_density

/-- The record `r` with its fine-grained map replaced. -/
def withAccesses (r : DataMovementInfo) (fga : FineGrainedAccesses) : DataMovementInfo :=
  { r with fine_grained_accesses := fga }

/-- The compute record `compute_info` with its fine-grained map replaced. -/
def withComputeAccesses (compute_info : ComputeInfo) (fga : FineGrainedAccesses) : ComputeInfo :=
  { compute_info with fine_grained_accesses := fga }

/-- The six entries lines 117-131 write. -/
def dataEntries (fga : FineGrainedAccesses) (reads random_reads fills random_fills updates : Nat) :
    FineGrainedAccesses :=
  assign (assign (assign (assign (assign (assign fga
    "random_read" random_reads)
    "gated_read" (subUInt64 reads random_reads))
    "random_fill" random_fills)
    "gated_fill" (subUInt64 fills random_fills))
    "random_update" updates)
    "gated_update" (subUInt64 updates updates)

/-- The four entries lines 169-176 write. -/
def metaDataEntries (fga : FineGrainedAccesses) (reads metadata_reads fills metadata_fills : Nat) :
    FineGrainedAccesses :=
  assign (assign (assign (assign fga
    "metadata_read" metadata_reads)
    "gated_metadata_read" (subUInt64 reads metadata_reads))
    "metadata_fill" metadata_fills)
    "gated_metadata_fill" (subUInt64 fills metadata_fills)

/-- The value of the variable `total_accesses` of line 194. -/
def totalAccesses (compute_info : ComputeInfo) : ℤ :=
  toInt32 ((compute_info.replication_factor * compute_info.accesses) % 2 ^ 64)

/-- Each name of `names` is registered and `ds` lists the average densities of
the records its ids index, in order. -/
def NamedDensities (shape : Shape) (m : CompoundDataMovementInfo) (names : List String)
    (ds : List ℚ) : Prop :=
  List.Forall₂ (fun name d => ∃ id r, shape.DataSpaceNameToID name = some id ∧
    m[id]? = some r ∧ r.tile_density = d) names ds

/-- The action has no gating list for the data space called `name`: the name
has no entry, or its entry lacks the action. -/
def Ungated (g : PerStorageLevelActionGatingInfo) (name action : String) : Prop :=
  g name = none ∨ ∃ info, g name = some info ∧ info action = none

/-- The sum of the counts stored under two keys, when both are present. -/
def sumOf (fga : FineGrainedAccesses) (random_key gated_key : String) : Option Nat :=
  match fga random_key, fga gated_key with
  | some a, some b => some (a + b)
  | _, _ => none

/-- Whether a call returned normally. -/
def succeeds {ε α : Type} (result : Except ε α) : Bool :=
  match result with
  | .ok _ => true
  | .error _ => false

/-- The error a failed call raised. -/
def failureOf {σ : Type} (result : Except (Error × σ) σ) : Option Error :=
  match result with
  | .ok _ => none
  | .error (e, _) => some e

/-- The error a failed resolution raised. -/
def errorOf {α : Type} (result : Except Error α) : Option Error :=
  match result with
  | .ok _ => none
  | .error e => some e

/-- The count stored under `key` for data space `pv` in the state a failed
call left behind, `none` if the call succeeded or the key is absent. -/
def countAtFailure (result : Except (Error × CompoundDataMovementInfo) CompoundDataMovementInfo)
    (pv : Nat) (key : String) : Option Nat :=
  match result with
  | .ok _ => none
  | .error (_, compound_data_movement) =>
    match compound_data_movement[pv]? with
    | none => none
    | some record => record.fine_grained_accesses key

/-- The six labels the storage pass writes. -/
def dataKeys : List String :=
  ["random_read", "gated_read", "random_fill", "gated_fill", "random_update", "gated_update"]

/-- The four labels the metadata pass writes. -/
def metaDataKeys : List String :=
  ["metadata_read", "gated_metadata_read", "metadata_fill", "gated_metadata_fill"]

/-- The four actions the storage and metadata passes resolve. -/
def gatedActions : List String := ["read", "write", "metadata_read", "metadata_write"]

/-! ## Sample inputs -/

/-- A map with no entry. -/
def emptyAccesses : FineGrainedAccesses := fun _ => none

/-- A fresh movement record. -/
def movement (reads fills updates : Nat) (density : ℚ) : DataMovementInfo :=
  { reads := reads, fills := fills, updates := updates, tile_density := density,
    fine_grained_accesses := emptyAccesses }

/-- A registry of three data spaces. -/
def threeSpaces : Shape :=
  { NumDataSpaces := 3
    DataSpaceNameToID := fun name =>
      if name = "Weights" then some 0 else if name = "Inputs" then some 1
      else if name = "Outputs" then some 2 else none
    DataSpaceIDToName := fun id =>
      if id = 0 then some "Weights" else if id = 1 then some "Inputs"
      else if id = 2 then some "Outputs" else none }

/-- A registry of one data space. -/
def oneSpace : Shape :=
  { NumDataSpaces := 1
    DataSpaceNameToID := fun name => if name = "Weights" then some 0 else none
    DataSpaceIDToName := fun id => if id = 0 then some "Weights" else none }

/-- No data space is gated. -/
def noGating : PerStorageLevelActionGatingInfo := fun _ => none

/-- Weights of density 0.5, Inputs of density 0.4 (the nearest `double`), dense
Outputs read 10 times. -/
def sampleMovement : CompoundDataMovementInfo :=
  [movement 100 40 0 (1 / 2), movement 60 30 0 (roundToDouble (2 / 5)), movement 10 7 5 1]

/-- Reads of Outputs are gated by Weights and Inputs, its writes by Weights. -/
def sampleGating : PerStorageLevelActionGatingInfo := fun name =>
  if name = "Outputs" then
    some (fun action =>
      if action = "read" then some ["Weights", "Inputs"]
      else if action = "write" then some ["Weights"] else none)
  else none

/-- One ungated dense data space read `2^54 + 3` times. -/
def largeReads : CompoundDataMovementInfo := [movement (2 ^ 54 + 3) 0 0 1]

/-- Writes of Outputs are gated by `all`, writes of Inputs by Weights. -/
def allWriteGating : PerStorageLevelActionGatingInfo := fun name =>
  if name = "Outputs" then
    some (fun action =>
      if action = "write" then some ["all"]
      else if action = "read" then some ["Weights"] else none)
  else if name = "Inputs" then
    some (fun action => if action = "write" then some ["Weights"] else none)
  else none

/-- The same list of names gates the reads and the writes. -/
def readWriteGate (names : List String) : PerDataSpaceActionGatingInfo := fun action =>
  if action = "read" then some names else if action = "write" then some names else none

/-- Reads and writes of Outputs are gated by Weights. -/
def weightsReadWriteGating : PerStorageLevelActionGatingInfo := fun name =>
  if name = "Outputs" then some (readWriteGate ["Weights"]) else none

/-- Dense data spaces; Outputs is read `2^53 + 1` times and filled `2^54 + 3`
times. -/
def denseLarge : CompoundDataMovementInfo :=
  [movement 0 0 0 1, movement 0 0 0 1, movement (2 ^ 53 + 1) (2 ^ 54 + 3) 0 1]

/-- Three data spaces whose first two have density 0. -/
def emptyTiles : CompoundDataMovementInfo :=
  [movement 8 8 8 0, movement 8 8 3 0, movement 12 9 5 1]

/-- One ungated dense data space read `2^53 + 1` times. -/
def oddReads : CompoundDataMovementInfo := [movement (2 ^ 53 + 1) 0 0 1]

/-- Only the fills of Outputs are gated. -/
def writeOnlyGating : PerStorageLevelActionGatingInfo := fun name =>
  if name = "Outputs" then some (fun action => if action = "write" then some ["Weights"] else none)
  else none

/-- A fresh compute record. -/
def computeRecord (replication_factor accesses : Nat) : ComputeInfo :=
  { replication_factor := replication_factor, accesses := accesses,
    fine_grained_accesses := emptyAccesses }

/-- Every action of every data space is gated by `all`. -/
def allGating : PerStorageLevelActionGatingInfo := fun _ => some (fun _ => some ["all"])

/-- Compute is gated by `all`. -/
def allComputeGating : ComputeActionGatingInfo := fun action =>
  if action = "compute" then some ["all"] else none

/-- Compute is gated by Inputs. -/
def inputsComputeGating : ComputeActionGatingInfo := fun action =>
  if action = "compute" then some ["Inputs"] else none

/-- Compute is not gated. -/
def noComputeGating : ComputeActionGatingInfo := fun _ => none

/-- Weights are dense, Inputs have density 0.25, Outputs are dense. -/
def quarterInputs : CompoundDataMovementInfo :=
  [movement 16 16 0 1, movement 16 16 0 (1 / 4), movement 16 16 16 1]

/-- Metadata accesses of Outputs are gated by Weights (reads) and by `all`
(fills). -/
def metadataGating : PerStorageLevelActionGatingInfo := fun name =>
  if name = "Outputs" then
    some (fun action =>
      if action = "metadata_read" then some ["Weights"]
      else if action = "metadata_write" then some ["all"] else none)
  else none

/-- The same list of names gates the metadata reads and the metadata writes. -/
def metadataGate (names : List String) : PerDataSpaceActionGatingInfo := fun action =>
  if action = "metadata_read" then some names
  else if action = "metadata_write" then some names else none

/-- Metadata reads and writes of Outputs are gated by Weights. -/
def weightsMetadataGating : PerStorageLevelActionGatingInfo := fun name =>
  if name = "Outputs" then some (metadataGate ["Weights"]) else none

/-- A gating map with a list for the action `read` only. -/
def readGate (names : List String) : PerDataSpaceActionGatingInfo := fun action =>
  if action = "read" then some names else none

/-- Records that already hold fine-grained entries of an earlier run. -/
def usedMovement : CompoundDataMovementInfo :=
  [ { movement 100 40 0 (1 / 2) with
      fine_grained_accesses := assign (assign emptyAccesses "random_read" 77) "stale" 1 },
    movement 60 30 0 (roundToDouble (2 / 5)), movement 10 7 5 1 ]

/-- Weights of density 0.1 (the nearest `double`), dense Inputs, dense Outputs
read 10 times. -/
def tenthMovement : CompoundDataMovementInfo :=
  [movement 4 4 0 (roundToDouble (1 / 10)), movement 4 4 0 1, movement 10 0 0 1]

/-- Reads of Outputs are gated by Weights. -/
def weightsReadGating : PerStorageLevelActionGatingInfo := fun name =>
  if name = "Outputs" then some (readGate ["Weights"]) else none

/-- Idle Weights, Inputs with reads only, Outputs with updates only; every
density is below one. -/
def idleMovement : CompoundDataMovementInfo :=
  [movement 0 0 0 (1 / 2), movement 6 0 0 (1 / 4), movement 0 0 9 (1 / 2)]

/-- Every action of every data space is gated by Weights and Inputs. -/
def denseGating : PerStorageLevelActionGatingInfo :=
  fun _ => some (fun _ => some ["Weights", "Inputs"])

/-- Tables with two, six and one entries. -/
def sampleTables : OperationTypeTables :=
  { arithmeticOperationTypes := ["random_compute", "gated_compute"]
    storageOperationTypes :=
      ["random_read", "random_fill", "random_update", "gated_read", "gated_fill", "gated_update"]
    networkOperationTypes := ["random_transfer"] }

/-- Reads of Weights have an empty gating list. -/
def emptyListGating : PerStorageLevelActionGatingInfo := fun name =>
  if name = "Weights" then some (readGate []) else none

/-- The sample with other totals for Weights and Inputs and another density
for Outputs. -/
def otherMovement : CompoundDataMovementInfo :=
  [movement 1 2 3 (1 / 2), movement 9 9 9 (roundToDouble (2 / 5)), movement 10 7 5 (1 / 2)]

/-- The sample gating with an entry for Inputs added. -/
def otherGating : PerStorageLevelActionGatingInfo := fun name =>
  if name = "Inputs" then some (fun _ => some ["all"]) else sampleGating name

/-- Dense Weights, half-dense Inputs and Outputs read `2^54 + 3` times. -/
def hugeOutputs : CompoundDataMovementInfo :=
  [movement 0 0 0 1, movement 0 0 0 (1 / 2), movement (2 ^ 54 + 3) 0 0 1]

/-- Reads of Outputs are gated by Weights and Inputs. -/
def weightsInputsReadGating : PerStorageLevelActionGatingInfo := fun name =>
  if name = "Outputs" then some (readGate ["Weights", "Inputs"]) else none

/-- The sample with lower densities for Weights and Inputs. -/
def sparserMovement : CompoundDataMovementInfo :=
  [movement 100 40 0 (1 / 4), movement 60 30 0 (roundToDouble (1 / 5)), movement 10 7 5 1]

/-- Reads of Outputs are gated by a data space the registry does not know. -/
def unknownReadGating : PerStorageLevelActionGatingInfo := fun name =>
  if name = "Outputs" then some (readGate ["Biases"]) else none

/-- The read list of Weights is `all` followed by an unknown name, the one of
Inputs is the unknown name alone. -/
def allThenUnknownGating : PerStorageLevelActionGatingInfo := fun name =>
  if name = "Weights" then some (readGate ["all", "Biases"])
  else if name = "Inputs" then some (readGate ["Biases"]) else none

/-! ## Theorems -/

/-! ### binary64 rounding -/

theorem log2Fuel_spec (fuel n : Nat) (hn : 1 ≤ n) (hf : n ≤ fuel) :
    2 ^ log2Fuel fuel n ≤ n ∧ n < 2 ^ (log2Fuel fuel n + 1) := by
  induction fuel generalizing n with
  | zero => omega
  | succ fuel ih =>
    unfold log2Fuel
    by_cases h : n < 2
    · simp only [h, if_true]
      omega
    · simp only [h, if_false]
      have h2 : 1 ≤ n / 2 := by omega
      have h3 : n / 2 ≤ fuel := by omega
      obtain ⟨ia, ib⟩ := ih (n / 2) h2 h3
      constructor
      · have : 2 ^ (log2Fuel fuel (n / 2) + 1) = 2 ^ log2Fuel fuel (n / 2) * 2 := pow_succ _ _
        omega
      · have : 2 ^ (log2Fuel fuel (n / 2) + 1 + 1) = 2 ^ (log2Fuel fuel (n / 2) + 1) * 2 :=
          pow_succ _ _
        omega

theorem natLog2_spec (n : Nat) (hn : 1 ≤ n) :
    2 ^ natLog2 n ≤ n ∧ n < 2 ^ (natLog2 n + 1) :=
  log2Fuel_spec n n hn le_rfl

theorem ilog2_spec (x : ℚ) (hx : x ≠ 0) :
    (2 : ℚ) ^ ilog2 x ≤ |x| ∧ |x| < (2 : ℚ) ^ (ilog2 x + 1) := by
  have hnum : 1 ≤ x.num.natAbs := by
    have : x.num ≠ 0 := Rat.num_ne_zero.mpr hx
    omega
  have hden : 1 ≤ x.den := x.den_pos
  obtain ⟨na, nb⟩ := natLog2_spec _ hnum
  obtain ⟨da, db⟩ := natLog2_spec _ hden
  have habs : |x| = (x.num.natAbs : ℚ) / (x.den : ℚ) := by
    conv_lhs => rw [← Rat.num_div_den x]
    rw [abs_div, Nat.abs_cast, ← Int.cast_abs, Int.abs_eq_natAbs, Int.cast_natCast]
  have hdpos : (0 : ℚ) < x.den := by exact_mod_cast x.den_pos
  have na' : (2 : ℚ) ^ (natLog2 x.num.natAbs : ℤ) ≤ (x.num.natAbs : ℚ) := by
    rw [zpow_natCast]; exact_mod_cast na
  have nb' : (x.num.natAbs : ℚ) < (2 : ℚ) ^ ((natLog2 x.num.natAbs : ℤ) + 1) := by
    have : ((natLog2 x.num.natAbs : ℤ) + 1) = ((natLog2 x.num.natAbs + 1 : ℕ) : ℤ) := by
      push_cast; rfl
    rw [this, zpow_natCast]; exact_mod_cast nb
  have da' : (2 : ℚ) ^ (natLog2 x.den : ℤ) ≤ (x.den : ℚ) := by
    rw [zpow_natCast]; exact_mod_cast da
  have db' : (x.den : ℚ) < (2 : ℚ) ^ ((natLog2 x.den : ℤ) + 1) := by
    have : ((natLog2 x.den : ℤ) + 1) = ((natLog2 x.den + 1 : ℕ) : ℤ) := by
      push_cast; rfl
    rw [this, zpow_natCast]; exact_mod_cast db
  have h2 : (0 : ℚ) < 2 := by norm_num
  have h2' : (2 : ℚ) ≠ 0 := by norm_num
  unfold ilog2
  simp only
  split_ifs with h
  · refine ⟨h, ?_⟩
    rw [habs, div_lt_iff₀ hdpos]
    calc (x.num.natAbs : ℚ) < (2 : ℚ) ^ ((natLog2 x.num.natAbs : ℤ) + 1) := nb'
      _ = (2 : ℚ) ^ ((natLog2 x.num.natAbs : ℤ) - (natLog2 x.den : ℤ) + 1) *
            (2 : ℚ) ^ (natLog2 x.den : ℤ) := by
          rw [← zpow_add₀ h2']; congr 1; ring
      _ ≤ _ := by
          apply mul_le_mul_of_nonneg_left da' (le_of_lt (zpow_pos h2 _))
  · refine ⟨?_, ?_⟩
    · rw [habs, le_div_iff₀ hdpos]
      calc (2 : ℚ) ^ ((natLog2 x.num.natAbs : ℤ) - (natLog2 x.den : ℤ) - 1) * (x.den : ℚ)
          ≤ (2 : ℚ) ^ ((natLog2 x.num.natAbs : ℤ) - (natLog2 x.den : ℤ) - 1) *
            (2 : ℚ) ^ ((natLog2 x.den : ℤ) + 1) := by
            apply mul_le_mul_of_nonneg_left (le_of_lt db') (le_of_lt (zpow_pos h2 _))
        _ = (2 : ℚ) ^ (natLog2 x.num.natAbs : ℤ) := by
            rw [← zpow_add₀ h2']; congr 1; ring
        _ ≤ _ := na'
    · have : (natLog2 x.num.natAbs : ℤ) - (natLog2 x.den : ℤ) - 1 + 1 =
          (natLog2 x.num.natAbs : ℤ) - (natLog2 x.den : ℤ) := by ring
      rw [this]
      exact lt_of_not_le h

theorem floor_le_roundHalfEven (q : ℚ) : ⌊q⌋ ≤ roundHalfEven q := by
  unfold roundHalfEven
  simp only
  split_ifs <;> omega

theorem roundHalfEven_le_of_le (q : ℚ) (k : ℤ) (h : q ≤ k) : roundHalfEven q ≤ k := by
  have hf : ⌊q⌋ ≤ k := by
    have : ((⌊q⌋ : ℤ) : ℚ) ≤ (k : ℚ) := le_trans (Int.floor_le q) h
    exact_mod_cast this
  unfold roundHalfEven
  simp only
  by_cases hlt : q - ⌊q⌋ < 1 / 2
  · simp only [hlt, if_true]; exact hf
  · have hne : (⌊q⌋ : ℚ) < q := by linarith
    have hlt2 : ⌊q⌋ < k := by
      have : ((⌊q⌋ : ℤ) : ℚ) < (k : ℚ) := lt_of_lt_of_le hne h
      exact_mod_cast this
    simp only [hlt, if_false]
    split_ifs <;> omega

theorem le_roundHalfEven_of_le (q : ℚ) (k : ℤ) (h : (k : ℚ) ≤ q) : k ≤ roundHalfEven q :=
  le_trans (Int.le_floor.mpr h) (floor_le_roundHalfEven q)

theorem roundHalfEven_intCast (k : ℤ) : roundHalfEven (k : ℚ) = k :=
  le_antisymm (roundHalfEven_le_of_le _ k le_rfl) (le_roundHalfEven_of_le _ k le_rfl)

theorem ulp_pos (x : ℚ) : 0 < ulp x := zpow_pos (by norm_num) _

theorem roundToDouble_zero : roundToDouble 0 = 0 := by
  unfold roundToDouble
  rw [zero_div]
  have : roundHalfEven 0 = 0 := by simpa using roundHalfEven_intCast 0
  rw [this]; simp

theorem roundToDouble_le_of_le_mul (x : ℚ) (k : ℤ) (h : x ≤ k * ulp x) :
    roundToDouble x ≤ k * ulp x := by
  unfold roundToDouble
  have h1 : x / ulp x ≤ k := (div_le_iff₀ (ulp_pos x)).mpr h
  have h2 : ((roundHalfEven (x / ulp x) : ℤ) : ℚ) ≤ (k : ℚ) := by
    exact_mod_cast roundHalfEven_le_of_le _ k h1
  exact mul_le_mul_of_nonneg_right h2 (le_of_lt (ulp_pos x))

theorem le_roundToDouble_of_mul_le (x : ℚ) (k : ℤ) (h : k * ulp x ≤ x) :
    k * ulp x ≤ roundToDouble x := by
  unfold roundToDouble
  have h1 : (k : ℚ) ≤ x / ulp x := (le_div_iff₀ (ulp_pos x)).mpr h
  have h2 : (k : ℚ) ≤ ((roundHalfEven (x / ulp x) : ℤ) : ℚ) := by
    exact_mod_cast le_roundHalfEven_of_le _ k h1
  exact mul_le_mul_of_nonneg_right h2 (le_of_lt (ulp_pos x))

theorem roundToDouble_nonneg (x : ℚ) (h : 0 ≤ x) : 0 ≤ roundToDouble x := by
  have := le_roundToDouble_of_mul_le x 0 (by simpa using h)
  simpa using this

theorem roundToDouble_nonpos (x : ℚ) (h : x ≤ 0) : roundToDouble x ≤ 0 := by
  have := roundToDouble_le_of_le_mul x 0 (by simpa using h)
  simpa using this

/-- A natural number up to `2^53` is a whole multiple of the spacing at any
positive `x` below it. -/
theorem natCast_eq_mul_ulp (x : ℚ) (n : Nat) (hx : 0 < x) (hxn : x ≤ n) (hn : n ≤ 2 ^ 53) :
    ∃ k : ℤ, (n : ℚ) = k * ulp x := by
  have h2 : (2 : ℚ) ≠ 0 := by norm_num
  have hlow := (ilog2_spec x (ne_of_gt hx)).1
  rw [abs_of_pos hx] at hlow
  have hn' : (n : ℚ) ≤ (2 : ℚ) ^ (53 : ℤ) := by
    have h1 : (n : ℚ) ≤ ((2 ^ 53 : ℕ) : ℚ) := by exact_mod_cast hn
    have h3 : (((2 ^ 53 : ℕ) : ℚ)) = (2 : ℚ) ^ (53 : ℤ) := by norm_num
    rw [h3] at h1; exact h1
  have hle : ilog2 x ≤ 53 := by
    have : (2 : ℚ) ^ ilog2 x ≤ (2 : ℚ) ^ (53 : ℤ) := le_trans hlow (le_trans hxn hn')
    exact (zpow_le_zpow_iff_right₀ (by norm_num : (1 : ℚ) < 2)).mp this
  have hb : binade x ≤ 53 := by
    unfold binade; exact max_le hle (by norm_num)
  have hb0 : (-1022 : ℤ) ≤ binade x := le_max_right _ _
  by_cases h52 : binade x ≤ 52
  · refine ⟨(n : ℤ) * 2 ^ (52 - binade x).toNat, ?_⟩
    unfold ulp
    push_cast
    rw [mul_assoc, ← zpow_natCast, ← zpow_add₀ h2]
    have : (((52 - binade x).toNat : ℤ) + (binade x - 52)) = 0 := by
      rw [Int.toNat_of_nonneg (by omega)]; ring
    rw [this]; simp
  · have hb53 : binade x = 53 := by omega
    have hi : ilog2 x = 53 := by
      unfold binade at hb53
      rcases max_choice (ilog2 x) (-1022) with hm | hm
      · rw [hm] at hb53; exact hb53
      · rw [hm] at hb53; omega
    rw [hi] at hlow
    have hneq : (n : ℚ) = (2 : ℚ) ^ (53 : ℤ) := le_antisymm hn' (le_trans hlow hxn)
    refine ⟨2 ^ 52, ?_⟩
    unfold ulp
    rw [hb53, hneq]
    norm_num

theorem roundToDouble_le_natCast (x : ℚ) (n : Nat) (hxn : x ≤ n) (hn : n ≤ 2 ^ 53) :
    roundToDouble x ≤ n := by
  rcases le_or_lt x 0 with hx | hx
  · exact le_trans (roundToDouble_nonpos x hx) (Nat.cast_nonneg n)
  · obtain ⟨k, hk⟩ := natCast_eq_mul_ulp x n hx hxn hn
    rw [hk]
    exact roundToDouble_le_of_le_mul x k (hk ▸ hxn)

theorem roundToDouble_natCast (n : Nat) (hn : n ≤ 2 ^ 53) : roundToDouble (n : ℚ) = n := by
  rcases Nat.eq_zero_or_pos n with h0 | hpos
  · subst h0; simpa using roundToDouble_zero
  · have hx : (0 : ℚ) < n := by exact_mod_cast hpos
    obtain ⟨k, hk⟩ := natCast_eq_mul_ulp (n : ℚ) n hx le_rfl hn
    apply le_antisymm (roundToDouble_le_natCast _ n le_rfl hn)
    have := le_roundToDouble_of_mul_le (n : ℚ) k (le_of_eq hk.symm)
    rw [← hk] at this
    exact this

/-! ### The accounting loops -/

theorem density_getElem? (m₁ m₂ : CompoundDataMovementInfo) (h : densities m₁ = densities m₂)
    (id : Nat) : (m₁[id]?).map (·.tile_density) = (m₂[id]?).map (·.tile_density) := by
  have := congrArg (fun l => l[id]?) h
  simpa [densities] using this

theorem gatedDensityLoop_congr (shape : Shape) (m₁ m₂ : CompoundDataMovementInfo)
    (h : densities m₁ = densities m₂) (names : List String) (density : ℚ) :
    gatedDensityLoop shape m₁ names density = gatedDensityLoop shape m₂ names density := by
  induction names generalizing density with
  | nil => rfl
  | cons name rest ih =>
    unfold gatedDensityLoop
    cases hid : shape.DataSpaceNameToID name with
    | none => rfl
    | some id =>
      have hd := density_getElem? m₁ m₂ h id
      dsimp only
      cases h1 : m₁[id]? with
      | none =>
        cases h2 : m₂[id]? with
        | none => rfl
        | some r2 => rw [h1, h2] at hd; simp at hd
      | some r1 =>
        cases h2 : m₂[id]? with
        | none => rw [h1, h2] at hd; simp at hd
        | some r2 =>
          rw [h1, h2] at hd
          simp only [Option.map_some', Option.some.injEq] at hd
          simp only [hd]
          exact ih _

theorem GetDensityByGatedActionNames_congr (shape : Shape) (m₁ m₂ : CompoundDataMovementInfo)
    (h : densities m₁ = densities m₂) (info : PerDataSpaceActionGatingInfo) (action : String) :
    GetDensityByGatedActionNames shape info action m₁ =
      GetDensityByGatedActionNames shape info action m₂ := by
  unfold GetDensityByGatedActionNames
  cases info action with
  | none => rfl
  | some names =>
    cases names with
    | nil => rfl
    | cons first rest =>
      simp only
      rw [gatedDensityLoop_congr shape m₁ m₂ h]

theorem gatingDensities_congr (shape : Shape) (g : PerStorageLevelActionGatingInfo)
    (a₁ a₂ : String) (pv : Nat) (m₁ m₂ : CompoundDataMovementInfo)
    (h : densities m₁ = densities m₂) :
    gatingDensities shape g a₁ a₂ pv m₁ = gatingDensities shape g a₁ a₂ pv m₂ := by
  unfold gatingDensities
  cases shape.DataSpaceIDToName pv with
  | none => rfl
  | some name =>
    simp only
    cases g name with
    | none => rfl
    | some info =>
      simp only
      rw [GetDensityByGatedActionNames_congr shape m₁ m₂ h info a₁,
        GetDensityByGatedActionNames_congr shape m₁ m₂ h info a₂]

theorem accountingBody_ok (shape : Shape) (g : PerStorageLevelActionGatingInfo)
    (a₁ a₂ : String) (account : ℚ → ℚ → DataMovementInfo → Except Error DataMovementInfo)
    (pv : Nat) (m m' : CompoundDataMovementInfo)
    (h : accountingBody shape g a₁ a₂ account pv m = .ok m') :
    ∃ d r r', gatingDensities shape g a₁ a₂ pv m = .ok d ∧ m[pv]? = some r ∧
      account d.1 d.2 r = .ok r' ∧ m' = m.set pv r' := by
  unfold accountingBody at h
  cases hd : gatingDensities shape g a₁ a₂ pv m with
  | error e => rw [hd] at h; simp at h
  | ok d =>
    rw [hd] at h
    simp only at h
    cases hr : m[pv]? with
    | none => rw [hr] at h; simp at h
    | some r =>
      rw [hr] at h
      simp only at h
      cases ha : account d.1 d.2 r with
      | error e => rw [ha] at h; simp at h
      | ok r' =>
        rw [ha] at h
        simp only [Except.ok.injEq] at h
        exact ⟨d, r, r', rfl, rfl, ha, h.symm⟩

theorem forLoop_succ_ok {σ : Type} (body : Nat → σ → Except Error σ) (n : Nat) (s s' : σ)
    (h : forLoop body (n + 1) s = .ok s') :
    ∃ t, forLoop body n s = .ok t ∧ body n t = .ok s' := by
  unfold forLoop at h
  cases h1 : forLoop body n s with
  | error e => rw [h1] at h; simp at h
  | ok t =>
    rw [h1] at h
    simp only at h
    cases h2 : body n t with
    | error e => rw [h2] at h; simp at h
    | ok u =>
      rw [h2] at h
      simp only [Except.ok.injEq] at h
      exact ⟨t, rfl, by rw [h2, h]⟩

theorem forLoop_fixed {σ : Type} (body : Nat → σ → Except Error σ) (n : Nat) (s : σ)
    (h : ∀ i, i < n → body i s = .ok s) : forLoop body n s = .ok s := by
  induction n with
  | zero => rfl
  | succ n ih =>
    unfold forLoop
    rw [ih (fun i hi => h i (Nat.lt_succ_of_lt hi))]
    simp only
    rw [h n (Nat.lt_succ_self n)]

/-- What a successful accounting loop has done after `n` iterations. -/
theorem forLoop_accounting (shape : Shape) (g : PerStorageLevelActionGatingInfo)
    (a₁ a₂ : String) (account : ℚ → ℚ → DataMovementInfo → Except Error DataMovementInfo)
    (hk : KeepsDensity account) (n : Nat) (m m' : CompoundDataMovementInfo)
    (h : forLoop (accountingBody shape g a₁ a₂ account) n m = .ok m') :
    m'.length = m.length ∧ densities m' = densities m ∧
    (∀ i, n ≤ i → m'[i]? = m[i]?) ∧
    (∀ i, i < n → ∃ d r r', gatingDensities shape g a₁ a₂ i m = .ok d ∧ m[i]? = some r ∧
      account d.1 d.2 r = .ok r' ∧ m'[i]? = some r') := by
  induction n generalizing m' with
  | zero =>
    unfold forLoop at h
    simp only [Except.ok.injEq] at h
    subst h
    exact ⟨rfl, rfl, fun _ _ => rfl, fun i hi => absurd hi (Nat.not_lt_zero i)⟩
  | succ n ih =>
    obtain ⟨t, ht, hb⟩ := forLoop_succ_ok _ n m m' h
    obtain ⟨hlen, hden, hrest, hdone⟩ := ih t ht
    obtain ⟨d, r, r', hd, hr, ha, hc'⟩ := accountingBody_ok shape g a₁ a₂ account n t m' hb
    subst hc'
    have hn : n < t.length := by
      rcases List.getElem?_eq_some.mp hr with ⟨hlt, _⟩
      exact hlt
    have hden' : densities (t.set n r') = densities t := by
      unfold densities
      rw [List.map_set]
      apply List.ext_getElem?
      intro i
      by_cases hi : n = i
      · subst hi
        rw [List.getElem?_set_self (by simpa using hn), List.getElem?_map, hr]
        simp [hk _ _ _ _ ha]
      · rw [List.getElem?_set_ne hi]
    refine ⟨by rw [List.length_set, hlen], by rw [hden', hden], ?_, ?_⟩
    · intro i hi
      rw [List.getElem?_set_ne (by omega), hrest i (by omega)]
    · intro i hi
      by_cases hin : i = n
      · subst hin
        refine ⟨d, r, r', ?_, ?_, ha, List.getElem?_set_self hn⟩
        · rw [← gatingDensities_congr shape g a₁ a₂ i t m hden]; exact hd
        · rw [← hrest i le_rfl]; exact hr
      · obtain ⟨d0, r0, r0', h1, h2, h3, h4⟩ := hdone i (by omega)
        refine ⟨d0, r0, r0', h1, h2, h3, ?_⟩
        rw [List.getElem?_set_ne (by omega)]; exact h4

/-! ### Counts, records and the whole call -/

theorem assign_same (m : FineGrainedAccesses) (key : String) (value : Nat) :
    assign m key value key = some value := by
  simp [assign]

theorem assign_other (m : FineGrainedAccesses) (key k : String) (value : Nat) (h : k ≠ key) :
    assign m key value k = m k := by
  simp [assign, h]

theorem subUInt64_self (a : Nat) : subUInt64 a a = 0 := by
  unfold subUInt64
  have h1 : a % 2 ^ 64 < 2 ^ 64 := Nat.mod_lt _ (by norm_num)
  have h2 : a % 2 ^ 64 + (2 ^ 64 - a % 2 ^ 64) = 2 ^ 64 := by omega
  rw [h2]; norm_num

theorem subUInt64_of_le (a b : Nat) (hb : b ≤ a) (ha : a < 2 ^ 64) : subUInt64 a b = a - b := by
  unfold subUInt64
  rw [Nat.mod_eq_of_lt ha, Nat.mod_eq_of_lt (lt_of_le_of_lt hb ha)]
  have h2 : a + (2 ^ 64 - b) = (a - b) + 2 ^ 64 := by omega
  rw [h2, Nat.add_mod_right, Nat.mod_eq_of_lt (by omega)]

theorem fmul_nonneg (a b : ℚ) (ha : 0 ≤ a) (hb : 0 ≤ b) : 0 ≤ fmul a b :=
  roundToDouble_nonneg _ (mul_nonneg ha hb)

theorem fmul_le_one (a b : ℚ) (ha : a ≤ 1) (hb0 : 0 ≤ b) (hb : b ≤ 1) :
    fmul a b ≤ 1 := by
  have h : a * b ≤ ((1 : ℕ) : ℚ) := by
    have := mul_le_mul ha hb hb0 (by norm_num : (0 : ℚ) ≤ 1)
    simpa using this
  have := roundToDouble_le_natCast (a * b) 1 h (by norm_num)
  simpa [fmul] using this

theorem ofUInt64_exact (n : Nat) (hn : n ≤ 2 ^ 53) : ofUInt64 n = n :=
  roundToDouble_natCast n hn

theorem toUInt64_natCast (n : Nat) (hn : n < 2 ^ 64) : toUInt64 (n : ℤ) = .ok n := by
  unfold toUInt64
  have : (0 : ℤ) ≤ n ∧ (n : ℤ) < 2 ^ 64 := ⟨by positivity, by exact_mod_cast hn⟩
  rw [if_pos this]; simp

/-- With a density in `[0,1]` and a total the `double` holds exactly, the
random count is defined and does not exceed the total. -/
theorem randomCount_le (d : ℚ) (total : Nat) (hd0 : 0 ≤ d) (hd1 : d ≤ 1)
    (ht : total ≤ 2 ^ 53) : ∃ r, randomCount d total = .ok r ∧ r ≤ total := by
  unfold randomCount
  rw [ofUInt64_exact total ht]
  have hT0 : (0 : ℚ) ≤ total := Nat.cast_nonneg total
  have hprod : d * total ≤ (total : ℚ) := by
    have := mul_le_mul_of_nonneg_right hd1 hT0
    simpa using this
  have hup : fmul d total ≤ (total : ℚ) := roundToDouble_le_natCast _ total hprod ht
  have hlo : 0 ≤ fmul d total := fmul_nonneg _ _ hd0 hT0
  have hc1 : ceil (fmul d total) ≤ (total : ℤ) := by
    unfold ceil
    exact Int.ceil_le.mpr (by exact_mod_cast hup)
  have hc0 : 0 ≤ ceil (fmul d total) := by
    unfold ceil
    exact Int.ceil_nonneg hlo
  refine ⟨(ceil (fmul d total)).toNat, ?_, ?_⟩
  · unfold toUInt64
    have : (total : ℤ) < 2 ^ 64 := by
      have : total < 2 ^ 64 := lt_of_le_of_lt ht (by norm_num)
      exact_mod_cast this
    rw [if_pos ⟨hc0, lt_of_le_of_lt hc1 this⟩]
  · omega

theorem randomCount_one (total : Nat) (ht : total ≤ 2 ^ 53) : randomCount 1 total = .ok total := by
  unfold randomCount fmul
  rw [ofUInt64_exact total ht, one_mul, roundToDouble_natCast total ht]
  unfold ceil
  rw [show ((total : ℕ) : ℚ) = ((total : ℤ) : ℚ) by norm_num, Int.ceil_intCast]
  exact toUInt64_natCast total (lt_of_le_of_lt ht (by norm_num))

theorem randomCount_zero_density (total : Nat) : randomCount 0 total = .ok 0 := by
  unfold randomCount fmul
  rw [zero_mul, roundToDouble_zero]
  unfold ceil
  rw [Int.ceil_zero]
  exact toUInt64_natCast 0 (by norm_num)

theorem dataMovementRecord_ok_iff (dR dW : ℚ) (r r' : DataMovementInfo) :
    dataMovementRecord dR dW r = .ok r' ↔
      ∃ rr rf, randomCount dR r.reads = .ok rr ∧ randomCount dW r.fills = .ok rf ∧
        r' = withAccesses r
          (dataEntries r.fine_grained_accesses r.reads rr r.fills rf r.updates) := by
  unfold dataMovementRecord
  cases h1 : randomCount dR r.reads with
  | error e => simp [h1]
  | ok rr =>
    cases h2 : randomCount dW r.fills with
    | error e => simp [h1, h2]
    | ok rf =>
      simp only [h1, h2, Except.ok.injEq, dataEntries, withAccesses]
      constructor
      · intro h; exact ⟨rr, rf, rfl, rfl, h.symm⟩
      · rintro ⟨a, b, ha, hb, h⟩; subst ha; subst hb; exact h.symm

theorem metaDataRecord_ok_iff (dR dW : ℚ) (r r' : DataMovementInfo) :
    metaDataRecord dR dW r = .ok r' ↔
      ∃ mr mf, randomCount dR r.reads = .ok mr ∧ randomCount dW r.fills = .ok mf ∧
        r' = withAccesses r
          (metaDataEntries r.fine_grained_accesses r.reads mr r.fills mf) := by
  unfold metaDataRecord
  cases h1 : randomCount dR r.reads with
  | error e => simp [h1]
  | ok rr =>
    cases h2 : randomCount dW r.fills with
    | error e => simp [h1, h2]
    | ok rf =>
      simp only [h1, h2, Except.ok.injEq, metaDataEntries, withAccesses]
      constructor
      · intro h; exact ⟨rr, rf, rfl, rfl, h.symm⟩
      · rintro ⟨a, b, ha, hb, h⟩; subst ha; subst hb; exact h.symm

theorem dataMovementRecord_keeps : KeepsDensity dataMovementRecord := by
  intro d₁ d₂ r r' h
  obtain ⟨_, _, _, _, h⟩ := (dataMovementRecord_ok_iff d₁ d₂ r r').mp h
  rw [h]; rfl

theorem metaDataRecord_keeps : KeepsDensity metaDataRecord := by
  intro d₁ d₂ r r' h
  obtain ⟨_, _, _, _, h⟩ := (metaDataRecord_ok_iff d₁ d₂ r r').mp h
  rw [h]; rfl

theorem dataMovement_ok (shape : Shape) (m m' : CompoundDataMovementInfo)
    (g : PerStorageLevelActionGatingInfo)
    (h : ComputeFineGrainDataMovementAccesses shape m g = .ok m') :
    ∃ t, forLoop (accountingBody shape g "read" "write" dataMovementRecord)
        shape.NumDataSpaces m = .ok t ∧
      ComputeFineGrainMetaDataAccesses shape t g = .ok m' := by
  unfold ComputeFineGrainDataMovementAccesses at h
  cases h1 : forLoop (accountingBody shape g "read" "write" dataMovementRecord)
      shape.NumDataSpaces m with
  | error e => rw [h1] at h; simp at h
  | ok t => rw [h1] at h; exact ⟨t, rfl, h⟩

/-- What a successful storage accounting has written for each data space. -/
theorem dataMovement_spec (shape : Shape) (m m' : CompoundDataMovementInfo)
    (g : PerStorageLevelActionGatingInfo)
    (h : ComputeFineGrainDataMovementAccesses shape m g = .ok m') :
    m'.length = m.length ∧ densities m' = densities m ∧
    (∀ i, shape.NumDataSpaces ≤ i → m'[i]? = m[i]?) ∧
    (∀ i, i < shape.NumDataSpaces → ∃ d dm r rr rf mr mf,
      gatingDensities shape g "read" "write" i m = .ok d ∧
      gatingDensities shape g "metadata_read" "metadata_write" i m = .ok dm ∧
      m[i]? = some r ∧
      randomCount d.1 r.reads = .ok rr ∧ randomCount d.2 r.fills = .ok rf ∧
      randomCount dm.1 r.reads = .ok mr ∧ randomCount dm.2 r.fills = .ok mf ∧
      m'[i]? = some (withAccesses r
        (metaDataEntries (dataEntries r.fine_grained_accesses r.reads rr r.fills rf r.updates)
          r.reads mr r.fills mf))) := by
  obtain ⟨t, h1, h2⟩ := dataMovement_ok shape m m' g h
  obtain ⟨hl1, hd1, hr1, hs1⟩ :=
    forLoop_accounting shape g "read" "write" dataMovementRecord dataMovementRecord_keeps
      shape.NumDataSpaces m t h1
  obtain ⟨hl2, hd2, hr2, hs2⟩ :=
    forLoop_accounting shape g "metadata_read" "metadata_write" metaDataRecord
      metaDataRecord_keeps shape.NumDataSpaces t m' h2
  refine ⟨by rw [hl2, hl1], by rw [hd2, hd1], fun i hi => by rw [hr2 i hi, hr1 i hi], ?_⟩
  intro i hi
  obtain ⟨d, r, r1, hg1, hm, ha1, ht⟩ := hs1 i hi
  obtain ⟨dm, r1', r2, hg2, ht', ha2, hm'⟩ := hs2 i hi
  rw [ht] at ht'
  simp only [Option.some.injEq] at ht'
  subst ht'
  obtain ⟨rr, rf, hrr, hrf, e1⟩ := (dataMovementRecord_ok_iff _ _ _ _).mp ha1
  obtain ⟨mr, mf, hmr, hmf, e2⟩ := (metaDataRecord_ok_iff _ _ _ _).mp ha2
  rw [gatingDensities_congr shape g _ _ i t m hd1] at hg2
  subst e1
  refine ⟨d, dm, r, rr, rf, mr, mf, hg1, hg2, hm, hrr, hrf, hmr, hmf, ?_⟩
  rw [hm', e2]; rfl

/-- What a successful metadata accounting has written for each data space. -/
theorem metaData_spec (shape : Shape) (m m' : CompoundDataMovementInfo)
    (g : PerStorageLevelActionGatingInfo)
    (h : ComputeFineGrainMetaDataAccesses shape m g = .ok m') :
    m'.length = m.length ∧ densities m' = densities m ∧
    (∀ i, shape.NumDataSpaces ≤ i → m'[i]? = m[i]?) ∧
    (∀ i, i < shape.NumDataSpaces → ∃ dm r mr mf,
      gatingDensities shape g "metadata_read" "metadata_write" i m = .ok dm ∧
      m[i]? = some r ∧
      randomCount dm.1 r.reads = .ok mr ∧ randomCount dm.2 r.fills = .ok mf ∧
      m'[i]? = some (withAccesses r
        (metaDataEntries r.fine_grained_accesses r.reads mr r.fills mf))) := by
  obtain ⟨hl2, hd2, hr2, hs2⟩ :=
    forLoop_accounting shape g "metadata_read" "metadata_write" metaDataRecord
      metaDataRecord_keeps shape.NumDataSpaces m m' h
  refine ⟨hl2, hd2, hr2, ?_⟩
  intro i hi
  obtain ⟨dm, r, r2, hg2, hm, ha2, hm'⟩ := hs2 i hi
  obtain ⟨mr, mf, hmr, hmf, e2⟩ := (metaDataRecord_ok_iff _ _ _ _).mp ha2
  exact ⟨dm, r, mr, mf, hg2, hm, hmr, hmf, by rw [hm', e2]⟩

theorem randomCount_no_wrap (d : ℚ) (total : Nat) (hd0 : 0 ≤ d) (hd1 : d ≤ 1)
    (ht : total ≤ 2 ^ 53) :
    ∃ r, randomCount d total = .ok r ∧ r ≤ total ∧ subUInt64 total r = total - r := by
  obtain ⟨r, hr, hle⟩ := randomCount_le d total hd0 hd1 ht
  exact ⟨r, hr, hle, subUInt64_of_le total r hle (lt_of_le_of_lt ht (by norm_num))⟩

theorem randomCount_no_wrap_of_ok (d : ℚ) (total r : Nat) (hd : 0 ≤ d ∧ d ≤ 1)
    (ht : total ≤ 2 ^ 53) (h : randomCount d total = .ok r) :
    r ≤ total ∧ subUInt64 total r = total - r := by
  obtain ⟨r', hr', hle, hsub⟩ := randomCount_no_wrap d total hd.1 hd.2 ht
  rw [hr'] at h
  simp only [Except.ok.injEq] at h
  subst h
  exact ⟨hle, hsub⟩

/-! ### Resolved densities -/

theorem gatedDensityLoop_named (shape : Shape) (m : CompoundDataMovementInfo)
    (names : List String) (ds : List ℚ) (h : NamedDensities shape m names ds) (d₀ : ℚ) :
    gatedDensityLoop shape m names d₀ = .ok (ds.foldl fmul d₀) := by
  unfold NamedDensities at h
  induction h generalizing d₀ with
  | nil => rfl
  | cons hhead _ ih =>
    obtain ⟨id, r, hid, hr, hd⟩ := hhead
    unfold gatedDensityLoop
    simp only [hid, hr, List.foldl_cons, hd]
    exact ih _

theorem gatedDensityLoop_unit (shape : Shape) (m : CompoundDataMovementInfo)
    (hden : ∀ r ∈ m, 0 ≤ r.tile_density ∧ r.tile_density ≤ 1) (names : List String)
    (d₀ d : ℚ) (h₀ : 0 ≤ d₀ ∧ d₀ ≤ 1) (h : gatedDensityLoop shape m names d₀ = .ok d) :
    0 ≤ d ∧ d ≤ 1 := by
  induction names generalizing d₀ with
  | nil =>
    unfold gatedDensityLoop at h
    simp only [Except.ok.injEq] at h
    rw [← h]; exact h₀
  | cons name rest ih =>
    unfold gatedDensityLoop at h
    cases hid : shape.DataSpaceNameToID name with
    | none => rw [hid] at h; simp at h
    | some id =>
      rw [hid] at h
      dsimp only at h
      cases hr : m[id]? with
      | none => rw [hr] at h; simp at h
      | some r =>
        rw [hr] at h
        dsimp only at h
        have hmem : r ∈ m := List.getElem?_mem hr
        obtain ⟨h0, h1⟩ := hden r hmem
        exact ih _ ⟨fmul_nonneg _ _ h₀.1 h0, fmul_le_one _ _ h₀.2 h0 h1⟩ h

theorem GetDensityByGatedActionNames_unit (shape : Shape) (m : CompoundDataMovementInfo)
    (hden : ∀ r ∈ m, 0 ≤ r.tile_density ∧ r.tile_density ≤ 1)
    (info : PerDataSpaceActionGatingInfo) (action : String) (d : ℚ)
    (h : GetDensityByGatedActionNames shape info action m = .ok d) : 0 ≤ d ∧ d ≤ 1 := by
  unfold GetDensityByGatedActionNames at h
  cases ha : info action with
  | none =>
    rw [ha] at h
    simp only [Except.ok.injEq] at h
    rw [← h]; norm_num
  | some names =>
    rw [ha] at h
    cases names with
    | nil => simp at h
    | cons first rest =>
      dsimp only at h
      by_cases hall : first = "all"
      · rw [if_pos hall] at h
        simp only [Except.ok.injEq] at h
        rw [← h]; norm_num
      · rw [if_neg hall] at h
        exact gatedDensityLoop_unit shape m hden _ 1 d (by norm_num) h

theorem gatingDensities_ok (shape : Shape) (g : PerStorageLevelActionGatingInfo)
    (a₁ a₂ : String) (pv : Nat) (m : CompoundDataMovementInfo) (d : ℚ × ℚ)
    (h : gatingDensities shape g a₁ a₂ pv m = .ok d) :
    ∃ name, shape.DataSpaceIDToName pv = some name ∧
      ((g name = none ∧ d = (1, 1)) ∨
       (∃ info, g name = some info ∧
          GetDensityByGatedActionNames shape info a₁ m = .ok d.1 ∧
          GetDensityByGatedActionNames shape info a₂ m = .ok d.2)) := by
  unfold gatingDensities at h
  cases hn : shape.DataSpaceIDToName pv with
  | none => rw [hn] at h; simp at h
  | some name =>
    rw [hn] at h
    dsimp only at h
    refine ⟨name, rfl, ?_⟩
    cases hg : g name with
    | none =>
      rw [hg] at h
      simp only [Except.ok.injEq] at h
      exact Or.inl ⟨rfl, h.symm⟩
    | some info =>
      rw [hg] at h
      dsimp only at h
      right
      refine ⟨info, rfl, ?_⟩
      cases h1 : GetDensityByGatedActionNames shape info a₁ m with
      | error e => rw [h1] at h; simp at h
      | ok d1 =>
        rw [h1] at h
        dsimp only at h
        cases h2 : GetDensityByGatedActionNames shape info a₂ m with
        | error e => rw [h2] at h; simp at h
        | ok d2 =>
          rw [h2] at h
          simp only [Except.ok.injEq] at h
          rw [← h]
          exact ⟨rfl, rfl⟩

theorem gatingDensities_unit (shape : Shape) (g : PerStorageLevelActionGatingInfo)
    (a₁ a₂ : String) (pv : Nat) (m : CompoundDataMovementInfo)
    (hden : ∀ r ∈ m, 0 ≤ r.tile_density ∧ r.tile_density ≤ 1) (d : ℚ × ℚ)
    (h : gatingDensities shape g a₁ a₂ pv m = .ok d) :
    (0 ≤ d.1 ∧ d.1 ≤ 1) ∧ (0 ≤ d.2 ∧ d.2 ≤ 1) := by
  obtain ⟨name, _, hcase⟩ := gatingDensities_ok shape g a₁ a₂ pv m d h
  rcases hcase with ⟨_, hd⟩ | ⟨info, _, h1, h2⟩
  · rw [hd]; norm_num
  · exact ⟨GetDensityByGatedActionNames_unit shape m hden info a₁ d.1 h1,
      GetDensityByGatedActionNames_unit shape m hden info a₂ d.2 h2⟩

theorem randomCount_ok (d : ℚ) (total n : Nat) (h : randomCount d total = .ok n) :
    (n : ℤ) = ceil (fmul d (ofUInt64 total)) ∧ n < 2 ^ 64 := by
  unfold randomCount toUInt64 at h
  split_ifs at h with hc
  simp only [Except.ok.injEq] at h
  rw [← h]
  refine ⟨Int.toNat_of_nonneg hc.1, ?_⟩
  have := hc.2
  omega

/-- The ten entries of a record after storage and metadata accounting, and the
untouched rest of its map. -/
theorem entries_eval (fga : FineGrainedAccesses) (reads rr fills rf updates mr mf : Nat) :
    let f := metaDataEntries (dataEntries fga reads rr fills rf updates) reads mr fills mf
    f "random_read" = some rr ∧ f "gated_read" = some (subUInt64 reads rr) ∧
    f "random_fill" = some rf ∧ f "gated_fill" = some (subUInt64 fills rf) ∧
    f "random_update" = some updates ∧ f "gated_update" = some 0 ∧
    f "metadata_read" = some mr ∧ f "gated_metadata_read" = some (subUInt64 reads mr) ∧
    f "metadata_fill" = some mf ∧ f "gated_metadata_fill" = some (subUInt64 fills mf) := by
  simp [metaDataEntries, dataEntries, assign, subUInt64_self]

theorem metaDataEntries_eval (fga : FineGrainedAccesses) (reads mr fills mf : Nat) :
    let f := metaDataEntries fga reads mr fills mf
    f "metadata_read" = some mr ∧ f "gated_metadata_read" = some (subUInt64 reads mr) ∧
    f "metadata_fill" = some mf ∧ f "gated_metadata_fill" = some (subUInt64 fills mf) ∧
    ∀ k, k ≠ "metadata_read" → k ≠ "gated_metadata_read" → k ≠ "metadata_fill" →
      k ≠ "gated_metadata_fill" → f k = fga k := by
  refine ⟨?_, ?_, ?_, ?_, ?_⟩
  · simp [metaDataEntries, assign]
  · simp [metaDataEntries, assign]
  · simp [metaDataEntries, assign]
  · simp [metaDataEntries, assign]
  · intro k h1 h2 h3 h4
    simp [metaDataEntries, assign, h1, h2, h3, h4]

/-! ### Partition invariant (C1) -/

theorem exists_ok_of_succeeds {ε α : Type} (result : Except ε α) (h : succeeds result = true) :
    ∃ a, result = .ok a := by
  cases result with
  | ok a => exact ⟨a, rfl⟩
  | error e => simp [succeeds] at h

theorem sumOf_eq (fga : FineGrainedAccesses) (k₁ k₂ : String) (a b : Nat)
    (h₁ : fga k₁ = some a) (h₂ : fga k₂ = some b) : sumOf fga k₁ k₂ = some (a + b) := by
  simp [sumOf, h₁, h₂]

theorem random_add_gated (d : ℚ) (total : Nat) (hd : 0 ≤ d ∧ d ≤ 1) (ht : total ≤ 2 ^ 53)
    (n : Nat) (h : randomCount d total = .ok n) : n + subUInt64 total n = total := by
  obtain ⟨r, hr, hle⟩ := randomCount_le d total hd.1 hd.2 ht
  rw [hr] at h
  simp only [Except.ok.injEq] at h
  subst h
  rw [subUInt64_of_le total r hle (lt_of_le_of_lt ht (by norm_num))]
  omega

/-- C1 (amended): when every average tile density lies in `[0,1]` and every
`reads` and `fills` total is at most `2^53`, a successful
`ComputeFineGrainDataMovementAccesses` leaves every data space `pv` with
`random_read + gated_read = reads`, `random_fill + gated_fill = fills`,
`random_update + gated_update = updates`,
`metadata_read + gated_metadata_read = reads` and
`metadata_fill + gated_metadata_fill = fills`, exactly. -/
theorem partition_invariant_storage (shape : Shape) (m m' : CompoundDataMovementInfo)
    (g : PerStorageLevelActionGatingInfo)
    (hden : ∀ r ∈ m, 0 ≤ r.tile_density ∧ r.tile_density ≤ 1)
    (htot : ∀ r ∈ m, r.reads ≤ 2 ^ 53 ∧ r.fills ≤ 2 ^ 53)
    (h : ComputeFineGrainDataMovementAccesses shape m g = .ok m')
    (pv : Nat) (hpv : pv < shape.NumDataSpaces) :
    ∃ r', m'[pv]? = some r' ∧
      sumOf r'.fine_grained_accesses "random_read" "gated_read" = some r'.reads ∧
      sumOf r'.fine_grained_accesses "random_fill" "gated_fill" = some r'.fills ∧
      sumOf r'.fine_grained_accesses "random_update" "gated_update" = some r'.updates ∧
      sumOf r'.fine_grained_accesses "metadata_read" "gated_metadata_read" = some r'.reads ∧
      sumOf r'.fine_grained_accesses "metadata_fill" "gated_metadata_fill" = some r'.fills := by
  obtain ⟨_, _, _, hs⟩ := dataMovement_spec shape m m' g h
  obtain ⟨d, dm, r, rr, rf, mr, mf, hg, hgm, hr, hrr, hrf, hmr, hmf, hm'⟩ := hs pv hpv
  obtain ⟨hd1, hd2⟩ := gatingDensities_unit shape g _ _ pv m hden d hg
  obtain ⟨hm1, hm2⟩ := gatingDensities_unit shape g _ _ pv m hden dm hgm
  obtain ⟨htr, htf⟩ := htot r (List.getElem?_mem hr)
  obtain ⟨e1, e2, e3, e4, e5, e6, e7, e8, e9, e10⟩ :=
    entries_eval r.fine_grained_accesses r.reads rr r.fills rf r.updates mr mf
  have s1 := sumOf_eq _ _ _ _ _ e1 e2
  have s2 := sumOf_eq _ _ _ _ _ e3 e4
  have s3 := sumOf_eq _ _ _ _ _ e5 e6
  have s4 := sumOf_eq _ _ _ _ _ e7 e8
  have s5 := sumOf_eq _ _ _ _ _ e9 e10
  rw [random_add_gated d.1 r.reads hd1 htr rr hrr] at s1
  rw [random_add_gated d.2 r.fills hd2 htf rf hrf] at s2
  rw [random_add_gated dm.1 r.reads hm1 htr mr hmr] at s4
  rw [random_add_gated dm.2 r.fills hm2 htf mf hmf] at s5
  exact ⟨_, hm', s1, s2, s3, s4, s5⟩

/-- Witness of `partition_invariant_storage` on the three-space sample. -/
theorem partition_invariant_storage_witness :
    ∃ m', ComputeFineGrainDataMovementAccesses threeSpaces sampleMovement sampleGating = .ok m' ∧
      ∃ r', m'[2]? = some r' ∧
        sumOf r'.fine_grained_accesses "random_read" "gated_read" = some r'.reads ∧
        sumOf r'.fine_grained_accesses "random_fill" "gated_fill" = some r'.fills ∧
        sumOf r'.fine_grained_accesses "random_update" "gated_update" = some r'.updates ∧
        sumOf r'.fine_grained_accesses "metadata_read" "gated_metadata_read" = some r'.reads ∧
        sumOf r'.fine_grained_accesses "metadata_fill" "gated_metadata_fill" = some r'.fills := by
  obtain ⟨m', hm'⟩ := exists_ok_of_succeeds
    (ComputeFineGrainDataMovementAccesses threeSpaces sampleMovement sampleGating) (by decide!)
  exact ⟨m', hm', partition_invariant_storage threeSpaces sampleMovement m' sampleGating
    (by decide!) (by decide!) hm' 2 (by decide)⟩

/-- C1 fails as stated: one dense, ungated data space with `reads = 2^54 + 3`.
The conversion of `reads` to `double` rounds up to `2^54 + 4`, so
`random_read = 2^54 + 4` exceeds `reads` and the unsigned subtraction wraps:
`gated_read = 2^64 - 1`.  The two do not add up to `reads`. -/
theorem partition_fails_above_2_pow_53 :
    (∀ r ∈ largeReads, 0 ≤ r.tile_density ∧ r.tile_density ≤ 1) ∧
    countAfter (ComputeFineGrainDataMovementAccesses oneSpace largeReads noGating) 0
      "random_read" = some (2 ^ 54 + 4) ∧
    countAfter (ComputeFineGrainDataMovementAccesses oneSpace largeReads noGating) 0
      "gated_read" = some (2 ^ 64 - 1) ∧
    (largeReads[0]?).map (·.reads) = some (2 ^ 54 + 3) ∧
    (2 ^ 54 + 4) + (2 ^ 64 - 1) ≠ 2 ^ 54 + 3 := by
  decide!

/-! ### Read and fill formula (C2), updates (C3) -/

theorem GetDensityByGatedActionNames_named (shape : Shape) (m : CompoundDataMovementInfo)
    (info : PerDataSpaceActionGatingInfo) (action : String) (names : List String) (ds : List ℚ)
    (hinfo : info action = some names) (hne : names ≠ [])
    (hall : names.head? ≠ some "all") (hd : NamedDensities shape m names ds) :
    GetDensityByGatedActionNames shape info action m = .ok (ds.foldl fmul 1) := by
  unfold GetDensityByGatedActionNames
  rw [hinfo]
  cases names with
  | nil => exact absurd rfl hne
  | cons first rest =>
    dsimp only
    have : first ≠ "all" := by
      intro hf; apply hall; simp [hf]
    rw [if_neg this]
    exact gatedDensityLoop_named shape m _ ds hd 1

/-- C2, amended: for a data space `pv` whose name has a gating entry with a
`read` list and a `write` list of registered names, neither starting with the
sentinel `all`, a successful `ComputeFineGrainDataMovementAccesses` sets
`random_read = ceil(pR)` and `gated_read = reads - random_read` modulo `2^64`,
`random_fill = ceil(pW)` and `gated_fill = fills - random_fill` modulo `2^64`.
Here `pR` is the `double` product of `dR` and of `reads` converted to
`double`, `pW` the one of `dW` and `fills`, and `dR` and `dW` are the products
(taken left to right from `1.0`, in `double`) of the average tile densities of
the data spaces the two lists name.  When every average tile density lies in
`[0,1]` and `reads` is at most `2^53`, `random_read <= reads` and `gated_read`
is the exact difference; likewise for `fills`. -/
theorem read_fill_formula (shape : Shape) (m m' : CompoundDataMovementInfo)
    (g : PerStorageLevelActionGatingInfo) (pv : Nat) (name : String)
    (info : PerDataSpaceActionGatingInfo) (readNames writeNames : List String)
    (dsR dsW : List ℚ) (r : DataMovementInfo)
    (h : ComputeFineGrainDataMovementAccesses shape m g = .ok m')
    (hpv : pv < shape.NumDataSpaces)
    (hname : shape.DataSpaceIDToName pv = some name) (hinfo : g name = some info)
    (hread : info "read" = some readNames) (hwrite : info "write" = some writeNames)
    (hrall : readNames.head? ≠ some "all") (hwall : writeNames.head? ≠ some "all")
    (hdR : NamedDensities shape m readNames dsR) (hdW : NamedDensities shape m writeNames dsW)
    (hr : m[pv]? = some r) :
    ∃ (r' : DataMovementInfo) (random_read random_fill : ℕ), m'[pv]? = some r' ∧
      (random_read : ℤ) = ceil (fmul (dsR.foldl fmul 1) (ofUInt64 r.reads)) ∧
      (random_fill : ℤ) = ceil (fmul (dsW.foldl fmul 1) (ofUInt64 r.fills)) ∧
      r'.fine_grained_accesses "random_read" = some random_read ∧
      r'.fine_grained_accesses "gated_read" = some (subUInt64 r.reads random_read) ∧
      r'.fine_grained_accesses "random_fill" = some random_fill ∧
      r'.fine_grained_accesses "gated_fill" = some (subUInt64 r.fills random_fill) ∧
      ((∀ x ∈ m, 0 ≤ x.tile_density ∧ x.tile_density ≤ 1) →
        (r.reads ≤ 2 ^ 53 → random_read ≤ r.reads ∧
          r'.fine_grained_accesses "gated_read" = some (r.reads - random_read)) ∧
        (r.fills ≤ 2 ^ 53 → random_fill ≤ r.fills ∧
          r'.fine_grained_accesses "gated_fill" = some (r.fills - random_fill))) := by
  obtain ⟨_, _, _, hs⟩ := dataMovement_spec shape m m' g h
  obtain ⟨d, dm, r₀, rr, rf, mr, mf, hg, _, hr₀, hrr, hrf, _, _, hm'⟩ := hs pv hpv
  rw [hr] at hr₀
  simp only [Option.some.injEq] at hr₀
  subst hr₀
  obtain ⟨name', hname', hcase⟩ := gatingDensities_ok shape g _ _ pv m d hg
  rw [hname] at hname'
  simp only [Option.some.injEq] at hname'
  subst hname'
  have hd : d.1 = dsR.foldl fmul 1 ∧ d.2 = dsW.foldl fmul 1 := by
    rcases hcase with ⟨hnone, _⟩ | ⟨info', hinfo', h1, h2⟩
    · rw [hinfo] at hnone; simp at hnone
    · rw [hinfo] at hinfo'
      simp only [Option.some.injEq] at hinfo'
      subst hinfo'
      have hneR : readNames ≠ [] := by
        intro he
        rw [he] at hread
        simp [GetDensityByGatedActionNames, hread] at h1
      have hneW : writeNames ≠ [] := by
        intro he
        rw [he] at hwrite
        simp [GetDensityByGatedActionNames, hwrite] at h2
      rw [GetDensityByGatedActionNames_named shape m info "read" readNames dsR hread hneR
        hrall hdR] at h1
      rw [GetDensityByGatedActionNames_named shape m info "write" writeNames dsW hwrite hneW
        hwall hdW] at h2
      simp only [Except.ok.injEq] at h1 h2
      exact ⟨h1.symm, h2.symm⟩
  obtain ⟨e1, e2, e3, e4, _⟩ :=
    entries_eval r.fine_grained_accesses r.reads rr r.fills rf r.updates mr mf
  have hexact : (∀ x ∈ m, 0 ≤ x.tile_density ∧ x.tile_density ≤ 1) →
      (r.reads ≤ 2 ^ 53 → rr ≤ r.reads ∧ subUInt64 r.reads rr = r.reads - rr) ∧
      (r.fills ≤ 2 ^ 53 → rf ≤ r.fills ∧ subUInt64 r.fills rf = r.fills - rf) := by
    intro hden
    obtain ⟨u1, u2⟩ := gatingDensities_unit shape g _ _ pv m hden d hg
    exact ⟨fun ht => randomCount_no_wrap_of_ok d.1 r.reads rr u1 ht hrr,
      fun ht => randomCount_no_wrap_of_ok d.2 r.fills rf u2 ht hrf⟩
  rw [hd.1] at hrr
  rw [hd.2] at hrf
  refine ⟨_, rr, rf, hm', (randomCount_ok _ _ _ hrr).1, (randomCount_ok _ _ _ hrf).1,
    e1, e2, e3, e4, ?_⟩
  intro hden
  obtain ⟨x1, x2⟩ := hexact hden
  refine ⟨fun ht => ⟨(x1 ht).1, ?_⟩, fun ht => ⟨(x2 ht).1, ?_⟩⟩
  · rw [← (x1 ht).2]
    exact e2
  · rw [← (x2 ht).2]
    exact e4

/-- Witness of `read_fill_formula` (multiplicative composition): Outputs is
read 10 times and its reads are gated by Weights (density 0.5) and Inputs
(density 0.4); the call gives `random_read = 2` and `gated_read = 8`. -/
theorem read_fill_formula_witness :
    ∃ m', ComputeFineGrainDataMovementAccesses threeSpaces sampleMovement sampleGating = .ok m' ∧
      ∃ r', m'[2]? = some r' ∧
        r'.fine_grained_accesses "random_read" = some 2 ∧
        r'.fine_grained_accesses "gated_read" = some 8 ∧
        r'.fine_grained_accesses "random_fill" = some 4 ∧
        r'.fine_grained_accesses "gated_fill" = some 3 := by
  obtain ⟨m', hm'⟩ := exists_ok_of_succeeds
    (ComputeFineGrainDataMovementAccesses threeSpaces sampleMovement sampleGating) (by decide!)
  obtain ⟨r', rr, rf, h1, h2, h3, h4, h5, h6, h7, _⟩ :=
    read_fill_formula threeSpaces sampleMovement m' sampleGating 2 "Outputs"
      (fun action =>
        if action = "read" then some ["Weights", "Inputs"]
        else if action = "write" then some ["Weights"] else none)
      ["Weights", "Inputs"] ["Weights"] [1 / 2, roundToDouble (2 / 5)] [1 / 2]
      (movement 10 7 5 1) hm' (by decide) rfl rfl rfl rfl (by decide) (by decide)
      (List.Forall₂.cons ⟨0, movement 100 40 0 (1 / 2), rfl, rfl, rfl⟩
        (List.Forall₂.cons ⟨1, movement 60 30 0 (roundToDouble (2 / 5)), rfl, rfl, rfl⟩
          List.Forall₂.nil))
      (List.Forall₂.cons ⟨0, movement 100 40 0 (1 / 2), rfl, rfl, rfl⟩ List.Forall₂.nil)
      rfl
  have hrr : rr = 2 := by
    have : ceil (fmul ([1 / 2, roundToDouble (2 / 5)].foldl fmul 1)
        (ofUInt64 (movement 10 7 5 1).reads)) = 2 := by decide!
    rw [this] at h2
    exact_mod_cast h2
  have hrf : rf = 4 := by
    have : ceil (fmul ([1 / 2].foldl fmul 1) (ofUInt64 (movement 10 7 5 1).fills)) = 4 := by
      decide!
    rw [this] at h3
    exact_mod_cast h3
  subst hrr; subst hrf
  exact ⟨m', hm', r', h1, h4, h5, h6, h7⟩

/-- C2 fails as stated.  Reads and writes of Outputs are gated by Weights.
With Weights of density 0.1 (the nearest `double`, slightly above one tenth)
and 10 reads, the `double` product rounds to exactly `1.0` and
`random_read = 1`, while the ceiling of the exact product is 2.  With dense
Weights, `reads = 2^53 + 1` converts to `2^53` and `random_read = 2^53`, not
the total; `fills = 2^54 + 3` converts to `2^54 + 4`, so
`random_fill = 2^54 + 4` and `gated_fill` wraps to `2^64 - 1`. -/
theorem read_fill_rounds_in_double :
    (GetDensityByGatedActionNames threeSpaces (readWriteGate ["Weights"]) "read"
      tenthMovement).toOption = some (roundToDouble (1 / 10)) ∧
    countAfter (ComputeFineGrainDataMovementAccesses threeSpaces tenthMovement
      weightsReadWriteGating) 2 "random_read" = some 1 ∧
    ceil (roundToDouble (1 / 10) * (10 : ℕ)) = 2 ∧
    (GetDensityByGatedActionNames threeSpaces (readWriteGate ["Weights"]) "read"
      denseLarge).toOption = some 1 ∧
    (denseLarge[2]?).map (·.reads) = some (2 ^ 53 + 1) ∧
    (denseLarge[2]?).map (·.fills) = some (2 ^ 54 + 3) ∧
    countAfter (ComputeFineGrainDataMovementAccesses threeSpaces denseLarge
      weightsReadWriteGating) 2 "random_read" = some (2 ^ 53) ∧
    ceil ((1 : ℚ) * (2 ^ 53 + 1 : ℕ)) = 2 ^ 53 + 1 ∧
    countAfter (ComputeFineGrainDataMovementAccesses threeSpaces denseLarge
      weightsReadWriteGating) 2 "random_fill" = some (2 ^ 54 + 4) ∧
    countAfter (ComputeFineGrainDataMovementAccesses threeSpaces denseLarge
      weightsReadWriteGating) 2 "gated_fill" = some (2 ^ 64 - 1) := by
  decide!

/-- C3: after a successful `ComputeFineGrainDataMovementAccesses` every data
space has `random_update = updates` and `gated_update = 0`, whatever the
gating specification says. -/
theorem update_never_gated (shape : Shape) (m m' : CompoundDataMovementInfo)
    (g : PerStorageLevelActionGatingInfo)
    (h : ComputeFineGrainDataMovementAccesses shape m g = .ok m')
    (pv : Nat) (hpv : pv < shape.NumDataSpaces) :
    ∃ r r', m[pv]? = some r ∧ m'[pv]? = some r' ∧ r'.updates = r.updates ∧
      r'.fine_grained_accesses "random_update" = some r.updates ∧
      r'.fine_grained_accesses "gated_update" = some 0 := by
  obtain ⟨_, _, _, hs⟩ := dataMovement_spec shape m m' g h
  obtain ⟨d, dm, r, rr, rf, mr, mf, _, _, hr, _, _, _, _, hm'⟩ := hs pv hpv
  obtain ⟨_, _, _, _, e5, e6, _⟩ :=
    entries_eval r.fine_grained_accesses r.reads rr r.fills rf r.updates mr mf
  exact ⟨r, _, hr, hm', rfl, e5, e6⟩

/-- Witness of `update_never_gated`: the writes of Outputs are gated by `all`
and those of Inputs by Weights, of density 0; the 5 updates of Outputs and the
3 updates of Inputs all stay random. -/
theorem update_never_gated_witness :
    ∃ m', ComputeFineGrainDataMovementAccesses threeSpaces emptyTiles allWriteGating = .ok m' ∧
      (∃ r', m'[2]? = some r' ∧
        r'.fine_grained_accesses "random_update" = some 5 ∧
        r'.fine_grained_accesses "gated_update" = some 0 ∧
        r'.fine_grained_accesses "random_fill" = some 0) ∧
      (∃ r', m'[1]? = some r' ∧
        r'.fine_grained_accesses "random_update" = some 3 ∧
        r'.fine_grained_accesses "gated_update" = some 0 ∧
        r'.fine_grained_accesses "random_fill" = some 0) := by
  obtain ⟨m', hm'⟩ := exists_ok_of_succeeds
    (ComputeFineGrainDataMovementAccesses threeSpaces emptyTiles allWriteGating) (by decide!)
  obtain ⟨r₂, r₂', a1, a2, _, a4, a5⟩ :=
    update_never_gated threeSpaces emptyTiles m' allWriteGating hm' 2 (by decide)
  obtain ⟨r₁, r₁', b1, b2, _, b4, b5⟩ :=
    update_never_gated threeSpaces emptyTiles m' allWriteGating hm' 1 (by decide)
  have e2 : emptyTiles[2]? = some (movement 12 9 5 1) := rfl
  have e1 : emptyTiles[1]? = some (movement 8 8 3 0) := rfl
  rw [e2] at a1
  rw [e1] at b1
  simp only [Option.some.injEq] at a1 b1
  subst a1; subst b1
  have f2 : countAfter (.ok m') 2 "random_fill" = some 0 := by
    rw [← hm']; decide!
  have f1 : countAfter (.ok m') 1 "random_fill" = some 0 := by
    rw [← hm']; decide!
  simp only [countAfter, a2, b2] at f2 f1
  exact ⟨m', hm', ⟨r₂', a2, a4, a5, f2⟩, ⟨r₁', b2, b4, b5, f1⟩⟩

/-! ### No-gating default (C4) -/

theorem GetDensityByGatedActionNames_absent (shape : Shape)
    (info : PerDataSpaceActionGatingInfo) (action : String) (m : CompoundDataMovementInfo)
    (h : info action = none) : GetDensityByGatedActionNames shape info action m = .ok 1 := by
  unfold GetDensityByGatedActionNames
  rw [h]

theorem gatingDensities_ungated (shape : Shape) (g : PerStorageLevelActionGatingInfo)
    (a₁ a₂ : String) (pv : Nat) (m : CompoundDataMovementInfo) (d : ℚ × ℚ) (name : String)
    (h : gatingDensities shape g a₁ a₂ pv m = .ok d)
    (hname : shape.DataSpaceIDToName pv = some name) :
    (Ungated g name a₁ → d.1 = 1) ∧ (Ungated g name a₂ → d.2 = 1) := by
  obtain ⟨name', hname', hcase⟩ := gatingDensities_ok shape g a₁ a₂ pv m d h
  rw [hname] at hname'
  simp only [Option.some.injEq] at hname'
  subst hname'
  rcases hcase with ⟨_, hd⟩ | ⟨info, hinfo, h1, h2⟩
  · rw [hd]; exact ⟨fun _ => rfl, fun _ => rfl⟩
  · constructor
    · rintro (hn | ⟨info', hinfo', ha⟩)
      · rw [hinfo] at hn; simp at hn
      · rw [hinfo] at hinfo'
        simp only [Option.some.injEq] at hinfo'
        subst hinfo'
        rw [GetDensityByGatedActionNames_absent shape info a₁ m ha] at h1
        simp only [Except.ok.injEq] at h1
        exact h1.symm
    · rintro (hn | ⟨info', hinfo', ha⟩)
      · rw [hinfo] at hn; simp at hn
      · rw [hinfo] at hinfo'
        simp only [Option.some.injEq] at hinfo'
        subst hinfo'
        rw [GetDensityByGatedActionNames_absent shape info a₂ m ha] at h2
        simp only [Except.ok.injEq] at h2
        exact h2.symm

theorem randomCount_one_eq (total n : Nat) (ht : total ≤ 2 ^ 53)
    (h : randomCount 1 total = .ok n) : n = total ∧ subUInt64 total n = 0 := by
  rw [randomCount_one total ht] at h
  simp only [Except.ok.injEq] at h
  subst h
  exact ⟨rfl, subUInt64_self _⟩

/-- C4 (amended): `GetDensityByGatedActionNames` returns `1.0`, whatever the
registry, when the action is not a key of the gating map.  After a successful
`ComputeFineGrainDataMovementAccesses`, a data space whose name has no gating
entry, or whose entry lacks the action, has the whole total as its random
count and `0` as its gated count, provided the total is at most `2^53`:
`read` gives `random_read = reads`, `gated_read = 0`; `write` gives
`random_fill = fills`, `gated_fill = 0`; `metadata_read` gives
`metadata_read = reads`, `gated_metadata_read = 0`; `metadata_write` gives
`metadata_fill = fills`, `gated_metadata_fill = 0`. -/
theorem no_gating_default (shape : Shape) (m m' : CompoundDataMovementInfo)
    (g : PerStorageLevelActionGatingInfo) (pv : Nat) (name : String) (r : DataMovementInfo)
    (h : ComputeFineGrainDataMovementAccesses shape m g = .ok m')
    (hpv : pv < shape.NumDataSpaces) (hname : shape.DataSpaceIDToName pv = some name)
    (hr : m[pv]? = some r) :
    (∀ (shape₀ : Shape) (info : PerDataSpaceActionGatingInfo) (action : String)
        (m₀ : CompoundDataMovementInfo), info action = none →
        GetDensityByGatedActionNames shape₀ info action m₀ = .ok 1) ∧
    ∃ r', m'[pv]? = some r' ∧
      (Ungated g name "read" → r.reads ≤ 2 ^ 53 →
        r'.fine_grained_accesses "random_read" = some r.reads ∧
        r'.fine_grained_accesses "gated_read" = some 0) ∧
      (Ungated g name "write" → r.fills ≤ 2 ^ 53 →
        r'.fine_grained_accesses "random_fill" = some r.fills ∧
        r'.fine_grained_accesses "gated_fill" = some 0) ∧
      (Ungated g name "metadata_read" → r.reads ≤ 2 ^ 53 →
        r'.fine_grained_accesses "metadata_read" = some r.reads ∧
        r'.fine_grained_accesses "gated_metadata_read" = some 0) ∧
      (Ungated g name "metadata_write" → r.fills ≤ 2 ^ 53 →
        r'.fine_grained_accesses "metadata_fill" = some r.fills ∧
        r'.fine_grained_accesses "gated_metadata_fill" = some 0) := by
  refine ⟨fun shape₀ info action m₀ ha =>
    GetDensityByGatedActionNames_absent shape₀ info action m₀ ha, ?_⟩
  obtain ⟨_, _, _, hs⟩ := dataMovement_spec shape m m' g h
  obtain ⟨d, dm, r₀, rr, rf, mr, mf, hg, hgm, hr₀, hrr, hrf, hmr, hmf, hm'⟩ := hs pv hpv
  rw [hr] at hr₀
  simp only [Option.some.injEq] at hr₀
  subst hr₀
  obtain ⟨u1, u2⟩ := gatingDensities_ungated shape g _ _ pv m d name hg hname
  obtain ⟨u3, u4⟩ := gatingDensities_ungated shape g _ _ pv m dm name hgm hname
  obtain ⟨e1, e2, e3, e4, _, _, e7, e8, e9, e10⟩ :=
    entries_eval r.fine_grained_accesses r.reads rr r.fills rf r.updates mr mf
  refine ⟨_, hm', ?_, ?_, ?_, ?_⟩
  · intro hu ht
    rw [u1 hu] at hrr
    obtain ⟨a, b⟩ := randomCount_one_eq _ _ ht hrr
    subst a
    rw [b] at e2
    exact ⟨e1, e2⟩
  · intro hu ht
    rw [u2 hu] at hrf
    obtain ⟨a, b⟩ := randomCount_one_eq _ _ ht hrf
    subst a
    rw [b] at e4
    exact ⟨e3, e4⟩
  · intro hu ht
    rw [u3 hu] at hmr
    obtain ⟨a, b⟩ := randomCount_one_eq _ _ ht hmr
    subst a
    rw [b] at e8
    exact ⟨e7, e8⟩
  · intro hu ht
    rw [u4 hu] at hmf
    obtain ⟨a, b⟩ := randomCount_one_eq _ _ ht hmf
    subst a
    rw [b] at e10
    exact ⟨e9, e10⟩

/-- Witness of `no_gating_default`: Outputs has an entry with a `write` list
only, so its 10 reads are all random, as are the metadata reads and fills. -/
theorem no_gating_default_witness :
    ∃ m', ComputeFineGrainDataMovementAccesses threeSpaces sampleMovement writeOnlyGating
        = .ok m' ∧
      ∃ r', m'[2]? = some r' ∧
        r'.fine_grained_accesses "random_read" = some 10 ∧
        r'.fine_grained_accesses "gated_read" = some 0 ∧
        r'.fine_grained_accesses "metadata_read" = some 10 ∧
        r'.fine_grained_accesses "gated_metadata_read" = some 0 ∧
        r'.fine_grained_accesses "metadata_fill" = some 7 ∧
        r'.fine_grained_accesses "gated_metadata_fill" = some 0 := by
  obtain ⟨m', hm'⟩ := exists_ok_of_succeeds
    (ComputeFineGrainDataMovementAccesses threeSpaces sampleMovement writeOnlyGating)
    (by decide!)
  obtain ⟨_, r', h0, h1, _, h3, h4⟩ :=
    no_gating_default threeSpaces sampleMovement m' writeOnlyGating 2 "Outputs"
      (movement 10 7 5 1) hm' (by decide) rfl rfl
  have hread : Ungated writeOnlyGating "Outputs" "read" := Or.inr ⟨_, rfl, rfl⟩
  have hmr : Ungated writeOnlyGating "Outputs" "metadata_read" := Or.inr ⟨_, rfl, rfl⟩
  have hmw : Ungated writeOnlyGating "Outputs" "metadata_write" := Or.inr ⟨_, rfl, rfl⟩
  exact ⟨m', hm', r', h0, (h1 hread (by decide)).1, (h1 hread (by decide)).2,
    (h3 hmr (by decide)).1, (h3 hmr (by decide)).2,
    (h4 hmw (by decide)).1, (h4 hmw (by decide)).2⟩

/-- C4 fails as stated: a dense data space with no gating entry and
`reads = 2^53 + 1`.  The conversion of `reads` to `double` gives `2^53`, so
`random_read = 2^53` is not the whole total and `gated_read = 1` is not `0`. -/
theorem no_gating_default_fails_above_2_pow_53 :
    (noGating "Weights").isNone = true ∧
    (oddReads[0]?).map (·.reads) = some (2 ^ 53 + 1) ∧
    countAfter (ComputeFineGrainDataMovementAccesses oneSpace oddReads noGating) 0
      "random_read" = some (2 ^ 53) ∧
    countAfter (ComputeFineGrainDataMovementAccesses oneSpace oddReads noGating) 0
      "gated_read" = some 1 := by
  decide!

/-! ### Compute accounting -/

theorem ComputeFineGrainComputeAccesses_ok_iff (shape : Shape) (ci ci' : ComputeInfo)
    (m : CompoundDataMovementInfo) (cg : ComputeActionGatingInfo) :
    ComputeFineGrainComputeAccesses shape ci m cg = .ok ci' ↔
      ∃ d rc, GetDensityByGatedActionNames shape cg "compute" m = .ok d ∧
        toUInt64 (ceil (fmul (ofInt (totalAccesses ci)) d)) = .ok rc ∧
        ci' = withComputeAccesses ci
          (assign (assign ci.fine_grained_accesses "random_compute" rc) "gated_compute"
            (subUInt64 (intToUInt64 (totalAccesses ci)) rc)) := by
  unfold ComputeFineGrainComputeAccesses
  cases hd : GetDensityByGatedActionNames shape cg "compute" m with
  | error e => simp
  | ok d =>
    dsimp only
    rw [show toInt32 (ci.replication_factor * ci.accesses % 2 ^ 64) = totalAccesses ci from rfl]
    generalize totalAccesses ci = total
    cases hc : toUInt64 (ceil (fmul (ofInt total) d)) with
    | error e =>
      constructor
      · intro h; exact absurd h (by simp)
      · rintro ⟨d', rc', hd', hrc', _⟩
        simp only [Except.ok.injEq] at hd'
        subst hd'
        rw [hc] at hrc'
        exact absurd hrc' (by simp)
    | ok rc =>
      dsimp only
      rw [assign_same]
      dsimp only
      constructor
      · intro h
        simp only [Except.ok.injEq] at h
        exact ⟨d, rc, rfl, hc, h.symm⟩
      · rintro ⟨d', rc', hd', hrc', h⟩
        simp only [Except.ok.injEq] at hd'
        subst hd'
        rw [hc] at hrc'
        simp only [Except.ok.injEq] at hrc'
        subst hrc'
        rw [h]; rfl

theorem GetDensityByGatedActionNames_all (shape : Shape) (info : PerDataSpaceActionGatingInfo)
    (action : String) (m : CompoundDataMovementInfo) (rest : List String)
    (h : info action = some ("all" :: rest)) :
    GetDensityByGatedActionNames shape info action m = .ok 0 := by
  unfold GetDensityByGatedActionNames
  rw [h]
  simp

theorem totalAccesses_small (ci : ComputeInfo)
    (h : ci.replication_factor * ci.accesses < 2 ^ 31) :
    totalAccesses ci = ((ci.replication_factor * ci.accesses : ℕ) : ℤ) := by
  unfold totalAccesses toInt32
  have h64 : ci.replication_factor * ci.accesses % 2 ^ 64 = ci.replication_factor * ci.accesses :=
    Nat.mod_eq_of_lt (lt_trans h (by norm_num))
  have h32 : ci.replication_factor * ci.accesses % 2 ^ 32 = ci.replication_factor * ci.accesses :=
    Nat.mod_eq_of_lt (lt_trans h (by norm_num))
  rw [h64, h32, if_pos h]

theorem intToUInt64_natCast (n : Nat) (h : n < 2 ^ 64) : intToUInt64 (n : ℤ) = n := by
  unfold intToUInt64
  have : ((n : ℤ) % 2 ^ 64) = (n : ℤ) := Int.emod_eq_of_lt (by positivity) (by exact_mod_cast h)
  rw [this]; simp

theorem ofInt_natCast (n : Nat) (h : n ≤ 2 ^ 53) : ofInt (n : ℤ) = n := by
  unfold ofInt
  rw [show (((n : ℤ) : ℚ)) = (n : ℚ) by norm_num]
  exact roundToDouble_natCast n h

theorem gatingDensities_all (shape : Shape) (g : PerStorageLevelActionGatingInfo)
    (a₁ a₂ : String) (pv : Nat) (m : CompoundDataMovementInfo) (d : ℚ × ℚ) (name : String)
    (info : PerDataSpaceActionGatingInfo)
    (h : gatingDensities shape g a₁ a₂ pv m = .ok d)
    (hname : shape.DataSpaceIDToName pv = some name) (hinfo : g name = some info) :
    (info a₁ = some ["all"] → d.1 = 0) ∧ (info a₂ = some ["all"] → d.2 = 0) := by
  obtain ⟨name', hname', hcase⟩ := gatingDensities_ok shape g a₁ a₂ pv m d h
  rw [hname] at hname'
  simp only [Option.some.injEq] at hname'
  subst hname'
  rcases hcase with ⟨hn, _⟩ | ⟨info', hinfo', h1, h2⟩
  · rw [hinfo] at hn; simp at hn
  · rw [hinfo] at hinfo'
    simp only [Option.some.injEq] at hinfo'
    subst hinfo'
    constructor
    · intro ha
      rw [GetDensityByGatedActionNames_all shape info a₁ m [] ha] at h1
      simp only [Except.ok.injEq] at h1
      exact h1.symm
    · intro ha
      rw [GetDensityByGatedActionNames_all shape info a₂ m [] ha] at h2
      simp only [Except.ok.injEq] at h2
      exact h2.symm

theorem randomCount_zero_eq (total n : Nat) (ht : total < 2 ^ 64)
    (h : randomCount 0 total = .ok n) : n = 0 ∧ subUInt64 total n = total := by
  rw [randomCount_zero_density total] at h
  simp only [Except.ok.injEq] at h
  subst h
  exact ⟨rfl, by simpa using subUInt64_of_le total 0 (Nat.zero_le _) ht⟩

/-! ### Full gating (C5), compute formula (C6, C7) -/

theorem compute_entries (fga : FineGrainedAccesses) (a b : Nat) :
    assign (assign fga "random_compute" a) "gated_compute" b "random_compute" = some a ∧
    assign (assign fga "random_compute" a) "gated_compute" b "gated_compute" = some b := by
  simp [assign]

theorem fmul_zero_right (a : ℚ) : fmul a 0 = 0 := by
  unfold fmul
  rw [mul_zero, roundToDouble_zero]

/-- Full gating where the code honours it: when the gating list of an action is `all`,
`GetDensityByGatedActionNames` returns `0.0` whatever the registry holds.  A
successful `ComputeFineGrainDataMovementAccesses` then gives, for every total
and all tile densities, `random_read = 0`, `gated_read = reads` (`read`),
`random_fill = 0`, `gated_fill = fills` (`write`), `metadata_read = 0`,
`gated_metadata_read = reads` (`metadata_read`), `metadata_fill = 0`,
`gated_metadata_fill = fills` (`metadata_write`); and
`ComputeFineGrainComputeAccesses` gives `random_compute = 0`,
`gated_compute = replication_factor * accesses` (`compute`) when that product
is below `2^31`. -/
theorem full_gating (shape : Shape) (m m' : CompoundDataMovementInfo)
    (g : PerStorageLevelActionGatingInfo) (pv : Nat) (name : String)
    (info : PerDataSpaceActionGatingInfo) (r : DataMovementInfo)
    (h : ComputeFineGrainDataMovementAccesses shape m g = .ok m')
    (hpv : pv < shape.NumDataSpaces) (hname : shape.DataSpaceIDToName pv = some name)
    (hinfo : g name = some info) (hr : m[pv]? = some r)
    (hreads : r.reads < 2 ^ 64) (hfills : r.fills < 2 ^ 64) :
    (∀ (shape₀ : Shape) (info₀ : PerDataSpaceActionGatingInfo) (action : String)
        (m₀ : CompoundDataMovementInfo), info₀ action = some ["all"] →
        GetDensityByGatedActionNames shape₀ info₀ action m₀ = .ok 0) ∧
    (∃ r', m'[pv]? = some r' ∧
      (info "read" = some ["all"] →
        r'.fine_grained_accesses "random_read" = some 0 ∧
        r'.fine_grained_accesses "gated_read" = some r.reads) ∧
      (info "write" = some ["all"] →
        r'.fine_grained_accesses "random_fill" = some 0 ∧
        r'.fine_grained_accesses "gated_fill" = some r.fills) ∧
      (info "metadata_read" = some ["all"] →
        r'.fine_grained_accesses "metadata_read" = some 0 ∧
        r'.fine_grained_accesses "gated_metadata_read" = some r.reads) ∧
      (info "metadata_write" = some ["all"] →
        r'.fine_grained_accesses "metadata_fill" = some 0 ∧
        r'.fine_grained_accesses "gated_metadata_fill" = some r.fills)) ∧
    (∀ (ci : ComputeInfo) (cg : ComputeActionGatingInfo), cg "compute" = some ["all"] →
      ci.replication_factor * ci.accesses < 2 ^ 31 →
      ∃ ci', ComputeFineGrainComputeAccesses shape ci m cg = .ok ci' ∧
        ci'.fine_grained_accesses "random_compute" = some 0 ∧
        ci'.fine_grained_accesses "gated_compute" =
          some (ci.replication_factor * ci.accesses)) := by
  refine ⟨fun shape₀ info₀ action m₀ ha =>
    GetDensityByGatedActionNames_all shape₀ info₀ action m₀ [] ha, ?_, ?_⟩
  · obtain ⟨_, _, _, hs⟩ := dataMovement_spec shape m m' g h
    obtain ⟨d, dm, r₀, rr, rf, mr, mf, hg, hgm, hr₀, hrr, hrf, hmr, hmf, hm'⟩ := hs pv hpv
    rw [hr] at hr₀
    simp only [Option.some.injEq] at hr₀
    subst hr₀
    obtain ⟨u1, u2⟩ := gatingDensities_all shape g _ _ pv m d name info hg hname hinfo
    obtain ⟨u3, u4⟩ := gatingDensities_all shape g _ _ pv m dm name info hgm hname hinfo
    obtain ⟨e1, e2, e3, e4, _, _, e7, e8, e9, e10⟩ :=
      entries_eval r.fine_grained_accesses r.reads rr r.fills rf r.updates mr mf
    refine ⟨_, hm', ?_, ?_, ?_, ?_⟩
    · intro ha
      rw [u1 ha] at hrr
      obtain ⟨a, b⟩ := randomCount_zero_eq _ _ hreads hrr
      subst a
      rw [b] at e2
      exact ⟨e1, e2⟩
    · intro ha
      rw [u2 ha] at hrf
      obtain ⟨a, b⟩ := randomCount_zero_eq _ _ hfills hrf
      subst a
      rw [b] at e4
      exact ⟨e3, e4⟩
    · intro ha
      rw [u3 ha] at hmr
      obtain ⟨a, b⟩ := randomCount_zero_eq _ _ hreads hmr
      subst a
      rw [b] at e8
      exact ⟨e7, e8⟩
    · intro ha
      rw [u4 ha] at hmf
      obtain ⟨a, b⟩ := randomCount_zero_eq _ _ hfills hmf
      subst a
      rw [b] at e10
      exact ⟨e9, e10⟩
  · intro ci cg hall hsmall
    have hd := GetDensityByGatedActionNames_all shape cg "compute" m [] hall
    have hrc : toUInt64 (ceil (fmul (ofInt (totalAccesses ci)) 0)) = .ok 0 := by
      rw [fmul_zero_right]
      unfold ceil
      rw [Int.ceil_zero]
      exact toUInt64_natCast 0 (by norm_num)
    refine ⟨_, (ComputeFineGrainComputeAccesses_ok_iff shape ci _ m cg).mpr
      ⟨0, 0, hd, hrc, rfl⟩, ?_, ?_⟩
    · exact (compute_entries ci.fine_grained_accesses 0
        (subUInt64 (intToUInt64 (totalAccesses ci)) 0)).1
    · have hg := (compute_entries ci.fine_grained_accesses 0
        (subUInt64 (intToUInt64 (totalAccesses ci)) 0)).2
      have h64 : ci.replication_factor * ci.accesses < 2 ^ 64 :=
        lt_trans hsmall (by norm_num)
      have hv : subUInt64 (intToUInt64 (totalAccesses ci)) 0 =
          ci.replication_factor * ci.accesses := by
        rw [totalAccesses_small ci hsmall, intToUInt64_natCast _ h64,
          subUInt64_of_le _ 0 (Nat.zero_le _) h64]
        rfl
      rw [← hv]
      exact hg

/-- Witness of `full_gating`: every action of every data space is gated by
`all`; Outputs (10 reads, 7 fills) gets no random access. -/
theorem full_gating_witness :
    ∃ m', ComputeFineGrainDataMovementAccesses threeSpaces sampleMovement allGating = .ok m' ∧
      ∃ r', m'[2]? = some r' ∧
        r'.fine_grained_accesses "random_read" = some 0 ∧
        r'.fine_grained_accesses "gated_read" = some 10 ∧
        r'.fine_grained_accesses "random_fill" = some 0 ∧
        r'.fine_grained_accesses "gated_fill" = some 7 ∧
        r'.fine_grained_accesses "metadata_read" = some 0 ∧
        r'.fine_grained_accesses "gated_metadata_read" = some 10 ∧
        r'.fine_grained_accesses "metadata_fill" = some 0 ∧
        r'.fine_grained_accesses "gated_metadata_fill" = some 7 := by
  obtain ⟨m', hm'⟩ := exists_ok_of_succeeds
    (ComputeFineGrainDataMovementAccesses threeSpaces sampleMovement allGating) (by decide!)
  obtain ⟨_, ⟨r', h0, h1, h2, h3, h4⟩, _⟩ :=
    full_gating threeSpaces sampleMovement m' allGating 2 "Outputs" (fun _ => some ["all"])
      (movement 10 7 5 1) hm' (by decide) rfl rfl rfl (by decide) (by decide)
  exact ⟨m', hm', r', h0, (h1 rfl).1, (h1 rfl).2, (h2 rfl).1, (h2 rfl).2,
    (h3 rfl).1, (h3 rfl).2, (h4 rfl).1, (h4 rfl).2⟩

/-- C5 (the code at the failing input): compute is gated by `all`,
`replication_factor = 65536` and `accesses = 32768`, so the total is `2^31`.
The `int` variable `total_accesses` holds `-2^31` and the call writes
`gated_compute = 2^64 - 2^31`, not the total. -/
theorem full_gating_compute_fails_at_2_pow_31 :
    allComputeGating "compute" = some ["all"] ∧
    65536 * 32768 = 2 ^ 31 ∧
    computeCountAfter (ComputeFineGrainComputeAccesses threeSpaces (computeRecord 65536 32768)
      quarterInputs allComputeGating) "random_compute" = some 0 ∧
    computeCountAfter (ComputeFineGrainComputeAccesses threeSpaces (computeRecord 65536 32768)
      quarterInputs allComputeGating) "gated_compute" = some (2 ^ 64 - 2 ^ 31) := by
  decide!

/-- The compute formula where the code honours it: when
`replication_factor * accesses` is below `2^31` and the density of `compute`
resolves to `d`, a successful
`ComputeFineGrainComputeAccesses` sets `random_compute = ceil(d * total)` and
`gated_compute = total - random_compute` with
`total = replication_factor * accesses`. -/
theorem compute_formula (shape : Shape) (ci ci' : ComputeInfo) (m : CompoundDataMovementInfo)
    (cg : ComputeActionGatingInfo) (d : ℚ)
    (hd : GetDensityByGatedActionNames shape cg "compute" m = .ok d)
    (hsmall : ci.replication_factor * ci.accesses < 2 ^ 31)
    (h : ComputeFineGrainComputeAccesses shape ci m cg = .ok ci') :
    ∃ random_compute : ℕ,
      (random_compute : ℤ) = ceil (fmul d ((ci.replication_factor * ci.accesses : ℕ) : ℚ)) ∧
      ci'.fine_grained_accesses "random_compute" = some random_compute ∧
      ci'.fine_grained_accesses "gated_compute" =
        some (subUInt64 (ci.replication_factor * ci.accesses) random_compute) := by
  obtain ⟨d', rc, hd', hrc, hci⟩ := (ComputeFineGrainComputeAccesses_ok_iff shape ci ci' m cg).mp h
  rw [hd] at hd'
  simp only [Except.ok.injEq] at hd'
  subst hd'
  have h53 : ci.replication_factor * ci.accesses ≤ 2 ^ 53 :=
    le_of_lt (lt_trans hsmall (by norm_num))
  have h64 : ci.replication_factor * ci.accesses < 2 ^ 64 := lt_trans hsmall (by norm_num)
  rw [totalAccesses_small ci hsmall] at hrc hci
  rw [ofInt_natCast _ h53] at hrc
  rw [intToUInt64_natCast _ h64] at hci
  have hval : (rc : ℤ) = ceil (fmul d ((ci.replication_factor * ci.accesses : ℕ) : ℚ)) := by
    unfold toUInt64 at hrc
    split_ifs at hrc with hc
    simp only [Except.ok.injEq] at hrc
    rw [← hrc, Int.toNat_of_nonneg hc.1]
    unfold fmul
    rw [mul_comm]
  subst hci
  exact ⟨rc, hval,
    (compute_entries ci.fine_grained_accesses rc
      (subUInt64 (ci.replication_factor * ci.accesses) rc)).1,
    (compute_entries ci.fine_grained_accesses rc
      (subUInt64 (ci.replication_factor * ci.accesses) rc)).2⟩

/-- Witness of `compute_formula` (compute scaling): `replication_factor = 4`,
`accesses = 3` and compute gated by Inputs of density 0.25 give
`random_compute = 3` and `gated_compute = 9`. -/
theorem compute_formula_witness :
    ∃ ci', ComputeFineGrainComputeAccesses threeSpaces (computeRecord 4 3) quarterInputs
        inputsComputeGating = .ok ci' ∧
      GetDensityByGatedActionNames threeSpaces inputsComputeGating "compute" quarterInputs
        = .ok (1 / 4) ∧
      ci'.fine_grained_accesses "random_compute" = some 3 ∧
      ci'.fine_grained_accesses "gated_compute" = some 9 := by
  have hd : GetDensityByGatedActionNames threeSpaces inputsComputeGating "compute" quarterInputs
      = .ok (1 / 4) := by
    have h1 : GetDensityByGatedActionNames threeSpaces inputsComputeGating "compute"
        quarterInputs = .ok (fmul 1 (1 / 4)) := rfl
    have h2 : fmul 1 (1 / 4) = 1 / 4 := by decide!
    rw [h1, h2]
  obtain ⟨ci', hci'⟩ := exists_ok_of_succeeds
    (ComputeFineGrainComputeAccesses threeSpaces (computeRecord 4 3) quarterInputs
      inputsComputeGating) (by decide!)
  obtain ⟨rc, h1, h2, h3⟩ :=
    compute_formula threeSpaces (computeRecord 4 3) ci' quarterInputs inputsComputeGating
      (1 / 4) hd (by decide) hci'
  have hrc : rc = 3 := by
    have : ceil (fmul (1 / 4)
        (((computeRecord 4 3).replication_factor * (computeRecord 4 3).accesses : ℕ) : ℚ)) = 3 := by
      decide!
    rw [this] at h1
    exact_mod_cast h1
  subst hrc
  exact ⟨ci', hci', hd, h2, h3⟩

/-- C6 (the code at the failing input): no compute gating (`d = 1`),
`replication_factor = 1` and `accesses = 2^32 + 5`.  The `int` variable
`total_accesses` holds `5`; the call writes `random_compute = 5` and
`gated_compute = 0`, whereas `ceil(d * total)` is `2^32 + 5`. -/
theorem compute_formula_fails_above_2_pow_31 :
    computeCountAfter (ComputeFineGrainComputeAccesses threeSpaces
      (computeRecord 1 (2 ^ 32 + 5)) quarterInputs noComputeGating) "random_compute" = some 5 ∧
    computeCountAfter (ComputeFineGrainComputeAccesses threeSpaces
      (computeRecord 1 (2 ^ 32 + 5)) quarterInputs noComputeGating) "gated_compute" = some 0 ∧
    ceil (fmul 1 ((1 * (2 ^ 32 + 5) : ℕ) : ℚ)) = 2 ^ 32 + 5 := by
  decide!

/-- C7 (the code at the failing input): `replication_factor = 65536` and
`accesses = 65536` with no compute gating.  The product `2^32` is stored in
the `int` variable `total_accesses` as `0`; the call writes
`random_compute = 0` and `gated_compute = 0`, which do not add up to `2^32`. -/
theorem compute_total_truncated :
    totalAccesses (computeRecord 65536 65536) = 0 ∧
    (computeRecord 65536 65536).replication_factor * (computeRecord 65536 65536).accesses
      = 2 ^ 32 ∧
    computeCountAfter (ComputeFineGrainComputeAccesses threeSpaces (computeRecord 65536 65536)
      quarterInputs noComputeGating) "random_compute" = some 0 ∧
    computeCountAfter (ComputeFineGrainComputeAccesses threeSpaces (computeRecord 65536 65536)
      quarterInputs noComputeGating) "gated_compute" = some 0 := by
  decide!

/-! ### Metadata formula (C8) -/

/-- C8, amended: after a successful `ComputeFineGrainMetaDataAccesses` every
data space `pv` has `metadata_read = ceil(pMR)`,
`gated_metadata_read = reads - metadata_read` modulo `2^64`,
`metadata_fill = ceil(pMW)` and
`gated_metadata_fill = fills - metadata_fill` modulo `2^64`.  Here `pMR` is
the `double` product of `dMR` and of `reads` converted to `double`, `pMW` the
one of `dMW` and `fills`; `dMR` and `dMW` are the densities resolved for the
actions `metadata_read` and `metadata_write` of the gating entry stored under
its own name (`1.0` without an entry) and `reads` and `fills` are the totals of
its record.  Every other key of its map and the totals themselves are
unchanged.  When every average tile density lies in `[0,1]` and `reads` is at
most `2^53`, `metadata_read <= reads` and `gated_metadata_read` is the exact
difference; likewise for `fills`. -/
theorem metadata_formula (shape : Shape) (m m' : CompoundDataMovementInfo)
    (g : PerStorageLevelActionGatingInfo)
    (h : ComputeFineGrainMetaDataAccesses shape m g = .ok m')
    (pv : Nat) (hpv : pv < shape.NumDataSpaces) :
    ∃ (name : String) (r r' : DataMovementInfo) (dMR dMW : ℚ)
      (metadata_read metadata_fill : ℕ),
      shape.DataSpaceIDToName pv = some name ∧ m[pv]? = some r ∧ m'[pv]? = some r' ∧
      ((g name = none ∧ dMR = 1 ∧ dMW = 1) ∨
        ∃ info, g name = some info ∧
          GetDensityByGatedActionNames shape info "metadata_read" m = .ok dMR ∧
          GetDensityByGatedActionNames shape info "metadata_write" m = .ok dMW) ∧
      (metadata_read : ℤ) = ceil (fmul dMR (ofUInt64 r.reads)) ∧
      (metadata_fill : ℤ) = ceil (fmul dMW (ofUInt64 r.fills)) ∧
      r'.fine_grained_accesses "metadata_read" = some metadata_read ∧
      r'.fine_grained_accesses "gated_metadata_read" =
        some (subUInt64 r.reads metadata_read) ∧
      r'.fine_grained_accesses "metadata_fill" = some metadata_fill ∧
      r'.fine_grained_accesses "gated_metadata_fill" =
        some (subUInt64 r.fills metadata_fill) ∧
      (∀ k, k ≠ "metadata_read" → k ≠ "gated_metadata_read" → k ≠ "metadata_fill" →
        k ≠ "gated_metadata_fill" → r'.fine_grained_accesses k = r.fine_grained_accesses k) ∧
      r'.reads = r.reads ∧ r'.fills = r.fills ∧ r'.updates = r.updates ∧
      ((∀ x ∈ m, 0 ≤ x.tile_density ∧ x.tile_density ≤ 1) →
        (r.reads ≤ 2 ^ 53 → metadata_read ≤ r.reads ∧
          r'.fine_grained_accesses "gated_metadata_read" = some (r.reads - metadata_read)) ∧
        (r.fills ≤ 2 ^ 53 → metadata_fill ≤ r.fills ∧
          r'.fine_grained_accesses "gated_metadata_fill" =
            some (r.fills - metadata_fill))) := by
  obtain ⟨_, _, _, hs⟩ := metaData_spec shape m m' g h
  obtain ⟨dm, r, mr, mf, hgm, hr, hmr, hmf, hm'⟩ := hs pv hpv
  obtain ⟨name, hname, hcase⟩ := gatingDensities_ok shape g _ _ pv m dm hgm
  obtain ⟨e1, e2, e3, e4, e5⟩ := metaDataEntries_eval r.fine_grained_accesses r.reads mr r.fills mf
  refine ⟨name, r, _, dm.1, dm.2, mr, mf, hname, hr, hm', ?_, (randomCount_ok _ _ _ hmr).1,
    (randomCount_ok _ _ _ hmf).1, e1, e2, e3, e4, e5, rfl, rfl, rfl, ?_⟩
  swap
  · intro hden
    obtain ⟨u1, u2⟩ := gatingDensities_unit shape g _ _ pv m hden dm hgm
    refine ⟨fun ht => ?_, fun ht => ?_⟩
    · obtain ⟨x1, x2⟩ := randomCount_no_wrap_of_ok dm.1 r.reads mr u1 ht hmr
      exact ⟨x1, by rw [← x2]; exact e2⟩
    · obtain ⟨x1, x2⟩ := randomCount_no_wrap_of_ok dm.2 r.fills mf u2 ht hmf
      exact ⟨x1, by rw [← x2]; exact e4⟩
  rcases hcase with ⟨hn, hd⟩ | ⟨info, hinfo, h1, h2⟩
  · left
    rw [hd]
    exact ⟨hn, rfl, rfl⟩
  · right
    exact ⟨info, hinfo, h1, h2⟩

/-- Witness of `metadata_formula`: Outputs (10 reads, 7 fills, 5 updates) with
metadata reads gated by Weights of density 0.5 and metadata fills gated by
`all`. -/
theorem metadata_formula_witness :
    ∃ m', ComputeFineGrainMetaDataAccesses threeSpaces sampleMovement metadataGating
        = .ok m' ∧
      ∃ r', m'[2]? = some r' ∧
        r'.fine_grained_accesses "metadata_read" = some 5 ∧
        r'.fine_grained_accesses "gated_metadata_read" = some 5 ∧
        r'.fine_grained_accesses "metadata_fill" = some 0 ∧
        r'.fine_grained_accesses "gated_metadata_fill" = some 7 ∧
        r'.fine_grained_accesses "random_update" = none ∧ r'.updates = 5 := by
  obtain ⟨m', hm'⟩ := exists_ok_of_succeeds
    (ComputeFineGrainMetaDataAccesses threeSpaces sampleMovement metadataGating) (by decide!)
  obtain ⟨name, r, r', dMR, dMW, mr, mf, h1, h2, h3, h4, h5, h6, h7, h8, h9, h10, h11, _, _,
    h14, _⟩ := metadata_formula threeSpaces sampleMovement m' metadataGating hm' 2 (by decide)
  have hr : r = movement 10 7 5 1 := by
    have : sampleMovement[2]? = some (movement 10 7 5 1) := rfl
    rw [this] at h2
    simp only [Option.some.injEq] at h2
    exact h2.symm
  have hn : name = "Outputs" := by
    have : threeSpaces.DataSpaceIDToName 2 = some "Outputs" := rfl
    rw [this] at h1
    simp only [Option.some.injEq] at h1
    exact h1.symm
  subst hr; subst hn
  have hd : dMR = 1 / 2 ∧ dMW = 0 := by
    rcases h4 with ⟨hn, _⟩ | ⟨info, hinfo, d1, d2⟩
    · exact absurd hn (by simp [metadataGating])
    · have hi : metadataGating "Outputs" = some (fun action =>
          if action = "metadata_read" then some ["Weights"]
          else if action = "metadata_write" then some ["all"] else none) := rfl
      rw [hi] at hinfo
      simp only [Option.some.injEq] at hinfo
      subst hinfo
      have e1 : GetDensityByGatedActionNames threeSpaces (fun action =>
          if action = "metadata_read" then some ["Weights"]
          else if action = "metadata_write" then some ["all"] else none) "metadata_read"
          sampleMovement = .ok (fmul 1 (1 / 2)) := rfl
      have e2 : GetDensityByGatedActionNames threeSpaces (fun action =>
          if action = "metadata_read" then some ["Weights"]
          else if action = "metadata_write" then some ["all"] else none) "metadata_write"
          sampleMovement = .ok 0 := rfl
      have e3 : fmul 1 (1 / 2) = 1 / 2 := by decide!
      rw [e1, e3] at d1
      rw [e2] at d2
      simp only [Except.ok.injEq] at d1 d2
      exact ⟨d1.symm, d2.symm⟩
  obtain ⟨hd1, hd2⟩ := hd
  subst hd1; subst hd2
  have v1 : ceil (fmul (1 / 2) (ofUInt64 (movement 10 7 5 1).reads)) = 5 := by decide!
  have v2 : ceil (fmul 0 (ofUInt64 (movement 10 7 5 1).fills)) = 0 := by decide!
  rw [v1] at h5
  rw [v2] at h6
  have hmr : mr = 5 := by exact_mod_cast h5
  have hmf : mf = 0 := by exact_mod_cast h6
  subst hmr; subst hmf
  refine ⟨m', hm', r', h3, h7, ?_, h9, ?_, ?_, h14⟩
  · rw [h8]; rfl
  · rw [h10]; rfl
  · rw [h11 "random_update" (by decide) (by decide) (by decide) (by decide)]; rfl

/-- C8 fails as stated.  With the metadata reads of Outputs gated by Weights of
density 0.1 (the nearest `double`, slightly above one tenth) and 10 reads, the
`double` product rounds to exactly `1.0` and `metadata_read = 1`, while the
ceiling of the exact product is 2.  Without any gating entry the density is
`1.0`, yet `reads = 2^53 + 1` converts to `2^53` and `metadata_read = 2^53`,
not the total; `fills = 2^54 + 3` converts to `2^54 + 4`, so
`metadata_fill = 2^54 + 4` and `gated_metadata_fill` wraps to `2^64 - 1`. -/
theorem metadata_rounds_in_double :
    (GetDensityByGatedActionNames threeSpaces (metadataGate ["Weights"]) "metadata_read"
      tenthMovement).toOption = some (roundToDouble (1 / 10)) ∧
    countAfter (ComputeFineGrainMetaDataAccesses threeSpaces tenthMovement
      weightsMetadataGating) 2 "metadata_read" = some 1 ∧
    ceil (roundToDouble (1 / 10) * (10 : ℕ)) = 2 ∧
    (denseLarge[2]?).map (·.reads) = some (2 ^ 53 + 1) ∧
    (denseLarge[2]?).map (·.fills) = some (2 ^ 54 + 3) ∧
    countAfter (ComputeFineGrainMetaDataAccesses threeSpaces denseLarge noGating) 2
      "metadata_read" = some (2 ^ 53) ∧
    ceil ((1 : ℚ) * (2 ^ 53 + 1 : ℕ)) = 2 ^ 53 + 1 ∧
    countAfter (ComputeFineGrainMetaDataAccesses threeSpaces denseLarge noGating) 2
      "metadata_fill" = some (2 ^ 54 + 4) ∧
    countAfter (ComputeFineGrainMetaDataAccesses threeSpaces denseLarge noGating) 2
      "gated_metadata_fill" = some (2 ^ 64 - 1) := by
  decide!

/-! ### Lookup failure (C9) -/

theorem gatedDensityLoop_unknown (shape : Shape) (m : CompoundDataMovementInfo)
    (hwf : ∀ name id, shape.DataSpaceNameToID name = some id → id < m.length)
    (names : List String) (d₀ : ℚ)
    (h : ∃ n ∈ names, shape.DataSpaceNameToID n = none) :
    gatedDensityLoop shape m names d₀ = .error .out_of_range := by
  induction names generalizing d₀ with
  | nil =>
    obtain ⟨n, hn, _⟩ := h
    simp at hn
  | cons name rest ih =>
    unfold gatedDensityLoop
    cases hid : shape.DataSpaceNameToID name with
    | none => rfl
    | some id =>
      dsimp only
      have hlt := hwf name id hid
      rw [List.getElem?_eq_getElem hlt]
      dsimp only
      apply ih
      obtain ⟨n, hn, hnone⟩ := h
      rcases List.mem_cons.mp hn with heq | hmem
      · rw [heq, hid] at hnone; simp at hnone
      · exact ⟨n, hmem, hnone⟩

theorem gatedDensityLoop_known (shape : Shape) (m : CompoundDataMovementInfo)
    (hwf : ∀ name id, shape.DataSpaceNameToID name = some id → id < m.length)
    (names : List String) (d₀ : ℚ)
    (h : ∀ n ∈ names, ∃ id, shape.DataSpaceNameToID n = some id) :
    ∃ d, gatedDensityLoop shape m names d₀ = .ok d := by
  induction names generalizing d₀ with
  | nil => exact ⟨d₀, rfl⟩
  | cons name rest ih =>
    unfold gatedDensityLoop
    obtain ⟨id, hid⟩ := h name (List.mem_cons_self _ _)
    rw [hid]
    dsimp only
    have hlt := hwf name id hid
    rw [List.getElem?_eq_getElem hlt]
    dsimp only
    exact ih _ (fun n hn => h n (List.mem_cons_of_mem _ hn))

/-- C9 (amended): let the action have the gating list `names` and let every
registered id index a record of the movement collection.  If `names` starts
with `all`, `GetDensityByGatedActionNames` returns `0.0` without any lookup,
whatever follows.  If `names` does not start with `all` and contains a name
that is not a registered data space, the call fails with a lookup error.  If
`names` is not empty and all its names are registered, the call returns a
density. -/
theorem lookup_failure (shape : Shape) (info : PerDataSpaceActionGatingInfo) (action : String)
    (m : CompoundDataMovementInfo) (names : List String)
    (hinfo : info action = some names)
    (hwf : ∀ name id, shape.DataSpaceNameToID name = some id → id < m.length) :
    (names.head? = some "all" →
      GetDensityByGatedActionNames shape info action m = .ok 0) ∧
    (names.head? ≠ some "all" → (∃ n ∈ names, shape.DataSpaceNameToID n = none) →
      GetDensityByGatedActionNames shape info action m = .error .out_of_range) ∧
    (names ≠ [] → (∀ n ∈ names, ∃ id, shape.DataSpaceNameToID n = some id) →
      ∃ d, GetDensityByGatedActionNames shape info action m = .ok d) := by
  unfold GetDensityByGatedActionNames
  rw [hinfo]
  cases names with
  | nil =>
    refine ⟨fun h => by simp at h, fun _ h => ?_, fun h => absurd rfl h⟩
    obtain ⟨n, hn, _⟩ := h
    simp at hn
  | cons first rest =>
    dsimp only
    refine ⟨fun h => ?_, fun h hun => ?_, fun _ hk => ?_⟩
    · have : first = "all" := by simpa using h
      rw [if_pos this]
    · have : first ≠ "all" := by
        intro hf; apply h; simp [hf]
      rw [if_neg this]
      exact gatedDensityLoop_unknown shape m hwf _ 1 hun
    · by_cases hf : first = "all"
      · rw [if_pos hf]; exact ⟨0, rfl⟩
      · rw [if_neg hf]
        exact gatedDensityLoop_known shape m hwf _ 1 hk

/-- Witness of `lookup_failure`: `Biases` is not registered, so a `read` list
naming Weights and Biases raises the lookup error. -/
theorem lookup_failure_witness :
    GetDensityByGatedActionNames threeSpaces (readGate ["Weights", "Biases"]) "read"
        sampleMovement = .error .out_of_range ∧
    ∃ d, GetDensityByGatedActionNames threeSpaces (readGate ["Weights", "Inputs"]) "read"
        sampleMovement = .ok d := by
  have hwf : ∀ name id, threeSpaces.DataSpaceNameToID name = some id →
      id < sampleMovement.length := by
    intro name id h
    simp only [threeSpaces] at h
    split_ifs at h <;> simp at h <;> subst h <;> decide
  constructor
  · exact (lookup_failure threeSpaces (readGate ["Weights", "Biases"]) "read" sampleMovement
      ["Weights", "Biases"] rfl hwf).2.1 (by decide) ⟨"Biases", by simp, by decide⟩
  · exact (lookup_failure threeSpaces (readGate ["Weights", "Inputs"]) "read" sampleMovement
      ["Weights", "Inputs"] rfl hwf).2.2 (by simp) (by
        intro n hn
        simp only [List.mem_cons, List.mem_singleton, List.not_mem_nil, or_false] at hn
        rcases hn with h | h <;> subst h
        · exact ⟨0, rfl⟩
        · exact ⟨1, rfl⟩)

/-- C9 fails as stated.  The list `all, Weights` is not the list `all` and its
first name is not a registered data space, yet the call returns `0.0` instead
of failing: only element 0 is compared with the sentinel and no name is looked
up.  And for an empty list, all of whose names are registered, the call reads
element 0 of the empty vector, which is undefined, instead of returning a
density. -/
theorem lookup_skipped_behind_all :
    threeSpaces.DataSpaceNameToID "all" = none ∧
    ["all", "Weights"] ≠ ["all"] ∧
    GetDensityByGatedActionNames threeSpaces (readGate ["all", "Weights"]) "read"
      sampleMovement = .ok 0 ∧
    GetDensityByGatedActionNames threeSpaces (readGate []) "read" sampleMovement
      = .error .undefined := by
  refine ⟨by decide, by decide, rfl, rfl⟩

/-! ### Idempotence (C10) -/

theorem set_eq_self_of_getElem? (l : List DataMovementInfo) (i : Nat) (a : DataMovementInfo)
    (h : l[i]? = some a) : l.set i a = l := by
  apply List.ext_getElem?
  intro j
  rw [List.getElem?_set]
  by_cases hij : i = j
  · subst hij
    have hlt : i < l.length := (List.getElem?_eq_some.mp h).1
    rw [if_pos rfl, if_pos hlt, h]
  · rw [if_neg hij]

theorem accountingBody_fixed (shape : Shape) (g : PerStorageLevelActionGatingInfo)
    (a₁ a₂ : String) (account : ℚ → ℚ → DataMovementInfo → Except Error DataMovementInfo)
    (i : Nat) (m : CompoundDataMovementInfo) (d : ℚ × ℚ) (r : DataMovementInfo)
    (hg : gatingDensities shape g a₁ a₂ i m = .ok d) (hr : m[i]? = some r)
    (ha : account d.1 d.2 r = .ok r) :
    accountingBody shape g a₁ a₂ account i m = .ok m := by
  unfold accountingBody
  rw [hg]
  dsimp only
  rw [hr]
  dsimp only
  rw [ha]
  dsimp only
  rw [set_eq_self_of_getElem? m i r hr]

theorem assign_absorb (f : FineGrainedAccesses) (key : String) (value : Nat)
    (h : f key = some value) : assign f key value = f := by
  funext k
  unfold assign
  split_ifs with hk
  · rw [hk, h]
  · rfl

theorem dataEntries_absorb (f : FineGrainedAccesses) (reads rr fills rf updates mr mf : Nat) :
    dataEntries (metaDataEntries (dataEntries f reads rr fills rf updates) reads mr fills mf)
        reads rr fills rf updates =
      metaDataEntries (dataEntries f reads rr fills rf updates) reads mr fills mf := by
  obtain ⟨e1, e2, e3, e4, e5, e6, _⟩ := entries_eval f reads rr fills rf updates mr mf
  rw [← subUInt64_self updates] at e6
  generalize metaDataEntries (dataEntries f reads rr fills rf updates) reads mr fills mf = F
    at e1 e2 e3 e4 e5 e6 ⊢
  unfold dataEntries
  rw [assign_absorb F _ _ e1, assign_absorb F _ _ e2, assign_absorb F _ _ e3,
    assign_absorb F _ _ e4, assign_absorb F _ _ e5, assign_absorb F _ _ e6]

theorem metaDataEntries_absorb (f : FineGrainedAccesses) (reads mr fills mf : Nat) :
    metaDataEntries (metaDataEntries f reads mr fills mf) reads mr fills mf =
      metaDataEntries f reads mr fills mf := by
  obtain ⟨e1, e2, e3, e4, _⟩ := metaDataEntries_eval f reads mr fills mf
  generalize metaDataEntries f reads mr fills mf = F at e1 e2 e3 e4 ⊢
  unfold metaDataEntries
  rw [assign_absorb F _ _ e1, assign_absorb F _ _ e2, assign_absorb F _ _ e3,
    assign_absorb F _ _ e4]

theorem computeEntries_absorb (f : FineGrainedAccesses) (a b : Nat) :
    assign (assign (assign (assign f "random_compute" a) "gated_compute" b)
        "random_compute" a) "gated_compute" b =
      assign (assign f "random_compute" a) "gated_compute" b := by
  obtain ⟨e1, e2⟩ := compute_entries f a b
  generalize assign (assign f "random_compute" a) "gated_compute" b = F at e1 e2 ⊢
  rw [assign_absorb F _ _ e1, assign_absorb F _ _ e2]

/-- C10: running an accounting again on its own result changes nothing.  If
`ComputeFineGrainDataMovementAccesses` succeeds on `m` with result `m'`, it
succeeds on `m'` with result `m'`, whatever entries `m` already held; the same
holds for `ComputeFineGrainMetaDataAccesses` and, on a compute record, for
`ComputeFineGrainComputeAccesses`. -/
theorem accounting_idempotent (shape : Shape) (m : CompoundDataMovementInfo)
    (g : PerStorageLevelActionGatingInfo) :
    (∀ m', ComputeFineGrainDataMovementAccesses shape m g = .ok m' →
      ComputeFineGrainDataMovementAccesses shape m' g = .ok m') ∧
    (∀ m', ComputeFineGrainMetaDataAccesses shape m g = .ok m' →
      ComputeFineGrainMetaDataAccesses shape m' g = .ok m') ∧
    (∀ (ci ci' : ComputeInfo) (cg : ComputeActionGatingInfo),
      ComputeFineGrainComputeAccesses shape ci m cg = .ok ci' →
      ComputeFineGrainComputeAccesses shape ci' m cg = .ok ci') := by
  refine ⟨?_, ?_, ?_⟩
  · intro m' h
    obtain ⟨_, hden, _, hs⟩ := dataMovement_spec shape m m' g h
    have hdata : forLoop (accountingBody shape g "read" "write" dataMovementRecord)
        shape.NumDataSpaces m' = .ok m' := by
      apply forLoop_fixed
      intro i hi
      obtain ⟨d, dm, r, rr, rf, mr, mf, hg, _, _, hrr, hrf, _, _, hm'⟩ := hs i hi
      rw [← gatingDensities_congr shape g _ _ i m' m hden] at hg
      refine accountingBody_fixed shape g _ _ _ i m' d _ hg hm' ?_
      rw [dataMovementRecord_ok_iff]
      refine ⟨rr, rf, hrr, hrf, ?_⟩
      simp only [withAccesses, dataEntries_absorb]
    have hmeta : forLoop
        (accountingBody shape g "metadata_read" "metadata_write" metaDataRecord)
        shape.NumDataSpaces m' = .ok m' := by
      apply forLoop_fixed
      intro i hi
      obtain ⟨d, dm, r, rr, rf, mr, mf, _, hgm, _, _, _, hmr, hmf, hm'⟩ := hs i hi
      rw [← gatingDensities_congr shape g _ _ i m' m hden] at hgm
      refine accountingBody_fixed shape g _ _ _ i m' dm _ hgm hm' ?_
      rw [metaDataRecord_ok_iff]
      refine ⟨mr, mf, hmr, hmf, ?_⟩
      simp only [withAccesses, metaDataEntries_absorb]
    unfold ComputeFineGrainDataMovementAccesses
    rw [hdata]
    exact hmeta
  · intro m' h
    obtain ⟨_, hden, _, hs⟩ := metaData_spec shape m m' g h
    unfold ComputeFineGrainMetaDataAccesses
    apply forLoop_fixed
    intro i hi
    obtain ⟨dm, r, mr, mf, hgm, _, hmr, hmf, hm'⟩ := hs i hi
    rw [← gatingDensities_congr shape g _ _ i m' m hden] at hgm
    refine accountingBody_fixed shape g _ _ _ i m' dm _ hgm hm' ?_
    rw [metaDataRecord_ok_iff]
    refine ⟨mr, mf, hmr, hmf, ?_⟩
    simp only [withAccesses, metaDataEntries_absorb]
  · intro ci ci' cg h
    obtain ⟨d, rc, hd, hrc, hci⟩ := (ComputeFineGrainComputeAccesses_ok_iff shape ci ci' m cg).mp h
    rw [ComputeFineGrainComputeAccesses_ok_iff]
    subst hci
    refine ⟨d, rc, hd, hrc, ?_⟩
    simp only [withComputeAccesses]
    rw [show totalAccesses
        { replication_factor := ci.replication_factor, accesses := ci.accesses,
          fine_grained_accesses :=
            assign (assign ci.fine_grained_accesses "random_compute" rc) "gated_compute"
              (subUInt64 (intToUInt64 (totalAccesses ci)) rc) } = totalAccesses ci from rfl,
      computeEntries_absorb]

/-- Witness of `accounting_idempotent` on records that already hold entries. -/
theorem accounting_idempotent_witness :
    (∃ m', ComputeFineGrainDataMovementAccesses threeSpaces usedMovement sampleGating = .ok m' ∧
      ComputeFineGrainDataMovementAccesses threeSpaces m' sampleGating = .ok m') ∧
    (∃ m', ComputeFineGrainMetaDataAccesses threeSpaces usedMovement sampleGating = .ok m' ∧
      ComputeFineGrainMetaDataAccesses threeSpaces m' sampleGating = .ok m') ∧
    (∃ ci', ComputeFineGrainComputeAccesses threeSpaces (computeRecord 4 3) usedMovement
        inputsComputeGating = .ok ci' ∧
      ComputeFineGrainComputeAccesses threeSpaces ci' usedMovement inputsComputeGating
        = .ok ci') := by
  obtain ⟨m₁, h₁⟩ := exists_ok_of_succeeds
    (ComputeFineGrainDataMovementAccesses threeSpaces usedMovement sampleGating) (by decide!)
  obtain ⟨m₂, h₂⟩ := exists_ok_of_succeeds
    (ComputeFineGrainMetaDataAccesses threeSpaces usedMovement sampleGating) (by decide!)
  obtain ⟨c₃, h₃⟩ := exists_ok_of_succeeds
    (ComputeFineGrainComputeAccesses threeSpaces (computeRecord 4 3) usedMovement
      inputsComputeGating) (by decide!)
  exact ⟨⟨m₁, h₁, (accounting_idempotent threeSpaces usedMovement sampleGating).1 m₁ h₁⟩,
    ⟨m₂, h₂, (accounting_idempotent threeSpaces usedMovement sampleGating).2.1 m₂ h₂⟩,
    ⟨c₃, h₃, (accounting_idempotent threeSpaces usedMovement sampleGating).2.2 _ c₃ _ h₃⟩⟩

/-! ### Monotone rounding -/

theorem roundHalfEven_le_floor_add_one (q : ℚ) : roundHalfEven q ≤ ⌊q⌋ + 1 := by
  unfold roundHalfEven
  simp only
  split_ifs <;> omega

theorem roundHalfEven_mono (q q' : ℚ) (h : q ≤ q') : roundHalfEven q ≤ roundHalfEven q' := by
  have hf : ⌊q⌋ ≤ ⌊q'⌋ := Int.floor_le_floor h
  rcases lt_or_eq_of_le hf with hlt | heq
  · calc roundHalfEven q ≤ ⌊q⌋ + 1 := roundHalfEven_le_floor_add_one q
      _ ≤ ⌊q'⌋ := hlt
      _ ≤ roundHalfEven q' := floor_le_roundHalfEven q'
  · unfold roundHalfEven
    simp only
    rw [← heq]
    have hsub : q - ⌊q⌋ ≤ q' - ⌊q⌋ := by linarith
    by_cases h1 : q - ⌊q⌋ < 1 / 2
    · rw [if_pos h1]
      split_ifs <;> omega
    · rw [if_neg h1]
      have h1' : ¬ (q' - ⌊q⌋ < 1 / 2) := by
        intro hc; exact h1 (lt_of_le_of_lt hsub hc)
      rw [if_neg h1']
      by_cases h2 : 1 / 2 < q - ⌊q⌋
      · rw [if_pos h2, if_pos (lt_of_lt_of_le h2 hsub)]
      · rw [if_neg h2]
        split_ifs <;> omega

theorem ilog2_le_binade (x : ℚ) : ilog2 x ≤ binade x := le_max_left _ _

theorem binade_ge (x : ℚ) : (-1022 : ℤ) ≤ binade x := le_max_right _ _

theorem lt_two_zpow_binade_succ (x : ℚ) (hx : 0 < x) : x < (2 : ℚ) ^ (binade x + 1) := by
  have h := (ilog2_spec x (ne_of_gt hx)).2
  rw [abs_of_pos hx] at h
  exact lt_of_lt_of_le h
    (zpow_le_zpow_right₀ (by norm_num) (by linarith [ilog2_le_binade x]))

theorem binade_mono (x y : ℚ) (hx : 0 < x) (hxy : x ≤ y) : binade x ≤ binade y := by
  have hy : 0 < y := lt_of_lt_of_le hx hxy
  have h1 := (ilog2_spec x (ne_of_gt hx)).1
  have h2 := (ilog2_spec y (ne_of_gt hy)).2
  rw [abs_of_pos hx] at h1
  rw [abs_of_pos hy] at h2
  have h3 : (2 : ℚ) ^ ilog2 x < (2 : ℚ) ^ (ilog2 y + 1) := lt_of_le_of_lt h1 (lt_of_le_of_lt hxy h2)
  have h4 : ilog2 x < ilog2 y + 1 := (zpow_lt_zpow_iff_right₀ (by norm_num : (1 : ℚ) < 2)).mp h3
  unfold binade
  exact max_le_max (by omega) le_rfl

theorem two_zpow_eq_mul_ulp (x : ℚ) (e : ℤ) (he : binade x - 52 ≤ e) :
    (2 : ℚ) ^ e = ((2 ^ (e - (binade x - 52)).toNat : ℤ) : ℚ) * ulp x := by
  unfold ulp
  push_cast
  rw [← zpow_natCast, ← zpow_add₀ (by norm_num : (2 : ℚ) ≠ 0)]
  congr 1
  rw [Int.toNat_of_nonneg (by omega)]
  ring

/-- Rounding to `double` is monotone on the non-negative rationals. -/
theorem roundToDouble_mono (x y : ℚ) (hx : 0 ≤ x) (hxy : x ≤ y) :
    roundToDouble x ≤ roundToDouble y := by
  rcases eq_or_lt_of_le hx with h0 | hpos
  · rw [← h0, roundToDouble_zero]
    exact roundToDouble_nonneg y (le_trans hx hxy)
  · have hy : 0 < y := lt_of_lt_of_le hpos hxy
    rcases lt_or_eq_of_le (binade_mono x y hpos hxy) with hlt | heq
    · have hby : binade y = ilog2 y := by
        unfold binade
        apply max_eq_left
        have := binade_ge x
        unfold binade at hlt
        rcases max_choice (ilog2 y) (-1022) with hm | hm
        · rw [hm] at hlt; omega
        · rw [hm] at hlt; omega
      have hylow : (2 : ℚ) ^ binade y ≤ y := by
        have := (ilog2_spec y (ne_of_gt hy)).1
        rw [abs_of_pos hy] at this
        rw [hby]; exact this
      have hxup : x ≤ (2 : ℚ) ^ binade y :=
        le_trans (le_of_lt (lt_two_zpow_binade_succ x hpos))
          (zpow_le_zpow_right₀ (by norm_num) (by omega))
      have e1 := two_zpow_eq_mul_ulp x (binade y) (by omega)
      have e2 := two_zpow_eq_mul_ulp y (binade y) (by omega)
      have b1 := roundToDouble_le_of_le_mul x _ (e1 ▸ hxup)
      have b2 := le_roundToDouble_of_mul_le y _ (e2 ▸ hylow)
      rw [← e1] at b1
      rw [← e2] at b2
      exact le_trans b1 b2
    · unfold roundToDouble
      have hu : ulp x = ulp y := by unfold ulp; rw [heq]
      rw [hu]
      have hq : x / ulp y ≤ y / ulp y := div_le_div_of_nonneg_right hxy (le_of_lt (ulp_pos y))
      have := roundHalfEven_mono _ _ hq
      exact mul_le_mul_of_nonneg_right (by exact_mod_cast this) (le_of_lt (ulp_pos y))

/-! ### Rounding twice -/

theorem roundToDouble_eq_of_mul_ulp (x : ℚ) (j : ℤ) (h : x = j * ulp x) :
    roundToDouble x = x := by
  have h1 := roundToDouble_le_of_le_mul x j (le_of_eq h)
  have h2 := le_roundToDouble_of_mul_le x j (le_of_eq h.symm)
  rw [← h] at h1 h2
  exact le_antisymm h1 h2

theorem two_zpow_binade_succ (x : ℚ) :
    (2 : ℚ) ^ (binade x + 1) = ((2 ^ 53 : ℤ) : ℚ) * ulp x := by
  have e : ((2 ^ 53 : ℤ) : ℚ) = (2 : ℚ) ^ (53 : ℤ) := by norm_num
  unfold ulp
  rw [e, ← zpow_add₀ (by norm_num : (2 : ℚ) ≠ 0)]
  congr 1
  ring

theorem roundToDouble_eq_mul_ulp (x : ℚ) (hx : 0 < x) :
    ∃ k : ℤ, 0 ≤ k ∧ k ≤ 2 ^ 53 ∧ roundToDouble x = k * ulp x := by
  have hu := ulp_pos x
  refine ⟨roundHalfEven (x / ulp x), ?_, ?_, rfl⟩
  · exact le_roundHalfEven_of_le _ 0 (by simpa using div_nonneg (le_of_lt hx) (le_of_lt hu))
  · apply roundHalfEven_le_of_le
    rw [div_le_iff₀ hu, ← two_zpow_binade_succ]
    exact le_of_lt (lt_two_zpow_binade_succ x hx)

theorem isDouble_of_mul_ulp (x r : ℚ) (k : ℤ) (hk0 : 0 < k) (hk : k ≤ 2 ^ 53)
    (hr : r = k * ulp x) : roundToDouble r = r := by
  have h2 : (2 : ℚ) ≠ 0 := by norm_num
  have hu := ulp_pos x
  have hrpos : 0 < r := by
    rw [hr]; exact mul_pos (by exact_mod_cast hk0) hu
  have hrup : r ≤ (2 : ℚ) ^ (binade x + 1) := by
    rw [hr, two_zpow_binade_succ]
    exact mul_le_mul_of_nonneg_right (by exact_mod_cast hk) (le_of_lt hu)
  have hrlow := (ilog2_spec r (ne_of_gt hrpos)).1
  rw [abs_of_pos hrpos] at hrlow
  have hil : ilog2 r ≤ binade x + 1 :=
    (zpow_le_zpow_iff_right₀ (by norm_num : (1 : ℚ) < 2)).mp (le_trans hrlow hrup)
  have hgex := binade_ge x
  have hbr : binade r ≤ binade x + 1 := by
    unfold binade
    exact max_le hil (by omega)
  by_cases hcase : binade r ≤ binade x
  · apply roundToDouble_eq_of_mul_ulp r (k * 2 ^ (binade x - binade r).toNat)
    have e : ulp x = ((2 ^ (binade x - binade r).toNat : ℤ) : ℚ) * ulp r := by
      unfold ulp
      push_cast
      rw [← zpow_natCast, ← zpow_add₀ h2]
      congr 1
      rw [Int.toNat_of_nonneg (by omega)]
      ring
    calc r = k * ulp x := hr
      _ = k * (((2 ^ (binade x - binade r).toNat : ℤ) : ℚ) * ulp r) := by rw [← e]
      _ = ((k * 2 ^ (binade x - binade r).toNat : ℤ) : ℚ) * ulp r := by push_cast; ring
  · have hb : binade r = binade x + 1 := by omega
    have hi : ilog2 r = binade x + 1 := by
      have hb' := hb
      unfold binade at hb'
      rcases max_choice (ilog2 r) (-1022) with hm | hm
      · rw [hm] at hb'; exact hb'
      · rw [hm] at hb'
        have : binade x = max (ilog2 x) (-1022) := rfl
        omega
    rw [hi] at hrlow
    have heq : r = (2 : ℚ) ^ (binade x + 1) := le_antisymm hrup hrlow
    apply roundToDouble_eq_of_mul_ulp r (2 ^ 52)
    have e : ((2 ^ 52 : ℤ) : ℚ) = (2 : ℚ) ^ (52 : ℤ) := by norm_num
    have hur : ulp r = (2 : ℚ) ^ (binade x + 1 - 52) := by
      unfold ulp; rw [hb]
    rw [hur, e, ← zpow_add₀ h2]
    rw [heq]
    congr 1
    ring

/-- Rounding a non-negative rational to `double` gives a `double`: rounding the
result again changes nothing. -/
theorem roundToDouble_idem (x : ℚ) (hx : 0 ≤ x) :
    roundToDouble (roundToDouble x) = roundToDouble x := by
  rcases eq_or_lt_of_le hx with h0 | hpos
  · rw [← h0, roundToDouble_zero, roundToDouble_zero]
  obtain ⟨k, hk0, hk, hr⟩ := roundToDouble_eq_mul_ulp x hpos
  rcases eq_or_lt_of_le hk0 with hz | hkpos
  · rw [hr, ← hz]; simp [roundToDouble_zero]
  · exact isDouble_of_mul_ulp x _ k hkpos hk hr

/-- A `double` not above `y ≥ 0` is not above the `double` nearest to `y`, and
the `double` nearest to a value not above a `double` is not above it. -/
theorem roundToDouble_le_of_le_double (x y : ℚ) (hx : 0 ≤ x) (hxy : x ≤ y)
    (hy : roundToDouble y = y) : roundToDouble x ≤ y := by
  have := roundToDouble_mono x y hx hxy
  rw [hy] at this; exact this

theorem fmul_comm (a b : ℚ) : fmul a b = fmul b a := by
  unfold fmul
  rw [mul_comm]

theorem fmul_isDouble (a b : ℚ) (ha : 0 ≤ a) (hb : 0 ≤ b) :
    roundToDouble (fmul a b) = fmul a b :=
  roundToDouble_idem (a * b) (mul_nonneg ha hb)

theorem fmul_le_left (a b : ℚ) (ha : 0 ≤ a) (had : roundToDouble a = a) (hb0 : 0 ≤ b)
    (hb1 : b ≤ 1) : fmul a b ≤ a :=
  roundToDouble_le_of_le_double (a * b) a (mul_nonneg ha hb0)
    (by simpa using mul_le_mul_of_nonneg_left hb1 ha) had

theorem fmul_mono (a a' b b' : ℚ) (ha : 0 ≤ a') (hb : 0 ≤ b') (haa : a' ≤ a) (hbb : b' ≤ b) :
    fmul a' b' ≤ fmul a b :=
  roundToDouble_mono (a' * b') (a * b) (mul_nonneg ha hb)
    (mul_le_mul haa hbb hb (le_trans ha haa))

theorem ofUInt64_nonneg (n : Nat) : 0 ≤ ofUInt64 n :=
  roundToDouble_nonneg _ (Nat.cast_nonneg n)

theorem ofUInt64_isDouble (total : Nat) : roundToDouble (ofUInt64 total) = ofUInt64 total :=
  roundToDouble_idem _ (Nat.cast_nonneg total)

theorem ofUInt64_le_top (total : Nat) (ht : total < 2 ^ 64 - 2 ^ 10) :
    ofUInt64 total ≤ ((2 ^ 64 - 2 ^ 11 : ℕ) : ℚ) := by
  have e : roundToDouble (((2 ^ 64 - 2 ^ 10 - 1 : ℕ) : ℚ)) = ((2 ^ 64 - 2 ^ 11 : ℕ) : ℚ) := by
    decide!
  have hle : (total : ℚ) ≤ ((2 ^ 64 - 2 ^ 10 - 1 : ℕ) : ℚ) := by
    have : total ≤ 2 ^ 64 - 2 ^ 10 - 1 := by omega
    exact_mod_cast this
  have := roundToDouble_mono (total : ℚ) _ (Nat.cast_nonneg total) hle
  rw [e] at this
  exact this

/-- With a density in `[0,1]` the random count of every total below
`2^64 - 2^10` is defined: the conversion of the total to `double` stays below
`2^64`, and so does the ceiling of the product. -/
theorem randomCount_defined (d : ℚ) (total : Nat) (hd0 : 0 ≤ d) (hd1 : d ≤ 1)
    (ht : total < 2 ^ 64 - 2 ^ 10) : ∃ r, randomCount d total = .ok r := by
  have hx := ofUInt64_nonneg total
  have hle : fmul d (ofUInt64 total) ≤ ofUInt64 total := by
    rw [fmul_comm]
    exact fmul_le_left _ _ hx (ofUInt64_isDouble total) hd0 hd1
  have h0 : 0 ≤ fmul d (ofUInt64 total) := fmul_nonneg _ _ hd0 hx
  have hc0 : 0 ≤ ceil (fmul d (ofUInt64 total)) := Int.ceil_nonneg h0
  have hc1 : ceil (fmul d (ofUInt64 total)) ≤ ((2 ^ 64 - 2 ^ 11 : ℕ) : ℤ) := by
    unfold ceil
    rw [Int.ceil_le]
    have := le_trans hle (ofUInt64_le_top total ht)
    exact_mod_cast this
  obtain ⟨n, hn⟩ := Int.eq_ofNat_of_zero_le hc0
  refine ⟨n, ?_⟩
  unfold randomCount
  rw [hn]
  apply toUInt64_natCast
  have : (n : ℤ) ≤ ((2 ^ 64 - 2 ^ 11 : ℕ) : ℤ) := by rw [← hn]; exact hc1
  have h2 : n ≤ 2 ^ 64 - 2 ^ 11 := by exact_mod_cast this
  omega

theorem randomCount_mono (d d' : ℚ) (total r : Nat) (hd0 : 0 ≤ d') (hdd : d' ≤ d)
    (h : randomCount d total = .ok r) : ∃ r', randomCount d' total = .ok r' ∧ r' ≤ r := by
  obtain ⟨hr, hlt⟩ := randomCount_ok d total r h
  have hx := ofUInt64_nonneg total
  have hm : fmul d' (ofUInt64 total) ≤ fmul d (ofUInt64 total) :=
    fmul_mono _ _ _ _ hd0 hx hdd le_rfl
  have h0 : 0 ≤ fmul d' (ofUInt64 total) := fmul_nonneg _ _ hd0 hx
  have hc : ceil (fmul d' (ofUInt64 total)) ≤ ceil (fmul d (ofUInt64 total)) :=
    Int.ceil_le_ceil hm
  have hc0 : 0 ≤ ceil (fmul d' (ofUInt64 total)) := Int.ceil_nonneg h0
  obtain ⟨n, hn⟩ := Int.eq_ofNat_of_zero_le hc0
  have hnr : n ≤ r := by
    have : (n : ℤ) ≤ (r : ℤ) := by rw [← hn, hr]; exact hc
    exact_mod_cast this
  refine ⟨n, ?_, hnr⟩
  unfold randomCount
  rw [hn]
  exact toUInt64_natCast n (lt_of_le_of_lt hnr hlt)

theorem eq_ok_of_toOption {ε α : Type} (result : Except ε α) (a : α)
    (h : result.toOption = some a) : result = .ok a := by
  cases result with
  | ok b => simp only [Except.toOption, Option.some.injEq] at h; rw [h]
  | error e => simp [Except.toOption] at h

/-! ### Densities in the unit interval, no wrap-around (C11) -/

/-- Below `2^31` the initialiser of `random_compute` (line 197) is the one of the
storage counts. -/
theorem compute_random_eq (ci : ComputeInfo) (d : ℚ)
    (hsmall : ci.replication_factor * ci.accesses < 2 ^ 31) :
    toUInt64 (ceil (fmul (ofInt (totalAccesses ci)) d)) =
      randomCount d (ci.replication_factor * ci.accesses) := by
  have h53 : ci.replication_factor * ci.accesses ≤ 2 ^ 53 :=
    le_of_lt (lt_trans hsmall (by norm_num))
  unfold randomCount
  rw [totalAccesses_small ci hsmall, ofInt_natCast _ h53, ofUInt64_exact _ h53, fmul_comm]

theorem randomCount_zero_total (d : ℚ) : randomCount d 0 = .ok 0 := by
  unfold randomCount ofUInt64
  rw [Nat.cast_zero, roundToDouble_zero, fmul_zero_right]
  unfold ceil
  rw [Int.ceil_zero]
  exact toUInt64_natCast 0 (by norm_num)

theorem randomCount_zero_total_eq (d : ℚ) (n : Nat) (h : randomCount d 0 = .ok n) :
    n = 0 ∧ subUInt64 0 n = 0 := by
  rw [randomCount_zero_total d] at h
  simp only [Except.ok.injEq] at h
  subst h
  exact ⟨rfl, subUInt64_self 0⟩

/-- C13: a base action whose total is 0 gets a random count of 0 and a gated
count of 0, whatever density is resolved.  After a successful
`ComputeFineGrainDataMovementAccesses`, `reads = 0` gives
`random_read = gated_read = metadata_read = gated_metadata_read = 0`,
`fills = 0` gives
`random_fill = gated_fill = metadata_fill = gated_metadata_fill = 0` and
`updates = 0` gives `random_update = gated_update = 0`; after a successful
`ComputeFineGrainComputeAccesses`, `accesses = 0` gives
`random_compute = gated_compute = 0`. -/
theorem zero_total (shape : Shape) (m m' : CompoundDataMovementInfo)
    (g : PerStorageLevelActionGatingInfo)
    (h : ComputeFineGrainDataMovementAccesses shape m g = .ok m')
    (pv : Nat) (hpv : pv < shape.NumDataSpaces) :
    (∃ r r', m[pv]? = some r ∧ m'[pv]? = some r' ∧
      (r.reads = 0 →
        r'.fine_grained_accesses "random_read" = some 0 ∧
        r'.fine_grained_accesses "gated_read" = some 0 ∧
        r'.fine_grained_accesses "metadata_read" = some 0 ∧
        r'.fine_grained_accesses "gated_metadata_read" = some 0) ∧
      (r.fills = 0 →
        r'.fine_grained_accesses "random_fill" = some 0 ∧
        r'.fine_grained_accesses "gated_fill" = some 0 ∧
        r'.fine_grained_accesses "metadata_fill" = some 0 ∧
        r'.fine_grained_accesses "gated_metadata_fill" = some 0) ∧
      (r.updates = 0 →
        r'.fine_grained_accesses "random_update" = some 0 ∧
        r'.fine_grained_accesses "gated_update" = some 0)) ∧
    (∀ (ci ci' : ComputeInfo) (cg : ComputeActionGatingInfo),
      ComputeFineGrainComputeAccesses shape ci m cg = .ok ci' → ci.accesses = 0 →
      ci'.fine_grained_accesses "random_compute" = some 0 ∧
      ci'.fine_grained_accesses "gated_compute" = some 0) := by
  constructor
  · obtain ⟨_, _, _, hs⟩ := dataMovement_spec shape m m' g h
    obtain ⟨d, dm, r, rr, rf, mr, mf, _, _, hr, hrr, hrf, hmr, hmf, hm'⟩ := hs pv hpv
    obtain ⟨e1, e2, e3, e4, e5, e6, e7, e8, e9, e10⟩ :=
      entries_eval r.fine_grained_accesses r.reads rr r.fills rf r.updates mr mf
    refine ⟨r, _, hr, hm', ?_, ?_, ?_⟩
    · intro h0
      obtain ⟨a1, _⟩ := randomCount_zero_total_eq d.1 rr (h0 ▸ hrr)
      obtain ⟨b1, _⟩ := randomCount_zero_total_eq dm.1 mr (h0 ▸ hmr)
      subst a1; subst b1
      have hz : subUInt64 r.reads 0 = 0 := by rw [h0]; rfl
      rw [hz] at e2 e8
      exact ⟨e1, e2, e7, e8⟩
    · intro h0
      obtain ⟨a1, _⟩ := randomCount_zero_total_eq d.2 rf (h0 ▸ hrf)
      obtain ⟨b1, _⟩ := randomCount_zero_total_eq dm.2 mf (h0 ▸ hmf)
      subst a1; subst b1
      have hz : subUInt64 r.fills 0 = 0 := by rw [h0]; rfl
      rw [hz] at e4 e10
      exact ⟨e3, e4, e9, e10⟩
    · intro h0
      have e5' := e5
      rw [show some r.updates = some 0 by rw [h0]] at e5'
      exact ⟨e5', e6⟩
  · intro ci ci' cg hci h0
    obtain ⟨d, rc, _, hrc, hci'⟩ :=
      (ComputeFineGrainComputeAccesses_ok_iff shape ci ci' m cg).mp hci
    have hprod : ci.replication_factor * ci.accesses = 0 := by rw [h0, Nat.mul_zero]
    have hsmall : ci.replication_factor * ci.accesses < 2 ^ 31 := by rw [hprod]; norm_num
    rw [compute_random_eq ci d hsmall, hprod] at hrc
    obtain ⟨a1, _⟩ := randomCount_zero_total_eq _ _ hrc
    have hv : subUInt64 (intToUInt64 (totalAccesses ci)) rc = 0 := by
      rw [totalAccesses_small ci hsmall, hprod, a1]
      rfl
    rw [hci', hv, a1]
    exact compute_entries ci.fine_grained_accesses 0 0

/-- Witness of `zero_total`: Weights are idle, so all ten of their counts are
0 although every action is gated by two data spaces; a compute record with
`accesses = 0` and `replication_factor = 7` gets two zero counts. -/
theorem zero_total_witness :
    ∃ m', ComputeFineGrainDataMovementAccesses threeSpaces idleMovement denseGating = .ok m' ∧
      (∃ r', m'[0]? = some r' ∧
        r'.fine_grained_accesses "random_read" = some 0 ∧
        r'.fine_grained_accesses "gated_read" = some 0 ∧
        r'.fine_grained_accesses "metadata_read" = some 0 ∧
        r'.fine_grained_accesses "gated_metadata_read" = some 0 ∧
        r'.fine_grained_accesses "random_fill" = some 0 ∧
        r'.fine_grained_accesses "gated_fill" = some 0 ∧
        r'.fine_grained_accesses "metadata_fill" = some 0 ∧
        r'.fine_grained_accesses "gated_metadata_fill" = some 0 ∧
        r'.fine_grained_accesses "random_update" = some 0 ∧
        r'.fine_grained_accesses "gated_update" = some 0) ∧
      (∃ ci', ComputeFineGrainComputeAccesses threeSpaces (computeRecord 7 0) idleMovement
          inputsComputeGating = .ok ci' ∧
        ci'.fine_grained_accesses "random_compute" = some 0 ∧
        ci'.fine_grained_accesses "gated_compute" = some 0) := by
  obtain ⟨m', hm'⟩ := exists_ok_of_succeeds
    (ComputeFineGrainDataMovementAccesses threeSpaces idleMovement denseGating) (by decide!)
  obtain ⟨ci', hci'⟩ := exists_ok_of_succeeds
    (ComputeFineGrainComputeAccesses threeSpaces (computeRecord 7 0) idleMovement
      inputsComputeGating) (by decide!)
  obtain ⟨⟨r, r', a1, a2, a3, a4, a5⟩, hc⟩ :=
    zero_total threeSpaces idleMovement m' denseGating hm' 0 (by decide)
  have e0 : idleMovement[0]? = some (movement 0 0 0 (1 / 2)) := rfl
  rw [e0] at a1
  simp only [Option.some.injEq] at a1
  subst a1
  obtain ⟨b1, b2, b3, b4⟩ := a3 rfl
  obtain ⟨c1, c2, c3, c4⟩ := a4 rfl
  obtain ⟨d1, d2⟩ := a5 rfl
  exact ⟨m', hm', ⟨r', a2, b1, b2, b3, b4, c1, c2, c3, c4, d1, d2⟩,
    ⟨ci', hci', hc _ ci' _ hci' rfl⟩⟩

/-! ### Operation-type counts (C14), empty gating list (C15) -/

/-- C14: `GetNumOpTypes(component_type)` returns the number of entries of the
matching table when `component_type` is `arithmetic`, `storage` or `network`;
for every other string it returns no number: the assertion fails, or, with
assertions compiled out, the behaviour is undefined.  It returns a count
exactly for the three categories.  `GetNumOpTypes()` is 1. -/
theorem GetNumOpTypes_recognized (ndebug : Bool) (tables : OperationTypeTables)
    (component_type : String) :
    (component_type = "arithmetic" →
      GetNumOpTypes ndebug tables component_type = .ok tables.arithmeticOperationTypes.length) ∧
    (component_type = "storage" →
      GetNumOpTypes ndebug tables component_type = .ok tables.storageOperationTypes.length) ∧
    (component_type = "network" →
      GetNumOpTypes ndebug tables component_type = .ok tables.networkOperationTypes.length) ∧
    (component_type ≠ "arithmetic" → component_type ≠ "storage" →
      component_type ≠ "network" →
      GetNumOpTypes ndebug tables component_type =
        .error (if ndebug then .undefined else .assertion_failed)) ∧
    ((∃ n, GetNumOpTypes ndebug tables component_type = .ok n) ↔
      (component_type = "arithmetic" ∨ component_type = "storage" ∨
        component_type = "network")) ∧
    GetNumOpTypesDefault = 1 := by
  have hother : component_type ≠ "arithmetic" → component_type ≠ "storage" →
      component_type ≠ "network" →
      GetNumOpTypes ndebug tables component_type =
        .error (if ndebug then .undefined else .assertion_failed) := by
    intro h1 h2 h3
    unfold GetNumOpTypes
    rw [if_neg h1, if_neg h2, if_neg h3]
    cases ndebug <;> rfl
  have ha : component_type = "arithmetic" →
      GetNumOpTypes ndebug tables component_type =
        .ok tables.arithmeticOperationTypes.length := by
    intro h; subst h; rfl
  have hs : component_type = "storage" →
      GetNumOpTypes ndebug tables component_type = .ok tables.storageOperationTypes.length := by
    intro h; subst h; rfl
  have hn : component_type = "network" →
      GetNumOpTypes ndebug tables component_type = .ok tables.networkOperationTypes.length := by
    intro h; subst h; rfl
  refine ⟨ha, hs, hn, hother, ⟨?_, ?_⟩, rfl⟩
  · rintro ⟨n, hok⟩
    by_contra hnot
    push_neg at hnot
    rw [hother hnot.1 hnot.2.1 hnot.2.2] at hok
    exact absurd hok (by simp)
  · rintro (h | h | h)
    · exact ⟨_, ha h⟩
    · exact ⟨_, hs h⟩
    · exact ⟨_, hn h⟩

/-- Witness of `GetNumOpTypes_recognized`: the storage table has six entries,
and `compute` is not a category. -/
theorem GetNumOpTypes_recognized_witness :
    GetNumOpTypes false sampleTables "storage" = .ok 6 ∧
    GetNumOpTypes false sampleTables "compute" = .error .assertion_failed ∧
    GetNumOpTypes true sampleTables "compute" = .error .undefined := by
  refine ⟨(GetNumOpTypes_recognized false sampleTables "storage").2.1 rfl,
    (GetNumOpTypes_recognized false sampleTables "compute").2.2.2.1 (by decide) (by decide)
      (by decide),
    (GetNumOpTypes_recognized true sampleTables "compute").2.2.2.1 (by decide) (by decide)
      (by decide)⟩

/-- C15 (the code at the failing input): the action `read` of Weights is
present with an empty list of names.  Line 67 reads element 0 of the empty
vector before the loop, which is undefined: the call returns no density, and
the accounting that resolves it stops before writing any count. -/
theorem empty_list_reads_element_zero :
    (emptyListGating "Weights").isSome = true ∧
    readGate [] "read" = some [] ∧
    GetDensityByGatedActionNames oneSpace (readGate []) "read" [movement 1 1 1 1]
      = .error .undefined ∧
    (GetDensityByGatedActionNames oneSpace (readGate []) "read" [movement 1 1 1 1]).toOption
      ≠ some 1 ∧
    failureOf (ComputeFineGrainDataMovementAccesses oneSpace [movement 1 1 1 1]
      emptyListGating) = some .undefined := by
  refine ⟨rfl, rfl, rfl, by decide, rfl⟩

/-! ### Storage pass drives the metadata pass (C16) -/

theorem dataEntries_isSome (f : FineGrainedAccesses) (reads rr fills rf updates : Nat)
    (k : String) (hk : k ∈ dataKeys) :
    ∃ v, dataEntries f reads rr fills rf updates k = some v := by
  simp only [dataKeys, List.mem_cons, List.mem_singleton, List.not_mem_nil, or_false] at hk
  rcases hk with h | h | h | h | h | h <;> subst h <;> simp [dataEntries, assign]

theorem dataEntries_frame (f : FineGrainedAccesses) (reads rr fills rf updates : Nat)
    (k : String) (hk : k ∉ dataKeys) : dataEntries f reads rr fills rf updates k = f k := by
  simp only [dataKeys, List.mem_cons, List.mem_singleton, List.not_mem_nil, or_false,
    not_or] at hk
  obtain ⟨h1, h2, h3, h4, h5, h6⟩ := hk
  simp [dataEntries, assign, h1, h2, h3, h4, h5, h6]

theorem metaDataEntries_isSome (f : FineGrainedAccesses) (reads mr fills mf : Nat)
    (k : String) (hk : k ∈ metaDataKeys) :
    ∃ v, metaDataEntries f reads mr fills mf k = some v := by
  simp only [metaDataKeys, List.mem_cons, List.mem_singleton, List.not_mem_nil, or_false] at hk
  rcases hk with h | h | h | h <;> subst h <;> simp [metaDataEntries, assign]

theorem metaDataEntries_frame (f : FineGrainedAccesses) (reads mr fills mf : Nat)
    (k : String) (hk : k ∉ metaDataKeys) : metaDataEntries f reads mr fills mf k = f k := by
  simp only [metaDataKeys, List.mem_cons, List.mem_singleton, List.not_mem_nil, or_false,
    not_or] at hk
  obtain ⟨h1, h2, h3, h4⟩ := hk
  simp [metaDataEntries, assign, h1, h2, h3, h4]

theorem metaDataEntries_congr (f f' : FineGrainedAccesses) (reads mr fills mf : Nat)
    (k : String) (hk : k ∈ metaDataKeys) :
    metaDataEntries f reads mr fills mf k = metaDataEntries f' reads mr fills mf k := by
  simp only [metaDataKeys, List.mem_cons, List.mem_singleton, List.not_mem_nil, or_false] at hk
  rcases hk with h | h | h | h <;> subst h <;> simp [metaDataEntries, assign]

theorem dataKeys_not_metaData (k : String) (hk : k ∈ dataKeys) : k ∉ metaDataKeys := by
  simp only [dataKeys, List.mem_cons, List.mem_singleton, List.not_mem_nil, or_false] at hk
  rcases hk with h | h | h | h | h | h <;> subst h <;> decide

theorem entries_frame (f : FineGrainedAccesses) (reads rr fills rf updates mr mf : Nat)
    (k : String) (hd : k ∉ dataKeys) (hm : k ∉ metaDataKeys) :
    metaDataEntries (dataEntries f reads rr fills rf updates) reads mr fills mf k = f k := by
  rw [metaDataEntries_frame _ _ _ _ _ k hm, dataEntries_frame _ _ _ _ _ _ k hd]

theorem entries_isSome (f : FineGrainedAccesses) (reads rr fills rf updates mr mf : Nat)
    (k : String) (hk : k ∈ dataKeys ∨ k ∈ metaDataKeys) :
    ∃ v, metaDataEntries (dataEntries f reads rr fills rf updates) reads mr fills mf k
      = some v := by
  rcases hk with hd | hm
  · rw [metaDataEntries_frame _ _ _ _ _ k (dataKeys_not_metaData k hd)]
    exact dataEntries_isSome f reads rr fills rf updates k hd
  · exact metaDataEntries_isSome _ _ _ _ _ k hm

/-- C16: the storage accounting is its own loop followed by one call of the
metadata accounting on the same collection and gating specification.  The
four metadata entries of every data space after
`ComputeFineGrainDataMovementAccesses` equal those after
`ComputeFineGrainMetaDataAccesses` alone, and the metadata pass leaves every
entry the storage loop wrote, the six data entries in particular,
unchanged. -/
theorem storage_drives_metadata (shape : Shape) (m m₁ m₂ : CompoundDataMovementInfo)
    (g : PerStorageLevelActionGatingInfo)
    (h₁ : ComputeFineGrainDataMovementAccesses shape m g = .ok m₁)
    (h₂ : ComputeFineGrainMetaDataAccesses shape m g = .ok m₂)
    (pv : Nat) (hpv : pv < shape.NumDataSpaces) :
    ∃ t r₁ r₂ rt,
      forLoop (accountingBody shape g "read" "write" dataMovementRecord)
        shape.NumDataSpaces m = .ok t ∧
      ComputeFineGrainMetaDataAccesses shape t g = .ok m₁ ∧
      t[pv]? = some rt ∧ m₁[pv]? = some r₁ ∧ m₂[pv]? = some r₂ ∧
      (∀ k ∈ metaDataKeys, ∃ v, r₁.fine_grained_accesses k = some v ∧
        r₂.fine_grained_accesses k = some v) ∧
      (∀ k ∈ dataKeys, ∃ v, rt.fine_grained_accesses k = some v ∧
        r₁.fine_grained_accesses k = some v) ∧
      (∀ k, k ∉ metaDataKeys → r₁.fine_grained_accesses k = rt.fine_grained_accesses k) := by
  obtain ⟨t, ht, htm⟩ := dataMovement_ok shape m m₁ g h₁
  obtain ⟨_, hdt, _, hst⟩ :=
    forLoop_accounting shape g "read" "write" dataMovementRecord dataMovementRecord_keeps
      shape.NumDataSpaces m t ht
  obtain ⟨_, _, _, hs1⟩ := metaData_spec shape t m₁ g htm
  obtain ⟨_, _, _, hs2⟩ := metaData_spec shape m m₂ g h₂
  obtain ⟨d, r, rt, hg, hr, ha, hrt⟩ := hst pv hpv
  obtain ⟨rr, rf, hrr, hrf, ert⟩ := (dataMovementRecord_ok_iff _ _ _ _).mp ha
  obtain ⟨dm1, rt', mr1, mf1, hg1, hrt', hmr1, hmf1, hm₁⟩ := hs1 pv hpv
  obtain ⟨dm2, r', mr2, mf2, hg2, hr', hmr2, hmf2, hm₂⟩ := hs2 pv hpv
  rw [hrt] at hrt'
  simp only [Option.some.injEq] at hrt'
  subst hrt'
  rw [hr] at hr'
  simp only [Option.some.injEq] at hr'
  subst hr'
  rw [gatingDensities_congr shape g _ _ pv t m hdt, hg2] at hg1
  simp only [Except.ok.injEq] at hg1
  subst hg1
  have hreads : rt.reads = r.reads := by rw [ert]; rfl
  have hfills : rt.fills = r.fills := by rw [ert]; rfl
  rw [hreads] at hmr1 hm₁
  rw [hfills] at hmf1 hm₁
  rw [hmr2] at hmr1
  rw [hmf2] at hmf1
  simp only [Except.ok.injEq] at hmr1 hmf1
  subst hmr1; subst hmf1
  refine ⟨t, _, _, rt, ht, htm, hrt, hm₁, hm₂, ?_, ?_, ?_⟩
  · intro k hk
    obtain ⟨v, hv⟩ := metaDataEntries_isSome r.fine_grained_accesses r.reads mr2 r.fills mf2 k hk
    refine ⟨v, ?_, hv⟩
    show metaDataEntries rt.fine_grained_accesses r.reads mr2 r.fills mf2 k = some v
    rw [metaDataEntries_congr rt.fine_grained_accesses r.fine_grained_accesses _ _ _ _ k hk]
    exact hv
  · intro k hk
    have hv : ∃ v, rt.fine_grained_accesses k = some v := by
      rw [ert]
      exact dataEntries_isSome r.fine_grained_accesses r.reads rr r.fills rf r.updates k hk
    obtain ⟨v, hv⟩ := hv
    refine ⟨v, hv, ?_⟩
    show metaDataEntries rt.fine_grained_accesses r.reads mr2 r.fills mf2 k = some v
    rw [metaDataEntries_frame _ _ _ _ _ k (dataKeys_not_metaData k hk)]
    exact hv
  · intro k hk
    exact metaDataEntries_frame _ _ _ _ _ k hk

/-- Witness of `storage_drives_metadata` on records that already hold entries. -/
theorem storage_drives_metadata_witness :
    ∃ m₁ m₂ r₁ r₂,
      ComputeFineGrainDataMovementAccesses threeSpaces usedMovement sampleGating = .ok m₁ ∧
      ComputeFineGrainMetaDataAccesses threeSpaces usedMovement sampleGating = .ok m₂ ∧
      m₁[0]? = some r₁ ∧ m₂[0]? = some r₂ ∧
      (∀ k ∈ metaDataKeys, ∃ v, r₁.fine_grained_accesses k = some v ∧
        r₂.fine_grained_accesses k = some v) := by
  obtain ⟨m₁, h₁⟩ := exists_ok_of_succeeds
    (ComputeFineGrainDataMovementAccesses threeSpaces usedMovement sampleGating) (by decide!)
  obtain ⟨m₂, h₂⟩ := exists_ok_of_succeeds
    (ComputeFineGrainMetaDataAccesses threeSpaces usedMovement sampleGating) (by decide!)
  obtain ⟨_, r₁, r₂, _, _, _, _, a1, a2, a3, _⟩ :=
    storage_drives_metadata threeSpaces usedMovement m₁ m₂ sampleGating h₁ h₂ 0 (by decide)
  exact ⟨m₁, m₂, r₁, r₂, h₁, h₂, a1, a2, a3⟩

/-! ### Own gating entry only (C17) -/

theorem dataEntries_congr (f f' : FineGrainedAccesses) (reads rr fills rf updates : Nat)
    (k : String) (hk : k ∈ dataKeys) :
    dataEntries f reads rr fills rf updates k = dataEntries f' reads rr fills rf updates k := by
  simp only [dataKeys, List.mem_cons, List.mem_singleton, List.not_mem_nil, or_false] at hk
  rcases hk with h | h | h | h | h | h <;> subst h <;> simp [dataEntries, assign]

theorem entries_congr (f f' : FineGrainedAccesses) (reads rr fills rf updates mr mf : Nat)
    (k : String) (hk : k ∈ dataKeys ∨ k ∈ metaDataKeys) :
    metaDataEntries (dataEntries f reads rr fills rf updates) reads mr fills mf k =
      metaDataEntries (dataEntries f' reads rr fills rf updates) reads mr fills mf k := by
  rcases hk with hd | hm
  · rw [metaDataEntries_frame _ _ _ _ _ k (dataKeys_not_metaData k hd),
      metaDataEntries_frame _ _ _ _ _ k (dataKeys_not_metaData k hd)]
    exact dataEntries_congr f f' reads rr fills rf updates k hd
  · exact metaDataEntries_congr _ _ _ _ _ _ k hm

theorem gatedDensityLoop_local (shape : Shape) (m₁ m₂ : CompoundDataMovementInfo)
    (names : List String) (density : ℚ)
    (h : ∀ n ∈ names, ∀ id, shape.DataSpaceNameToID n = some id →
      (m₁[id]?).map (·.tile_density) = (m₂[id]?).map (·.tile_density)) :
    gatedDensityLoop shape m₁ names density = gatedDensityLoop shape m₂ names density := by
  induction names generalizing density with
  | nil => rfl
  | cons name rest ih =>
    unfold gatedDensityLoop
    cases hid : shape.DataSpaceNameToID name with
    | none => rfl
    | some id =>
      have hd := h name (List.mem_cons_self _ _) id hid
      have ih' := fun d => ih d (fun n hn => h n (List.mem_cons_of_mem _ hn))
      dsimp only
      cases h1 : m₁[id]? with
      | none =>
        cases h2 : m₂[id]? with
        | none => rfl
        | some r2 => rw [h1, h2] at hd; simp at hd
      | some r1 =>
        cases h2 : m₂[id]? with
        | none => rw [h1, h2] at hd; simp at hd
        | some r2 =>
          rw [h1, h2] at hd
          simp only [Option.map_some', Option.some.injEq] at hd
          simp only [hd]
          exact ih' _

theorem GetDensityByGatedActionNames_local (shape : Shape) (m₁ m₂ : CompoundDataMovementInfo)
    (info : PerDataSpaceActionGatingInfo) (action : String)
    (h : ∀ names, info action = some names → ∀ n ∈ names, ∀ id,
      shape.DataSpaceNameToID n = some id →
      (m₁[id]?).map (·.tile_density) = (m₂[id]?).map (·.tile_density)) :
    GetDensityByGatedActionNames shape info action m₁ =
      GetDensityByGatedActionNames shape info action m₂ := by
  unfold GetDensityByGatedActionNames
  cases ha : info action with
  | none => rfl
  | some names =>
    cases names with
    | nil => rfl
    | cons first rest =>
      dsimp only
      rw [gatedDensityLoop_local shape m₁ m₂ (first :: rest) 1 (h _ ha)]

theorem gatingDensities_local (shape : Shape) (g₁ g₂ : PerStorageLevelActionGatingInfo)
    (a₁ a₂ : String) (pv : Nat) (m₁ m₂ : CompoundDataMovementInfo) (name : String)
    (hname : shape.DataSpaceIDToName pv = some name) (hg : g₁ name = g₂ name)
    (h : ∀ info action names, g₁ name = some info → (action = a₁ ∨ action = a₂) →
      info action = some names → ∀ n ∈ names, ∀ id, shape.DataSpaceNameToID n = some id →
      (m₁[id]?).map (·.tile_density) = (m₂[id]?).map (·.tile_density)) :
    gatingDensities shape g₁ a₁ a₂ pv m₁ = gatingDensities shape g₂ a₁ a₂ pv m₂ := by
  unfold gatingDensities
  rw [hname]
  dsimp only
  rw [← hg]
  cases hi : g₁ name with
  | none => rfl
  | some info =>
    dsimp only
    rw [GetDensityByGatedActionNames_local shape m₁ m₂ info a₁
        (fun names hn => h info a₁ names hi (Or.inl rfl) hn),
      GetDensityByGatedActionNames_local shape m₁ m₂ info a₂
        (fun names hn => h info a₂ names hi (Or.inr rfl) hn)]

/-- C17: the ten counts `ComputeFineGrainDataMovementAccesses` writes for a
data space `pv` depend only on its `reads`, `fills` and `updates`, on the
gating entry stored under its own name and on the average densities of the
data spaces that entry names.  Two successful runs that agree on these write
the same ten counts for `pv`, however the other gating entries, the other
totals, the other densities and the previous contents of the maps differ. -/
theorem own_entry_only (shape : Shape) (m₁ m₂ m₁' m₂' : CompoundDataMovementInfo)
    (g₁ g₂ : PerStorageLevelActionGatingInfo) (pv : Nat) (name : String)
    (r₁ r₂ : DataMovementInfo)
    (h₁ : ComputeFineGrainDataMovementAccesses shape m₁ g₁ = .ok m₁')
    (h₂ : ComputeFineGrainDataMovementAccesses shape m₂ g₂ = .ok m₂')
    (hpv : pv < shape.NumDataSpaces) (hname : shape.DataSpaceIDToName pv = some name)
    (hg : g₁ name = g₂ name)
    (hr₁ : m₁[pv]? = some r₁) (hr₂ : m₂[pv]? = some r₂)
    (hreads : r₁.reads = r₂.reads) (hfills : r₁.fills = r₂.fills)
    (hupdates : r₁.updates = r₂.updates)
    (hdens : ∀ info action names, g₁ name = some info → action ∈ gatedActions →
      info action = some names → ∀ n ∈ names, ∀ id, shape.DataSpaceNameToID n = some id →
      (m₁[id]?).map (·.tile_density) = (m₂[id]?).map (·.tile_density)) :
    ∃ r₁' r₂', m₁'[pv]? = some r₁' ∧ m₂'[pv]? = some r₂' ∧
      ∀ k, k ∈ dataKeys ∨ k ∈ metaDataKeys →
        ∃ v, r₁'.fine_grained_accesses k = some v ∧ r₂'.fine_grained_accesses k = some v := by
  obtain ⟨_, _, _, hs₁⟩ := dataMovement_spec shape m₁ m₁' g₁ h₁
  obtain ⟨_, _, _, hs₂⟩ := dataMovement_spec shape m₂ m₂' g₂ h₂
  obtain ⟨d, dm, r, rr, rf, mr, mf, hg1, hgm1, hr, hrr, hrf, hmr, hmf, hm₁'⟩ := hs₁ pv hpv
  obtain ⟨d', dm', r', rr', rf', mr', mf', hg2, hgm2, hr', hrr', hrf', hmr', hmf', hm₂'⟩ :=
    hs₂ pv hpv
  rw [hr₁] at hr
  rw [hr₂] at hr'
  simp only [Option.some.injEq] at hr hr'
  subst hr; subst hr'
  have e1 := gatingDensities_local shape g₁ g₂ "read" "write" pv m₁ m₂ name hname hg
    (fun info action names hi ha hn =>
      hdens info action names hi (by rcases ha with h | h <;> subst h <;> decide) hn)
  have e2 := gatingDensities_local shape g₁ g₂ "metadata_read" "metadata_write" pv m₁ m₂ name
    hname hg
    (fun info action names hi ha hn =>
      hdens info action names hi (by rcases ha with h | h <;> subst h <;> decide) hn)
  rw [e1, hg2] at hg1
  rw [e2, hgm2] at hgm1
  simp only [Except.ok.injEq] at hg1 hgm1
  subst hg1; subst hgm1
  rw [hreads, hrr'] at hrr
  rw [hfills, hrf'] at hrf
  rw [hreads, hmr'] at hmr
  rw [hfills, hmf'] at hmf
  simp only [Except.ok.injEq] at hrr hrf hmr hmf
  subst hrr; subst hrf; subst hmr; subst hmf
  refine ⟨_, _, hm₁', hm₂', ?_⟩
  intro k hk
  obtain ⟨v, hv⟩ := entries_isSome r₂.fine_grained_accesses r₂.reads rr' r₂.fills rf'
    r₂.updates mr' mf' k hk
  refine ⟨v, ?_, hv⟩
  show metaDataEntries (dataEntries r₁.fine_grained_accesses r₁.reads rr' r₁.fills rf'
    r₁.updates) r₁.reads mr' r₁.fills mf' k = some v
  rw [hreads, hfills, hupdates,
    entries_congr r₁.fine_grained_accesses r₂.fine_grained_accesses _ _ _ _ _ _ _ k hk]
  exact hv

/-- Witness of `own_entry_only`: Outputs in two runs that differ in the totals
of the other tensors, in the gating entry of Inputs and in the density of
Outputs itself. -/
theorem own_entry_only_witness :
    ∃ m₁' m₂' r₁' r₂',
      ComputeFineGrainDataMovementAccesses threeSpaces usedMovement sampleGating = .ok m₁' ∧
      ComputeFineGrainDataMovementAccesses threeSpaces otherMovement otherGating = .ok m₂' ∧
      m₁'[2]? = some r₁' ∧ m₂'[2]? = some r₂' ∧
      ∀ k, k ∈ dataKeys ∨ k ∈ metaDataKeys →
        ∃ v, r₁'.fine_grained_accesses k = some v ∧ r₂'.fine_grained_accesses k = some v := by
  have h₁ : succeeds (ComputeFineGrainDataMovementAccesses threeSpaces usedMovement
    sampleGating) = true := by decide!
  have h₂ : succeeds (ComputeFineGrainDataMovementAccesses threeSpaces otherMovement
    otherGating) = true := by decide!
  obtain ⟨m₁', e₁⟩ := exists_ok_of_succeeds _ h₁
  obtain ⟨m₂', e₂⟩ := exists_ok_of_succeeds _ h₂
  obtain ⟨r₁', r₂', a, b, c⟩ := own_entry_only threeSpaces usedMovement otherMovement m₁' m₂'
    sampleGating otherGating 2 "Outputs" (movement 10 7 5 1) (movement 10 7 5 (1 / 2)) e₁ e₂
    (by decide) rfl rfl rfl rfl rfl rfl rfl
    (by
      intro info action names hi _ hn n hmem id hid
      have hinfo : info = fun action =>
          if action = "read" then some ["Weights", "Inputs"]
          else if action = "write" then some ["Weights"] else none := by
        have e : sampleGating "Outputs" = some (fun action =>
            if action = "read" then some ["Weights", "Inputs"]
            else if action = "write" then some ["Weights"] else none) := rfl
        rw [e] at hi
        exact (Option.some.inj hi).symm
      subst hinfo
      have hn' : n = "Weights" ∨ n = "Inputs" := by
        dsimp only at hn
        split_ifs at hn
        · cases hn
          simpa using hmem
        · cases hn
          left
          simpa using hmem
      have hid' : id = 0 ∨ id = 1 := by
        rcases hn' with e | e
        · subst e
          left
          exact (Option.some.inj hid).symm
        · subst e
          right
          exact (Option.some.inj hid).symm
      rcases hid' with e | e
      · subst e
        rfl
      · subst e
        rfl)
  exact ⟨m₁', m₂', r₁', r₂', e₁, e₂, a, b, c⟩

/-! ### Frame of the accounting (C18) -/

/-- C18: a successful `ComputeFineGrainDataMovementAccesses` keeps the number
of records, leaves the records beyond the registered ids alone and, in the
record of every data space, keeps `reads`, `fills`, `updates` and the average
tile density; in its fine-grained map the ten keys of the storage and
metadata passes are set and every other key keeps its value.  A successful
`ComputeFineGrainComputeAccesses` keeps `replication_factor` and `accesses`,
sets `random_compute` and `gated_compute` and keeps every other key; it
returns no movement collection. -/
theorem accounting_frame (shape : Shape) (m m' : CompoundDataMovementInfo)
    (g : PerStorageLevelActionGatingInfo)
    (h : ComputeFineGrainDataMovementAccesses shape m g = .ok m') :
    m'.length = m.length ∧
    (∀ pv, shape.NumDataSpaces ≤ pv → m'[pv]? = m[pv]?) ∧
    (∀ pv, pv < shape.NumDataSpaces → ∃ r r', m[pv]? = some r ∧ m'[pv]? = some r' ∧
      r'.reads = r.reads ∧ r'.fills = r.fills ∧ r'.updates = r.updates ∧
      r'.tile_density = r.tile_density ∧
      (∀ k, k ∈ dataKeys ∨ k ∈ metaDataKeys → ∃ v, r'.fine_grained_accesses k = some v) ∧
      (∀ k, k ∉ dataKeys → k ∉ metaDataKeys →
        r'.fine_grained_accesses k = r.fine_grained_accesses k)) ∧
    (∀ (ci ci' : ComputeInfo) (cg : ComputeActionGatingInfo),
      ComputeFineGrainComputeAccesses shape ci m cg = .ok ci' →
      ci'.replication_factor = ci.replication_factor ∧ ci'.accesses = ci.accesses ∧
      (∃ v, ci'.fine_grained_accesses "random_compute" = some v) ∧
      (∃ v, ci'.fine_grained_accesses "gated_compute" = some v) ∧
      (∀ k, k ≠ "random_compute" → k ≠ "gated_compute" →
        ci'.fine_grained_accesses k = ci.fine_grained_accesses k)) := by
  obtain ⟨hlen, _, hrest, hs⟩ := dataMovement_spec shape m m' g h
  refine ⟨hlen, hrest, ?_, ?_⟩
  · intro pv hpv
    obtain ⟨d, dm, r, rr, rf, mr, mf, _, _, hr, _, _, _, _, hm'⟩ := hs pv hpv
    refine ⟨r, _, hr, hm', rfl, rfl, rfl, rfl, ?_, ?_⟩
    · intro k hk
      exact entries_isSome r.fine_grained_accesses r.reads rr r.fills rf r.updates mr mf k hk
    · intro k hd hm
      exact entries_frame r.fine_grained_accesses r.reads rr r.fills rf r.updates mr mf k hd hm
  · intro ci ci' cg hci
    obtain ⟨d, rc, _, _, hci'⟩ :=
      (ComputeFineGrainComputeAccesses_ok_iff shape ci ci' m cg).mp hci
    subst hci'
    refine ⟨rfl, rfl, ⟨rc, ?_⟩, ⟨subUInt64 (intToUInt64 (totalAccesses ci)) rc, ?_⟩, ?_⟩
    · exact (compute_entries ci.fine_grained_accesses rc
        (subUInt64 (intToUInt64 (totalAccesses ci)) rc)).1
    · exact (compute_entries ci.fine_grained_accesses rc
        (subUInt64 (intToUInt64 (totalAccesses ci)) rc)).2
    · intro k h1 h2
      show assign (assign ci.fine_grained_accesses "random_compute" rc) "gated_compute"
        (subUInt64 (intToUInt64 (totalAccesses ci)) rc) k = ci.fine_grained_accesses k
      rw [assign_other _ _ _ _ h2, assign_other _ _ _ _ h1]

/-- Witness of `accounting_frame`: the record of Weights held a stale entry
and an old `random_read`; the run keeps the former, overwrites the latter and
leaves the totals alone. -/
theorem accounting_frame_witness :
    ∃ m' r', ComputeFineGrainDataMovementAccesses threeSpaces usedMovement sampleGating
        = .ok m' ∧
      m'.length = 3 ∧ m'[0]? = some r' ∧ r'.reads = 100 ∧ r'.fills = 40 ∧ r'.updates = 0 ∧
      r'.tile_density = 1 / 2 ∧
      r'.fine_grained_accesses "stale" = some 1 ∧
      r'.fine_grained_accesses "random_read" = some 100 := by
  obtain ⟨m', hm'⟩ := exists_ok_of_succeeds
    (ComputeFineGrainDataMovementAccesses threeSpaces usedMovement sampleGating) (by decide!)
  obtain ⟨hlen, _, hs, _⟩ := accounting_frame threeSpaces usedMovement m' sampleGating hm'
  obtain ⟨r, r', a1, a2, a3, a4, a5, a6, _, a8⟩ := hs 0 (by decide)
  have e0 : usedMovement[0]? = some
      { movement 100 40 0 (1 / 2) with
        fine_grained_accesses := assign (assign emptyAccesses "random_read" 77) "stale" 1 } :=
    rfl
  rw [e0] at a1
  simp only [Option.some.injEq] at a1
  subst a1
  have f : countAfter (.ok m') 0 "random_read" = some 100 := by
    rw [← hm']; decide!
  simp only [countAfter, a2] at f
  refine ⟨m', r', hm', hlen, a2, a3, a4, a5, a6, ?_, f⟩
  rw [a8 "stale" (by decide) (by decide)]
  rfl

/-! ### Monotone gating (C19) -/

theorem gatedDensityLoop_append (shape : Shape) (m : CompoundDataMovementInfo)
    (names : List String) (name : String) (id : Nat) (record : DataMovementInfo) (d₀ d : ℚ)
    (hid : shape.DataSpaceNameToID name = some id) (hrec : m[id]? = some record)
    (h : gatedDensityLoop shape m names d₀ = .ok d) :
    gatedDensityLoop shape m (names ++ [name]) d₀ = .ok (fmul d record.tile_density) := by
  induction names generalizing d₀ with
  | nil =>
    unfold gatedDensityLoop at h
    simp only [Except.ok.injEq] at h
    subst h
    simp [gatedDensityLoop, hid, hrec]
  | cons first rest ih =>
    rw [List.cons_append]
    unfold gatedDensityLoop at h ⊢
    cases hf : shape.DataSpaceNameToID first with
    | none => rw [hf] at h; simp at h
    | some fid =>
      rw [hf] at h
      dsimp only at h ⊢
      cases hr : m[fid]? with
      | none => rw [hr] at h; simp at h
      | some fr =>
        rw [hr] at h
        dsimp only at h ⊢
        exact ih _ h

theorem gatedDensityLoop_isDouble (shape : Shape) (m : CompoundDataMovementInfo)
    (hden : ∀ r ∈ m, 0 ≤ r.tile_density) (names : List String) (d₀ d : ℚ)
    (h₀ : 0 ≤ d₀) (hd₀ : roundToDouble d₀ = d₀)
    (h : gatedDensityLoop shape m names d₀ = .ok d) : 0 ≤ d ∧ roundToDouble d = d := by
  induction names generalizing d₀ with
  | nil =>
    unfold gatedDensityLoop at h
    simp only [Except.ok.injEq] at h
    subst h
    exact ⟨h₀, hd₀⟩
  | cons first rest ih =>
    unfold gatedDensityLoop at h
    cases hf : shape.DataSpaceNameToID first with
    | none => rw [hf] at h; simp at h
    | some fid =>
      rw [hf] at h
      dsimp only at h
      cases hr : m[fid]? with
      | none => rw [hr] at h; simp at h
      | some fr =>
        rw [hr] at h
        dsimp only at h
        have hfr := hden fr (List.getElem?_mem hr)
        exact ih _ (fmul_nonneg _ _ h₀ hfr) (fmul_isDouble _ _ h₀ hfr) h

theorem gatedDensityLoop_mono (shape : Shape) (m m₂ : CompoundDataMovementInfo)
    (hlow : ∀ (i : Nat) (r : DataMovementInfo), m[i]? = some r →
      ∃ r₂ : DataMovementInfo, m₂[i]? = some r₂ ∧ 0 ≤ r₂.tile_density ∧
        r₂.tile_density ≤ r.tile_density)
    (names : List String) (d₀ d₀' d : ℚ) (h₀ : 0 ≤ d₀') (h₀' : d₀' ≤ d₀)
    (h : gatedDensityLoop shape m names d₀ = .ok d) :
    ∃ d₂, gatedDensityLoop shape m₂ names d₀' = .ok d₂ ∧ 0 ≤ d₂ ∧ d₂ ≤ d := by
  induction names generalizing d₀ d₀' with
  | nil =>
    unfold gatedDensityLoop at h
    simp only [Except.ok.injEq] at h
    subst h
    exact ⟨d₀', rfl, h₀, h₀'⟩
  | cons first rest ih =>
    unfold gatedDensityLoop at h ⊢
    cases hf : shape.DataSpaceNameToID first with
    | none => rw [hf] at h; simp at h
    | some fid =>
      rw [hf] at h
      dsimp only at h ⊢
      cases hr : m[fid]? with
      | none => rw [hr] at h; simp at h
      | some fr =>
        rw [hr] at h
        dsimp only at h
        obtain ⟨r₂, hr₂, h0, hle⟩ := hlow fid fr hr
        rw [hr₂]
        dsimp only
        exact ih _ _ (fmul_nonneg _ _ h₀ h0) (fmul_mono _ _ _ _ h₀ h0 h₀' hle) h

theorem counts_mono (d d' : ℚ) (total r : Nat) (hd0 : 0 ≤ d') (hdd : d' ≤ d) (hd1 : d ≤ 1)
    (h : randomCount d total = .ok r) :
    ∃ r', randomCount d' total = .ok r' ∧ r' ≤ r ∧
      (total ≤ 2 ^ 53 → subUInt64 total r ≤ subUInt64 total r') := by
  obtain ⟨r', hr', hle⟩ := randomCount_mono d d' total r hd0 hdd h
  refine ⟨r', hr', hle, ?_⟩
  intro ht
  obtain ⟨h1, h2⟩ := randomCount_no_wrap_of_ok d total r ⟨le_trans hd0 hdd, hd1⟩ ht h
  obtain ⟨_, h4⟩ := randomCount_no_wrap_of_ok d' total r' ⟨hd0, le_trans hdd hd1⟩ ht hr'
  rw [h2, h4]
  omega

/-- C19, amended: with every average tile density in `[0,1]`, the random count
under the density `GetDensityByGatedActionNames` returns is defined for every
total below `2^64 - 1024`.  Appending a known data-space name to the gating
list of an action never increases the returned density; on every total whose
random count is defined under the original list, the random count under the
longer list is defined and not larger, and for totals up to `2^53` the gated
count does not decrease.  For a fixed list, lowering densities in the
collection, to values that are still non-negative, gives the same three
conclusions. -/
theorem gating_monotone (shape : Shape) (m : CompoundDataMovementInfo)
    (info info' : PerDataSpaceActionGatingInfo) (action : String) (names : List String)
    (name : String) (id : Nat) (record : DataMovementInfo) (d : ℚ)
    (hden : ∀ r ∈ m, 0 ≤ r.tile_density ∧ r.tile_density ≤ 1)
    (hinfo : info action = some names) (hinfo' : info' action = some (names ++ [name]))
    (hid : shape.DataSpaceNameToID name = some id) (hrec : m[id]? = some record)
    (hd : GetDensityByGatedActionNames shape info action m = .ok d) :
    (∀ total, total < 2 ^ 64 - 2 ^ 10 → ∃ r, randomCount d total = .ok r) ∧
    (∃ d', GetDensityByGatedActionNames shape info' action m = .ok d' ∧ d' ≤ d ∧
      ∀ total r, randomCount d total = .ok r →
        ∃ r', randomCount d' total = .ok r' ∧ r' ≤ r ∧
          (total ≤ 2 ^ 53 → subUInt64 total r ≤ subUInt64 total r')) ∧
    (∀ m₂ : CompoundDataMovementInfo,
      (∀ (i : Nat) (r : DataMovementInfo), m[i]? = some r →
        ∃ r₂ : DataMovementInfo, m₂[i]? = some r₂ ∧ 0 ≤ r₂.tile_density ∧
          r₂.tile_density ≤ r.tile_density) →
      ∃ d₂, GetDensityByGatedActionNames shape info action m₂ = .ok d₂ ∧ d₂ ≤ d ∧
        ∀ total r, randomCount d total = .ok r →
          ∃ r₂, randomCount d₂ total = .ok r₂ ∧ r₂ ≤ r ∧
            (total ≤ 2 ^ 53 → subUInt64 total r ≤ subUInt64 total r₂)) := by
  have hunit := GetDensityByGatedActionNames_unit shape m hden info action d hd
  refine ⟨fun total ht => randomCount_defined d total hunit.1 hunit.2 ht, ?_⟩
  have hone : roundToDouble (1 : ℚ) = 1 := by
    simpa using roundToDouble_natCast 1 (by norm_num)
  unfold GetDensityByGatedActionNames at hd ⊢
  rw [hinfo] at hd
  cases names with
  | nil => simp at hd
  | cons first rest =>
    dsimp only at hd
    by_cases hall : first = "all"
    · rw [if_pos hall] at hd
      simp only [Except.ok.injEq] at hd
      subst hd
      refine ⟨⟨0, ?_, le_rfl, fun total r h => counts_mono 0 0 total r le_rfl le_rfl hunit.2 h⟩,
        ?_⟩
      · rw [hinfo', List.cons_append]
        dsimp only
        rw [if_pos hall]
      · intro m₂ _
        refine ⟨0, ?_, le_rfl, fun total r h => counts_mono 0 0 total r le_rfl le_rfl hunit.2 h⟩
        rw [hinfo]
        dsimp only
        rw [if_pos hall]
    · rw [if_neg hall] at hd
      have hdbl := gatedDensityLoop_isDouble shape m (fun r hr => (hden r hr).1) _ 1 d
        (by norm_num) hone hd
      have hrd := hden record (List.getElem?_mem hrec)
      refine ⟨⟨fmul d record.tile_density, ?_, fmul_le_left d _ hdbl.1 hdbl.2 hrd.1 hrd.2,
        fun total r h => counts_mono d _ total r (fmul_nonneg _ _ hdbl.1 hrd.1)
          (fmul_le_left d _ hdbl.1 hdbl.2 hrd.1 hrd.2) hunit.2 h⟩, ?_⟩
      · rw [hinfo', List.cons_append]
        dsimp only
        rw [if_neg hall, ← List.cons_append]
        exact gatedDensityLoop_append shape m _ name id record 1 d hid hrec hd
      · intro m₂ hlow
        obtain ⟨d₂, hd₂, h0, hle⟩ := gatedDensityLoop_mono shape m m₂ hlow _ 1 1 d
          (by norm_num) le_rfl hd
        refine ⟨d₂, ?_, hle, fun total r h => counts_mono d d₂ total r h0 hle hunit.2 h⟩
        rw [hinfo]
        dsimp only
        rw [if_neg hall]
        exact hd₂

/-- Witness of `gating_monotone`: Inputs appended to the read list of Outputs. -/
theorem gating_monotone_witness :
    (∃ r, randomCount (1 / 2) (2 ^ 63) = .ok r) ∧
    ∃ d', GetDensityByGatedActionNames threeSpaces (readGate ["Weights", "Inputs"]) "read"
        sampleMovement = .ok d' ∧ d' ≤ 1 / 2 ∧
      (∃ r', randomCount d' 10 = .ok r' ∧ r' ≤ 5 ∧ subUInt64 10 5 ≤ subUInt64 10 r') ∧
      ∃ d₂, GetDensityByGatedActionNames threeSpaces (readGate ["Weights"]) "read"
        sparserMovement = .ok d₂ ∧ d₂ ≤ 1 / 2 := by
  obtain ⟨hdef, ⟨d', h1, h2, h3⟩, h4⟩ := gating_monotone threeSpaces sampleMovement
    (readGate ["Weights"]) (readGate ["Weights", "Inputs"]) "read" ["Weights"] "Inputs" 1
    (movement 60 30 0 (roundToDouble (2 / 5))) (1 / 2) (by decide!) rfl rfl rfl rfl
    (eq_ok_of_toOption _ _ (by decide!))
  obtain ⟨r', h5, h6, h7⟩ := h3 10 5 (eq_ok_of_toOption _ _ (by decide!))
  obtain ⟨d₂, h8, h9, _⟩ := h4 sparserMovement (by
    intro i r hr
    have hi : i < 3 := by
      by_contra hge
      have hlen : sampleMovement.length ≤ i := by
        have e : sampleMovement.length = 3 := rfl
        omega
      rw [List.getElem?_eq_none hlen] at hr
      cases hr
    interval_cases i
    · cases hr
      exact ⟨_, rfl, by decide!, by decide!⟩
    · cases hr
      exact ⟨_, rfl, by decide!, by decide!⟩
    · cases hr
      exact ⟨_, rfl, by decide!, by decide!⟩)
  exact ⟨hdef (2 ^ 63) (by norm_num), d', h1, h2, ⟨r', h5, h6, h7 (by norm_num)⟩, d₂, h8, h9⟩

/-- C19 fails as stated.  Outputs is read `2^54 + 3` times and its reads are
gated by dense Weights: the density is `1.0`, `random_read = 2^54 + 4` exceeds
the total and `gated_read` wraps to `2^64 - 1`.  Appending Inputs, of density
one half, to the list lowers the density to `0.5` and `random_read` to
`2^53 + 2`, and `gated_read` decreases to `2^53 + 1`. -/
theorem gated_count_decreases_above_2_pow_53 :
    (∀ r ∈ hugeOutputs, 0 ≤ r.tile_density ∧ r.tile_density ≤ 1) ∧
    (GetDensityByGatedActionNames threeSpaces (readGate ["Weights"]) "read"
      hugeOutputs).toOption = some 1 ∧
    (GetDensityByGatedActionNames threeSpaces (readGate ["Weights", "Inputs"]) "read"
      hugeOutputs).toOption = some (1 / 2) ∧
    countAfter (ComputeFineGrainDataMovementAccesses threeSpaces hugeOutputs
      weightsReadGating) 2 "random_read" = some (2 ^ 54 + 4) ∧
    countAfter (ComputeFineGrainDataMovementAccesses threeSpaces hugeOutputs
      weightsReadGating) 2 "gated_read" = some (2 ^ 64 - 1) ∧
    countAfter (ComputeFineGrainDataMovementAccesses threeSpaces hugeOutputs
      weightsInputsReadGating) 2 "random_read" = some (2 ^ 53 + 2) ∧
    countAfter (ComputeFineGrainDataMovementAccesses threeSpaces hugeOutputs
      weightsInputsReadGating) 2 "gated_read" = some (2 ^ 53 + 1) ∧
    ¬ (2 ^ 64 - 1 ≤ 2 ^ 53 + 1) := by
  decide!

/-! ### State left by a failed call (C20) -/

theorem forLoop_error {σ : Type} (body : Nat → σ → Except Error σ) (n : Nat) (s t : σ)
    (e : Error) (h : forLoop body n s = .error (e, t)) :
    ∃ i, i < n ∧ forLoop body i s = .ok t ∧ body i t = .error e := by
  induction n with
  | zero => unfold forLoop at h; simp at h
  | succ n ih =>
    unfold forLoop at h
    cases h1 : forLoop body n s with
    | error e1 =>
      rw [h1] at h
      simp only [Except.error.injEq] at h
      subst h
      obtain ⟨i, hi, h2, h3⟩ := ih h1
      exact ⟨i, Nat.lt_succ_of_lt hi, h2, h3⟩
    | ok u =>
      rw [h1] at h
      simp only at h
      cases h2 : body n u with
      | ok v => rw [h2] at h; simp at h
      | error e2 =>
        rw [h2] at h
        simp only [Except.error.injEq, Prod.mk.injEq] at h
        obtain ⟨he, hu⟩ := h
        subst he; subst hu
        exact ⟨n, Nat.lt_succ_self n, h1, h2⟩

theorem randomCount_error (d : ℚ) (total : Nat) (e : Error)
    (h : randomCount d total = .error e) : e = .undefined := by
  unfold randomCount toUInt64 at h
  split_ifs at h
  simp only [Except.error.injEq] at h
  exact h.symm

theorem dataMovementRecord_error (dR dW : ℚ) (r : DataMovementInfo) (e : Error)
    (h : dataMovementRecord dR dW r = .error e) : e = .undefined := by
  unfold dataMovementRecord at h
  dsimp only at h
  cases h1 : randomCount dR r.reads with
  | error e1 =>
    rw [h1] at h
    simp only [Except.error.injEq] at h
    subst h
    exact randomCount_error _ _ _ h1
  | ok rr =>
    rw [h1] at h
    simp only at h
    cases h2 : randomCount dW r.fills with
    | error e2 =>
      rw [h2] at h
      simp only [Except.error.injEq] at h
      subst h
      exact randomCount_error _ _ _ h2
    | ok rf => rw [h2] at h; simp at h

theorem accountingBody_error (shape : Shape) (g : PerStorageLevelActionGatingInfo)
    (pv : Nat) (m : CompoundDataMovementInfo) (e : Error)
    (h : accountingBody shape g "read" "write" dataMovementRecord pv m = .error e) :
    gatingDensities shape g "read" "write" pv m = .error e ∨ e = .undefined := by
  unfold accountingBody at h
  cases hd : gatingDensities shape g "read" "write" pv m with
  | error e1 =>
    rw [hd] at h
    simp only [Except.error.injEq] at h
    subst h
    exact Or.inl rfl
  | ok d =>
    rw [hd] at h
    simp only at h
    right
    cases hr : m[pv]? with
    | none =>
      rw [hr] at h
      simp only [Except.error.injEq] at h
      exact h.symm
    | some r =>
      rw [hr] at h
      simp only at h
      cases ha : dataMovementRecord d.1 d.2 r with
      | error e2 =>
        rw [ha] at h
        simp only [Except.error.injEq] at h
        subst h
        exact dataMovementRecord_error _ _ _ _ ha
      | ok r' => rw [ha] at h; simp at h

theorem metaDataKeys_not_data (k : String) (hk : k ∈ metaDataKeys) : k ∉ dataKeys := by
  simp only [metaDataKeys, List.mem_cons, List.mem_singleton, List.not_mem_nil, or_false] at hk
  rcases hk with h | h | h | h <;> subst h <;> decide

theorem exists_error_of_failureOf {σ : Type} (result : Except (Error × σ) σ) (e : Error)
    (h : failureOf result = some e) : ∃ s, result = .error (e, s) := by
  cases result with
  | ok a => simp [failureOf] at h
  | error p =>
    obtain ⟨e1, s⟩ := p
    simp only [failureOf, Option.some.injEq] at h
    subst h
    exact ⟨s, rfl⟩

theorem eq_error_of_errorOf {α : Type} (result : Except Error α) (e : Error)
    (h : errorOf result = some e) : result = .error e := by
  cases result with
  | ok a => simp [errorOf] at h
  | error e1 =>
    simp only [errorOf, Option.some.injEq] at h
    rw [h]

/-- Where the storage loop stops: the first data space whose resolution of
`read` and `write` raises the lookup error. -/
theorem storage_loop_stops_at (shape : Shape) (m s : CompoundDataMovementInfo)
    (g : PerStorageLevelActionGatingInfo) (k : Nat)
    (h : ComputeFineGrainDataMovementAccesses shape m g = .error (.out_of_range, s))
    (hk : k < shape.NumDataSpaces)
    (hfail : gatingDensities shape g "read" "write" k m = .error .out_of_range)
    (hfirst : ∀ j, j < k → gatingDensities shape g "read" "write" j m ≠ .error .out_of_range) :
    forLoop (accountingBody shape g "read" "write" dataMovementRecord) k m = .ok s := by
  unfold ComputeFineGrainDataMovementAccesses at h
  cases h1 : forLoop (accountingBody shape g "read" "write" dataMovementRecord)
      shape.NumDataSpaces m with
  | ok t =>
    obtain ⟨_, _, _, hall⟩ := forLoop_accounting shape g "read" "write" dataMovementRecord
      dataMovementRecord_keeps _ m t h1
    obtain ⟨d, _, _, hd, _⟩ := hall k hk
    rw [hd] at hfail
    cases hfail
  | error p =>
    rw [h1] at h
    simp only [Except.error.injEq] at h
    subst h
    obtain ⟨i, hi, h2, h3⟩ := forLoop_error _ _ _ _ _ h1
    obtain ⟨_, hden, _, hall⟩ := forLoop_accounting shape g "read" "write" dataMovementRecord
      dataMovementRecord_keeps i m s h2
    rcases Nat.lt_trichotomy i k with hlt | heq | hgt
    · rcases accountingBody_error shape g i s _ h3 with he | he
      · rw [gatingDensities_congr shape g _ _ i s m hden] at he
        exact absurd he (hfirst i hlt)
      · cases he
    · rw [← heq]
      exact h2
    · obtain ⟨d, _, _, hd, _⟩ := hall k hgt
      rw [hd] at hfail
      cases hfail

/-- C20, amended: let `ComputeFineGrainDataMovementAccesses` fail with the
lookup error, and let `k` be the smallest id whose resolution of the `read` and
`write` densities raises it.  In the state the call leaves behind, the record
of every data space below `k` holds the six data entries computed from its
densities by the formulas of a successful run (and equal to those any
successful run with the same two densities writes), the records from `k` on
are unchanged, and no metadata entry of any record has changed. -/
theorem failure_partial_state (shape : Shape) (m s : CompoundDataMovementInfo)
    (g : PerStorageLevelActionGatingInfo) (k : Nat)
    (h : ComputeFineGrainDataMovementAccesses shape m g = .error (.out_of_range, s))
    (hk : k < shape.NumDataSpaces)
    (hfail : gatingDensities shape g "read" "write" k m = .error .out_of_range)
    (hfirst : ∀ j, j < k → gatingDensities shape g "read" "write" j m ≠ .error .out_of_range) :
    s.length = m.length ∧
    (∀ i, i < k → ∃ d r rr rf,
      gatingDensities shape g "read" "write" i m = .ok d ∧ m[i]? = some r ∧
      randomCount d.1 r.reads = .ok rr ∧ randomCount d.2 r.fills = .ok rf ∧
      s[i]? = some (withAccesses r
        (dataEntries r.fine_grained_accesses r.reads rr r.fills rf r.updates)) ∧
      ∀ (g' : PerStorageLevelActionGatingInfo) (m' : CompoundDataMovementInfo),
        ComputeFineGrainDataMovementAccesses shape m g' = .ok m' →
        gatingDensities shape g' "read" "write" i m = .ok d →
        ∃ r', m'[i]? = some r' ∧ ∀ key ∈ dataKeys, r'.fine_grained_accesses key =
          dataEntries r.fine_grained_accesses r.reads rr r.fills rf r.updates key) ∧
    (∀ i, k ≤ i → s[i]? = m[i]?) ∧
    (∀ (i : Nat) (r r' : DataMovementInfo), m[i]? = some r → s[i]? = some r' →
      ∀ key ∈ metaDataKeys, r'.fine_grained_accesses key = r.fine_grained_accesses key) := by
  have hloop := storage_loop_stops_at shape m s g k h hk hfail hfirst
  obtain ⟨hlen, _, hrest, hall⟩ := forLoop_accounting shape g "read" "write" dataMovementRecord
    dataMovementRecord_keeps k m s hloop
  have hbelow : ∀ i, i < k → ∃ d r rr rf,
      gatingDensities shape g "read" "write" i m = .ok d ∧ m[i]? = some r ∧
      randomCount d.1 r.reads = .ok rr ∧ randomCount d.2 r.fills = .ok rf ∧
      s[i]? = some (withAccesses r
        (dataEntries r.fine_grained_accesses r.reads rr r.fills rf r.updates)) := by
    intro i hi
    obtain ⟨d, r, r', hd, hr, ha, hs⟩ := hall i hi
    obtain ⟨rr, rf, hrr, hrf, e⟩ := (dataMovementRecord_ok_iff _ _ _ _).mp ha
    rw [e] at hs
    exact ⟨d, r, rr, rf, hd, hr, hrr, hrf, hs⟩
  refine ⟨hlen, ?_, hrest, ?_⟩
  · intro i hi
    obtain ⟨d, r, rr, rf, hd, hr, hrr, hrf, hs⟩ := hbelow i hi
    refine ⟨d, r, rr, rf, hd, hr, hrr, hrf, hs, ?_⟩
    intro g' m' hrun hd'
    obtain ⟨_, _, _, hspec⟩ := dataMovement_spec shape m m' g' hrun
    obtain ⟨d2, dm, r2, rr2, rf2, mr, mf, hd2, _, hr2, hrr2, hrf2, _, _, hm'⟩ :=
      hspec i (lt_trans hi hk)
    rw [hd'] at hd2
    simp only [Except.ok.injEq] at hd2
    subst hd2
    rw [hr] at hr2
    simp only [Option.some.injEq] at hr2
    subst hr2
    rw [hrr] at hrr2
    rw [hrf] at hrf2
    simp only [Except.ok.injEq] at hrr2 hrf2
    subst hrr2; subst hrf2
    refine ⟨_, hm', ?_⟩
    intro key hkey
    exact metaDataEntries_frame _ _ _ _ _ key (dataKeys_not_metaData key hkey)
  · intro i r r' hr hs key hkey
    by_cases hi : i < k
    · obtain ⟨d, r0, rr, rf, _, hr0, _, _, hs0⟩ := hbelow i hi
      rw [hr] at hr0
      simp only [Option.some.injEq] at hr0
      subst hr0
      rw [hs] at hs0
      simp only [Option.some.injEq] at hs0
      subst hs0
      exact dataEntries_frame _ _ _ _ _ _ key (metaDataKeys_not_data key hkey)
    · rw [hrest i (not_lt.mp hi), hr] at hs
      simp only [Option.some.injEq] at hs
      subst hs
      rfl

/-- Witness of `failure_partial_state`: the read list of Outputs names the
unknown Biases, so the call stops at id 2 with Weights and Inputs accounted. -/
theorem failure_partial_state_witness :
    ∃ s, ComputeFineGrainDataMovementAccesses threeSpaces sampleMovement unknownReadGating
        = .error (.out_of_range, s) ∧
      s[2]? = sampleMovement[2]? ∧
      ∃ d r rr rf, gatingDensities threeSpaces unknownReadGating "read" "write" 0
          sampleMovement = .ok d ∧ sampleMovement[0]? = some r ∧
        randomCount d.1 r.reads = .ok rr ∧ randomCount d.2 r.fills = .ok rf ∧
        s[0]? = some (withAccesses r
          (dataEntries r.fine_grained_accesses r.reads rr r.fills rf r.updates)) := by
  obtain ⟨s, hs⟩ := exists_error_of_failureOf
    (ComputeFineGrainDataMovementAccesses threeSpaces sampleMovement unknownReadGating)
    .out_of_range (by decide!)
  obtain ⟨_, h1, h2, _⟩ := failure_partial_state threeSpaces sampleMovement s unknownReadGating 2
    hs (by decide) (eq_error_of_errorOf _ _ (by decide!))
    (by
      intro j hj e
      have e' := congrArg errorOf e
      interval_cases j
      · revert e'
        decide!
      · revert e'
        decide!)
  obtain ⟨d, r, rr, rf, a1, a2, a3, a4, a5, _⟩ := h1 0 (by norm_num)
  exact ⟨s, hs, h2 2 le_rfl, d, r, rr, rf, a1, a2, a3, a4, a5⟩

/-- C20 fails as stated.  The read list of Weights, id 0, is `all` followed by
the unknown Biases: it names an unknown data space, yet no lookup takes place
and record 0 is accounted.  The call fails with the lookup error at Inputs,
id 1, and record 0, which is not below the smallest id whose list names an
unknown data space, has changed: `gated_read = 100`. -/
theorem all_list_with_unknown_name_is_accounted :
    threeSpaces.DataSpaceIDToName 0 = some "Weights" ∧
    ((allThenUnknownGating "Weights").bind (· "read")) = some ["all", "Biases"] ∧
    threeSpaces.DataSpaceNameToID "Biases" = none ∧
    failureOf (ComputeFineGrainDataMovementAccesses threeSpaces sampleMovement
      allThenUnknownGating) = some .out_of_range ∧
    errorOf (gatingDensities threeSpaces allThenUnknownGating "read" "write" 0 sampleMovement)
      = none ∧
    errorOf (gatingDensities threeSpaces allThenUnknownGating "read" "write" 1 sampleMovement)
      = some .out_of_range ∧
    (sampleMovement[0]?).bind (·.fine_grained_accesses "gated_read") = none ∧
    countAtFailure (ComputeFineGrainDataMovementAccesses threeSpaces sampleMovement
      allThenUnknownGating) 0 "random_read" = some 0 ∧
    countAtFailure (ComputeFineGrainDataMovementAccesses threeSpaces sampleMovement
      allThenUnknownGating) 0 "gated_read" = some 100 := by
  decide!

end tiling
